import Mathlib

/-!
packer-plugin-libvirt: verification development

A shallow embedding of the orchestration core of the libvirt builder
(`builder/libvirt/*.go`) together with theorems about it.

Conventions of the embedding

* Go `string` is `String`, Go `int`/`int32` is `Int` (no arithmetic in the embedded
  code can overflow), Go `bool` is `Bool`.
* A Go `error` result is an `Except`/`Option` value; a run-time panic is an explicit
  outcome constructor.
* Calls that leave the process (file system, libvirt daemon, the embedded SDK
  validators) are parameters of the embedded function: the theorems quantify over
  every possible behaviour of the collaborator.
-/

namespace PackerLibvirt

/-! ## config.go: tables and the configuration record -/

/-- The table `diskInterfaceToDev` of config.go; a Go map lookup of a key that is not
in the map gives the zero value, the empty string. -/
def diskInterfaceToDev (k : String) : String :=
  if k = "ide" then "hd"
  else if k = "scsi" then "sd"
  else if k = "virtio" then "vd"
  else if k = "virtio-scsi" then "sd"
  else ""

/-- The key set of the table `diskInterface` of config.go. -/
def diskInterface : List String := ["ide", "scsi", "virtio", "virtio-scsi"]

/-- The key set of the table `hypervisors` of config.go. -/
def hypervisors : List String := ["kvm", "qemu", "xen"]

/-- The key set of the table `diskCache` of config.go. -/
def diskCache : List String := ["writethrough", "writeback", "none", "unsafe", "directsync"]

/-- The key set of the table `diskDiscard` of config.go. -/
def diskDiscard : List String := ["unmap", "ignore"]

/-- The key set of the table `diskDZeroes` of config.go. -/
def diskDZeroes : List String := ["unmap", "on", "off"]

/-- The fields of `Config` (config.go) that the embedded code reads or writes. The
fields `PackerBuildName`, `PackerForce`, `PackerDebug` come from the squashed
`common.PackerConfig`, `ISOChecksum` from the squashed `commonsteps.ISOConfig`. -/
structure Config where
  PackerBuildName : String := ""
  PackerForce : Bool := false
  PackerDebug : Bool := false
  ISOChecksum : String := ""
  ISOSkipCache : Bool := false
  Hypervisor : String := ""
  AdditionalDiskSize : List String := []
  CpuCount : Int := 0
  DiskInterface : String := ""
  DiskSize : String := ""
  SkipResizeDisk : Bool := false
  DiskCache : String := ""
  DiskDiscard : String := ""
  DetectZeroes : String := ""
  SkipCompaction : Bool := false
  DiskCompression : Bool := false
  Format : String := ""
  DiskImage : Bool := false
  UseBackingFile : Bool := false
  LibvirtAddr : String := ""
  Arch : String := ""
  MachineType : String := ""
  Loader : String := ""
  CPUMode : String := ""
  EmulatorBinary : String := ""
  MemorySize : Int := 0
  NetDevice : String := ""
  NetBridge : String := ""
  OutputDir : String := ""
  XMLFile : String := ""
  VNCBindAddress : String := ""
  VNCUsePassword : Bool := false
  VNCPortMin : Int := 0
  VNCPortMax : Int := 0
  VMName : String := ""
  CDROMInterface : String := ""
  deriving DecidableEq, Repr

/-! ## config.go: `Config.Prepare` -/

/-- Go's `unicode.ToLower` on the characters whose lower-case form is an ASCII
character: 'A'..'Z', U+0130 (to 'i') and the Kelvin sign U+212A (to 'k'). Every other
character is left as it is here: its lower-case form lies outside ASCII, like the
character itself, and the patterns of `Prepare` match ASCII characters only. -/
def ToLowerRune (c : Char) : Char :=
  if c.isUpper then Char.ofNat (c.toNat + 32)
  else if c = Char.ofNat 0x0130 then 'i'
  else if c = Char.ofNat 0x212A then 'k'
  else c

/-- Go's `strings.ToLower`, character by character. -/
def ToLower (s : String) : String := String.mk (s.toList.map ToLowerRune)

/-- The pattern `^[\d]+(b|k|m|g|t){0,1}$` of `Prepare`, as `MatchString`: the longest
run of ASCII digits at the start is not empty and is followed by nothing or by exactly
one of the five unit letters. -/
def matchDiskSize (s : String) : Bool :=
  let digits := s.toList.takeWhile Char.isDigit
  let unit := s.toList.dropWhile Char.isDigit
  !digits.isEmpty &&
    (unit == [] || unit == ['b'] || unit == ['k'] || unit == ['m'] || unit == ['g'] ||
      unit == ['t'])

/-- The pattern `^[\d]+$` of `Prepare`, as `MatchString`. -/
def matchDigits (s : String) : Bool :=
  !s.toList.isEmpty && s.toList.all Char.isDigit

/-- The Kelvin sign U+212A, whose lower-case form is the letter k. -/
def kelvinSign : Char := Char.ofNat 0x212A

/-- The unit letters b, k, m, g, t in either case. -/
def unitLetters : List Char := ['b', 'k', 'm', 'g', 't', 'B', 'K', 'M', 'G', 'T']

/-- The form "one or more decimal digits optionally followed by a single unit
character among `units`" of a disk size. -/
def digitsThenUnit (units : List Char) (s : String) : Prop :=
  ∃ ds : List Char, ds ≠ [] ∧ (∀ c ∈ ds, c.isDigit = true) ∧
    (s.toList = ds ∨ ∃ u ∈ units, s.toList = ds ++ [u])

/-- The errors `Prepare` appends to `errs`, one constructor per `MultiErrorAppend`
site of config.go; `sdk` is an error returned by a `Prepare` of one of the embedded
SDK configurations. -/
inductive PrepareError where
  | sdk (msg : String)
  | invalidDiskSize
  | emulatorNotExecutable (bin : String)
  | invalidFormat
  | useBackingFile
  | skipResizeDisk
  | invalidHypervisor
  | unrecognizedDiskInterface
  | unrecognizedDiskCache
  | unrecognizedDiskDiscard
  | unrecognizedDetectZeroes
  | outputDirExists (dir : String)
  | vncPortRange
  | xmlFileMissing (file : String)
  deriving DecidableEq, Repr

/-- The message of each error, as written in config.go. -/
def PrepareError.message : PrepareError → String
  | .sdk msg => msg
  | .invalidDiskSize => "Invalid disk size."
  | .emulatorNotExecutable bin => "EmulatorBinary " ++ bin ++ " is not executeable file"
  | .invalidFormat => "invalid format, only 'qcow2' or 'raw' are allowed"
  | .useBackingFile =>
    "use_backing_file can only be enabled for QCOW2 images and when disk_image is true"
  | .skipResizeDisk => "skip_resize_disk can only be used when disk_image is true"
  | .invalidHypervisor => "invalid hypervisor, only 'kvm', 'qemu', 'xen' are allowed"
  | .unrecognizedDiskInterface => "unrecognized disk interface type"
  | .unrecognizedDiskCache => "unrecognized disk cache type"
  | .unrecognizedDiskDiscard => "unrecognized disk discard type"
  | .unrecognizedDetectZeroes => "unrecognized disk detect zeroes setting"
  | .outputDirExists dir => "Output directory '" ++ dir ++ "' already exists. It must not exist."
  | .vncPortRange => "vnc_port_min must be less than vnc_port_max"
  | .xmlFileMissing file => "User defined XML file '" ++ file ++ "' is not exist"

/-- What `Prepare` obtains from outside config.go: the error of `config.Decode`,
whether `os.Open("/dev/kvm")` succeeds, `exec.LookPath`, whether `os.Stat` of a path
succeeds, and the errors and warnings returned by the `Prepare` of each embedded SDK
configuration. -/
structure PrepareEnv where
  Decode : Option String
  OpenKvm : Bool
  LookPath : String → Except String String
  Stat : String → Bool
  ShutdownConfig : List String
  FloppyConfig : List String
  CDConfig : List String
  VNCConfig : List String
  ISOConfigWarnings : List String
  ISOConfig : List String
  HTTPConfig : List String
  Comm : List String

/-- The variables of `Prepare`: the receiver `c`, `errs`, `warnings`, and the lines
written with `log.Printf`. -/
structure PrepareState where
  c : Config
  errs : List PrepareError
  warnings : List String
  log : List String

/-- An `if cond { errs = MultiErrorAppend(errs, e) }` contributes `e` or nothing. -/
def errIf (cond : Prop) [Decidable cond] (e : PrepareError) : List PrepareError :=
  if cond then [e] else []

/-- The list `errs` holds the error `e` once when the check is violated and not at all
otherwise. -/
def reportsOnceIff (errs : List PrepareError) (e : PrepareError) (violated : Prop) : Prop :=
  (violated → errs.count e = 1) ∧ (¬ violated → errs.count e = 0)

/-- Two configurations agree on every setting that a check of `Prepare` or a default
feeding such a check reads, the disk size apart. -/
def sameChecked (a b : Config) : Prop :=
  a.Format = b.Format ∧
  a.UseBackingFile = b.UseBackingFile ∧
  a.DiskImage = b.DiskImage ∧
  a.SkipResizeDisk = b.SkipResizeDisk ∧
  a.Hypervisor = b.Hypervisor ∧
  a.DiskInterface = b.DiskInterface ∧
  a.DiskCache = b.DiskCache ∧
  a.DiskDiscard = b.DiskDiscard ∧
  a.DetectZeroes = b.DetectZeroes ∧
  a.PackerForce = b.PackerForce ∧
  a.OutputDir = b.OutputDir ∧
  a.VNCPortMin = b.VNCPortMin ∧
  a.VNCPortMax = b.VNCPortMax ∧
  a.XMLFile = b.XMLFile ∧
  a.EmulatorBinary = b.EmulatorBinary ∧
  a.PackerBuildName = b.PackerBuildName

/-- Lines 290-309 of `Prepare`: the disk size. -/
def Prepare_diskSize (s : PrepareState) : PrepareState :=
  if s.c.DiskSize = "" ∨ s.c.DiskSize = "0" then
    { s with c := { s.c with DiskSize := "40960M" } }
  else
    let matched := matchDiskSize (ToLower s.c.DiskSize)
    if !matched then
      { s with errs := s.errs ++ [PrepareError.invalidDiskSize] }
    else
      let matched := matchDigits (ToLower s.c.DiskSize)
      if matched then
        { s with c := { s.c with DiskSize := s.c.DiskSize ++ "M" } }
      else
        s

/-- Lines 311-338 of `Prepare`: the defaults of the disk policies and the choice of
the hypervisor. -/
def Prepare_accelerator (env : PrepareEnv) (s : PrepareState) : PrepareState :=
  let c := s.c
  let log := s.log
  let c := if c.DiskCache = "" then { c with DiskCache := "writeback" } else c
  let c := if c.DiskDiscard = "" then { c with DiskDiscard := "ignore" } else c
  let c := if c.DetectZeroes = "" then { c with DetectZeroes := "off" } else c
  let detected : Bool := c.Hypervisor = ""
  let c := if c.Hypervisor = "" then
      (if env.OpenKvm then { c with Hypervisor := "kvm" } else { c with Hypervisor := "qemu" })
    else c
  let log := log ++ [(if detected then "use detected accelerator: "
    else "use specified accelerator: ") ++ c.Hypervisor]
  { s with c := c, log := log }

/-- Lines 340-358 of `Prepare`: the defaults of the machine settings. -/
def Prepare_machine (s : PrepareState) : PrepareState :=
  let c := s.c
  let c := if c.Arch = "" then { c with Arch := "x86_64" } else c
  let c := if c.MachineType = "" then { c with MachineType := "pc" } else c
  let c := if c.OutputDir = "" then { c with OutputDir := "output-" ++ c.PackerBuildName } else c
  let c := if c.CPUMode = "" then { c with CPUMode := "host-passthrough" } else c
  let c := if c.EmulatorBinary = "" then { c with EmulatorBinary := "/usr/libexec/qemu-kvm" }
    else c
  { s with c := c }

/-- Lines 359-368 of `Prepare`: the lookup of the emulator binary and the default of
the daemon address. -/
def Prepare_emulator (env : PrepareEnv) (s : PrepareState) : PrepareState :=
  let s :=
    match env.LookPath s.c.EmulatorBinary with
    | .error _ =>
      { s with errs := s.errs ++ [PrepareError.emulatorNotExecutable s.c.EmulatorBinary] }
    | .ok emulatorPath => { s with c := { s.c with EmulatorBinary := emulatorPath } }
  let c := s.c
  let c := if c.LibvirtAddr = "" then { c with LibvirtAddr := "/var/run/libvirt/libvirt-sock" }
    else c
  { s with c := c }

/-- Lines 370-398 of `Prepare`: the coercion of too small memory and CPU settings and
the defaults of the display, the name and the format. -/
def Prepare_sizing (s : PrepareState) : PrepareState :=
  let c := s.c
  let log := s.log
  let log := if c.MemorySize < 10 then
      log ++ ["MemorySize " ++ toString c.MemorySize ++ " is too small, using default: 512"]
    else log
  let c := if c.MemorySize < 10 then { c with MemorySize := 512 } else c
  let log := if c.CpuCount < 1 then
      log ++ ["CpuCount " ++ toString c.CpuCount ++ " too small, using default: 1"]
    else log
  let c := if c.CpuCount < 1 then { c with CpuCount := 1 } else c
  let c := if c.VNCBindAddress = "" then { c with VNCBindAddress := "127.0.0.1" } else c
  let c := if c.VNCPortMin = 0 then { c with VNCPortMin := 5900 } else c
  let c := if c.VNCPortMax = 0 then { c with VNCPortMax := 6000 } else c
  let c := if c.VMName = "" then { c with VMName := "packer-" ++ c.PackerBuildName } else c
  let c := if c.Format = "" then { c with Format := "qcow2" } else c
  { s with c := c, log := log }

/-- Lines 400-423 of `Prepare`: the embedded SDK configurations and two more
defaults. -/
def Prepare_sdk (env : PrepareEnv) (s : PrepareState) : PrepareState :=
  let c := s.c
  let errs := s.errs
  let warnings := s.warnings
  let errs := errs ++ env.FloppyConfig.map PrepareError.sdk
  let errs := errs ++ env.CDConfig.map PrepareError.sdk
  let errs := errs ++ env.VNCConfig.map PrepareError.sdk
  let c := if c.NetDevice = "" then { c with NetDevice := "virtio-net" } else c
  let c := if c.DiskInterface = "" then { c with DiskInterface := "virtio" } else c
  let c := if c.ISOSkipCache then { c with ISOChecksum := "none" } else c
  let warnings := warnings ++ env.ISOConfigWarnings
  let errs := errs ++ env.ISOConfig.map PrepareError.sdk
  let errs := errs ++ env.HTTPConfig.map PrepareError.sdk
  let errs := errs ++ env.Comm.map PrepareError.sdk
  { s with c := c, errs := errs, warnings := warnings }

/-- Lines 425-496 of `Prepare`: the checks of the enumerated and dependent settings. -/
def Prepare_validate (env : PrepareEnv) (s : PrepareState) : PrepareState :=
  let c := s.c
  let errs := s.errs
  let errs := errs ++ errIf (¬ (c.Format = "qcow2" ∨ c.Format = "raw")) .invalidFormat
  let c := if c.Format ≠ "qcow2" then { c with SkipCompaction := true, DiskCompression := false }
    else c
  let errs := errs ++
    errIf (c.UseBackingFile = true ∧ ¬ (c.DiskImage = true ∧ c.Format = "qcow2")) .useBackingFile
  let c := if c.UseBackingFile then { c with SkipCompaction := true } else c
  let errs := errs ++ errIf (c.SkipResizeDisk = true ∧ ¬ (c.DiskImage = true)) .skipResizeDisk
  let errs := errs ++ errIf (c.Hypervisor ∉ hypervisors) .invalidHypervisor
  let errs := errs ++ errIf (c.DiskInterface ∉ diskInterface) .unrecognizedDiskInterface
  let errs := errs ++ errIf (c.DiskCache ∉ diskCache) .unrecognizedDiskCache
  let errs := errs ++ errIf (c.DiskDiscard ∉ diskDiscard) .unrecognizedDiskDiscard
  let errs := errs ++ errIf (c.DetectZeroes ∉ diskDZeroes) .unrecognizedDetectZeroes
  let errs := errs ++
    errIf (c.PackerForce = false ∧ env.Stat c.OutputDir = true) (.outputDirExists c.OutputDir)
  let errs := errs ++ errIf (c.VNCPortMin > c.VNCPortMax) .vncPortRange
  let c := if c.NetBridge = "" then { c with NetBridge := "virbr0" } else c
  let errs := errs ++
    errIf (c.XMLFile ≠ "" ∧ env.Stat c.XMLFile = false) (.xmlFileMissing c.XMLFile)
  { s with c := c, errs := errs }

/-- What `Prepare` returns: the error of `config.Decode`, or the prepared
configuration with the warnings and the collected errors; Go returns a nil error iff
`errs` is empty. -/
inductive PrepareResult where
  | decodeFailed (err : String)
  | prepared (s : PrepareState)

/-- Lines 284-496 of `Prepare`: the accumulation of errors and warnings over the
decoded configuration `c`. -/
def Prepare_body (env : PrepareEnv) (c : Config) : PrepareState :=
  let s : PrepareState :=
    { c := c, errs := env.ShutdownConfig.map PrepareError.sdk, warnings := [], log := [] }
  Prepare_validate env (Prepare_sdk env (Prepare_sizing (Prepare_emulator env
    (Prepare_machine (Prepare_accelerator env (Prepare_diskSize s))))))

/-- The method `Config.Prepare`, applied to the decoded configuration `c`. -/
def Config.Prepare (env : PrepareEnv) (c : Config) : PrepareResult :=
  match env.Decode with
  | some err => .decodeFailed err
  | none => .prepared (Prepare_body env c)

/-! ## step_run.go: the disk list of the domain descriptor -/

/-- The struct `Disk` of step_run.go. -/
structure Disk where
  Format : String
  Source : String
  Dev : String
  DiskCache : String
  DiskDiscard : String
  DetectZeroes : String
  DiskInterface : String
  deriving DecidableEq, Repr

/-- Go's `fmt.Sprintf("%c", c)` for a non-negative integer `c`: the character with
code point `c`; a value that is no Unicode scalar value (a surrogate, or above
U+10FFFF) is printed as U+FFFD, the replacement character. -/
def fmtC (c : Nat) : Char :=
  if c.isValidChar then Char.ofNat c else Char.ofNat 0xFFFD

/-- The expression `diskInterfaceToDev[config.DiskInterface] + fmt.Sprintf("%c", 'a'+i)`
of getXMLDesc. -/
def devName (iface : String) (i : Nat) : String :=
  diskInterfaceToDev iface ++ String.singleton (fmtC ('a'.toNat + i))

/-- The two functions of Go's `path/filepath` that getXMLDesc calls. -/
structure FilePath where
  Abs : String → Except String String
  Join : String → String → String

/-- The `Disk` literal that getXMLDesc builds, in both branches, from the
configuration, a source path and a device name. -/
def mkDisk (config : Config) (source dev : String) : Disk :=
  { Format := config.Format
    Source := source
    Dev := dev
    DiskCache := config.DiskCache
    DiskDiscard := config.DiskDiscard
    DetectZeroes := config.DetectZeroes
    DiskInterface := config.DiskInterface }

/-- The loop `for i, diskPath := range qemu_disk_paths` of getXMLDesc, started at
index `i` with the slice `disks` built so far; a failing `filepath.Abs` leaves the
function with that error. -/
def getXMLDesc_loop (config : Config) (fp : FilePath) :
    List String → Nat → List Disk → Except String (List Disk)
  | [], _, disks => .ok disks
  | diskPath :: rest, i, disks =>
    match fp.Abs diskPath with
    | .error err => .error err
    | .ok fullPath =>
      getXMLDesc_loop config fp rest (i + 1)
        (disks ++ [mkDisk config fullPath (devName config.DiskInterface i)])

/-- Lines 197-228 of getXMLDesc: the slice `disks`, from the staged disk paths when
the build does not boot a disk image, and the single output image otherwise (there
the error of `filepath.Abs` is dropped and the path is the zero value). -/
def getXMLDesc_disks (config : Config) (fp : FilePath) (qemu_disk_paths : List String) :
    Except String (List Disk) :=
  if !config.DiskImage then
    getXMLDesc_loop config fp qemu_disk_paths 0 []
  else
    let outputDir := match fp.Abs config.OutputDir with
      | .ok p => p
      | .error _ => ""
    let imgPath := fp.Join outputDir config.VMName
    .ok ([] ++ [mkDisk config imgPath (devName config.DiskInterface 0)])

/-! ## driver.go: the libvirt driver -/

/-- The struct `libvirt.Network` of go-libvirt. -/
structure Network where
  Name : String
  UUID : List Nat
  deriving DecidableEq, Repr

/-- The struct `libvirt.Domain` of go-libvirt; `ID` is an `int32`. -/
structure Domain where
  Name : String
  UUID : List Nat
  ID : Int
  deriving DecidableEq, Repr

/-- One address of a domain interface (`libvirt.DomainIPAddr`); `AddrType` is its
field `Type`, an `int32`. -/
structure DomainIPAddr where
  AddrType : Int
  Addr : String
  deriving DecidableEq, Repr

/-- One interface of a domain (`libvirt.DomainInterface`). -/
structure DomainInterface where
  Name : String
  Addrs : List DomainIPAddr
  deriving DecidableEq, Repr

/-- The replies of the daemon behind a `*libvirt.Libvirt` connection to the requests
the driver sends; an `Except.error` or `some` carries the message of the Go error. -/
structure Libvirt where
  ConnectListAllNetworks : Except String (List Network)
  NetworkGetBridgeName : Network → Except String String
  DomainCreateXML : String → Except String Domain
  DomainDestroy : Domain → Option String
  DomainInterfaceAddresses : Domain → Except String (List DomainInterface)

/-- A request sent to the daemon. -/
inductive Request where
  | ConnectListAllNetworks
  | NetworkGetBridgeName (n : Network)
  | DomainCreateXML (xml : String)
  | DomainDestroy (dom : Domain)
  | DomainGetState (dom : Domain)
  | DomainInterfaceAddresses (dom : Domain)
  deriving DecidableEq, Repr

/-- The struct `LibvirtDriver`. `libvirt` is a pointer, `none` when nil. `vmEndCh` is
the channel `make(chan int, 1)`: `none` is the nil channel, `some buf` a channel whose
buffer currently holds `buf`. The mutex `lock` has no state between two calls. -/
structure LibvirtDriver where
  libvirt : Option Libvirt
  netBridge : String
  vmNet : Network
  QemuImgPath : String
  vmDomain : Domain
  vmEndCh : Option (List Int)

/-- The result of running Go code that can fault on a nil pointer, an index out of
range or a failed type assertion. -/
inductive Outcome (α : Type) where
  | returned (a : α)
  | panicked

/-- The loop `for _, network := range networks` of `Verify` with the final
`fmt.Errorf`; the result is the returned error (`none` is nil) and the driver. -/
def Verify_loop (l : Libvirt) (d : LibvirtDriver) : List Network → Option String × LibvirtDriver
  | [] => (some ("Not found available network for bridge " ++ d.netBridge), d)
  | network :: rest =>
    match l.NetworkGetBridgeName network with
    | .error err => (some err, d)
    | .ok bridge =>
      if bridge = d.netBridge then
        (none, { d with vmNet := network })
      else
        Verify_loop l d rest

/-- The method `LibvirtDriver.Verify`. -/
def LibvirtDriver.Verify (d : LibvirtDriver) : Outcome (Option String × LibvirtDriver) :=
  match d.libvirt with
  | none => .panicked
  | some l =>
    match l.ConnectListAllNetworks with
    | .error err => .returned (some err, d)
    | .ok networks => .returned (Verify_loop l d networks)

/-- The method `LibvirtDriver.Stop`: the returned error and the requests sent. -/
def LibvirtDriver.Stop (d : LibvirtDriver) : Outcome (Option String × List Request) :=
  if d.vmDomain.ID ≠ 0 then
    match d.libvirt with
    | none => .panicked
    | some l =>
      match l.DomainDestroy d.vmDomain with
      | some err => .returned (some err, [Request.DomainDestroy d.vmDomain])
      | none => .returned (none, [Request.DomainDestroy d.vmDomain])
  else
    .returned (none, [])

/-- The method `LibvirtDriver.Start` up to the `go` statement: the returned error,
the driver and the requests sent. On success the monitor goroutine (`monitor` below)
is running when the method returns. -/
def LibvirtDriver.Start (d : LibvirtDriver) (Args : List String) :
    Outcome (Option String × LibvirtDriver × List Request) :=
  match Args with
  | [] => .panicked
  | XMLDesc :: _ =>
    match d.libvirt with
    | none => .panicked
    | some l =>
      match l.DomainCreateXML XMLDesc with
      | .error err => .returned (some err, d, [Request.DomainCreateXML XMLDesc])
      | .ok domain =>
        .returned (none, { d with vmEndCh := some [], vmDomain := domain },
          [Request.DomainCreateXML XMLDesc])

/-- The constant `libvirt.DomainRunning` of go-libvirt. -/
def DomainRunning : Int := 1

/-- One reply to `DomainGetState(d.vmDomain, 0)`: the state (an `int32`), or an error. -/
inductive Poll where
  | state (s : Int)
  | err (msg : String)
  deriving DecidableEq, Repr

/-- The value the monitor assigns to `errorState` on a reply that is an error or a
state other than running: 99, or the state. -/
def Poll.signal : Poll → Int
  | .err _ => 99
  | .state s => s

/-- Where the monitor goroutine stands after the ticks it has seen. -/
inductive MonitorStatus where
  | waiting
  | blockedOnSend
  | terminated
  deriving DecidableEq, Repr

/-- The observable trace of the monitor goroutine: the driver, the values it has
written to `endCh`, the number of ticks it has handled and where it stands. -/
structure MonitorRun where
  driver : LibvirtDriver
  written : List Int
  polled : Nat
  status : MonitorStatus

/-- The goroutine started by `Start`, run on the replies to its successive polls, one
per tick of the ticker. `errorState` is the local variable of that name, `polled` the
number of ticks handled before. A send on the buffered channel (capacity 1) of the
driver goes through when the buffer is empty and blocks otherwise (as on a nil
channel). -/
def monitor_loop (d : LibvirtDriver) : List Poll → Int → Nat → MonitorRun
  | [], _, polled => { driver := d, written := [], polled := polled, status := .waiting }
  | reply :: rest, errorState, polled =>
    let errorState := match reply with
      | .err _ => 99
      | .state state => if state ≠ DomainRunning then state else errorState
    if errorState ≠ -1 then
      match d.vmEndCh with
      | some [] =>
        { driver := { d with vmEndCh := some [errorState], vmDomain := { d.vmDomain with ID := 0 } }
          written := [errorState]
          polled := polled + 1
          status := .terminated }
      | _ => { driver := d, written := [], polled := polled + 1, status := .blockedOnSend }
    else
      monitor_loop d rest errorState (polled + 1)

/-- The monitor goroutine from its start: `errorState := -1`. -/
def monitor (d : LibvirtDriver) (polls : List Poll) : MonitorRun :=
  monitor_loop d polls (-1) 0

/-- What a call of `WaitForShutdown` has done at the moment it is observed. -/
inductive WaitResult where
  | returned (result : Bool) (d : LibvirtDriver) (requests : List Request)
  | blocked

/-- The method `LibvirtDriver.WaitForShutdown`, observed at a moment at which a
receive on `cancelCh` can proceed iff `cancelReady`; when both cases of the `select`
can proceed Go picks one of them, here the cancel case iff `pickCancel`. -/
def LibvirtDriver.WaitForShutdown (d : LibvirtDriver) (cancelReady pickCancel : Bool) :
    WaitResult :=
  match d.vmEndCh with
  | none => .returned true d []
  | some endCh =>
    match endCh, cancelReady with
    | [], false => .blocked
    | [], true => .returned false d []
    | _ :: rest, false => .returned true { d with vmEndCh := some rest } []
    | _ :: rest, true =>
      if pickCancel then .returned false d []
      else .returned true { d with vmEndCh := some rest } []

/-- The constant `libvirt.IPAddrTypeIpv4` of go-libvirt. -/
def IPAddrTypeIpv4 : Int := 0

/-- The inner loop `for _, addr := range iface.Addrs` of `GetDomainIP`: the address it
returns, if it returns. -/
def GetDomainIP_addrs : List DomainIPAddr → Option String
  | [] => none
  | addr :: rest =>
    if addr.AddrType = IPAddrTypeIpv4 then some addr.Addr else GetDomainIP_addrs rest

/-- The outer loop `for _, iface := range ifaces` of `GetDomainIP`: the address it
returns, if it returns. -/
def GetDomainIP_ifaces : List DomainInterface → Option String
  | [] => none
  | iface :: rest =>
    match GetDomainIP_addrs iface.Addrs with
    | some addr => some addr
    | none => GetDomainIP_ifaces rest

/-- The method `LibvirtDriver.GetDomainIP`: the returned string and error (`none` is
nil). -/
def LibvirtDriver.GetDomainIP (d : LibvirtDriver) : Outcome (String × Option String) :=
  match d.libvirt with
  | none => .panicked
  | some l =>
    match l.DomainInterfaceAddresses d.vmDomain with
    | .error _ => .returned ("", none)
    | .ok ifaces =>
      match GetDomainIP_ifaces ifaces with
      | some addr => .returned (addr, none)
      | none => .returned ("", some ("No ipv4 address for domain " ++ d.vmDomain.Name))

/-! ## driver_mock.go -/

/-- The struct `DriverMock`; an entry `none` of a list of errors is a nil error. -/
structure DriverMock where
  CopyCalled : Bool := false
  CopyErr : Option String := none
  StopCalled : Bool := false
  StopErr : Option String := none
  LibvirtCalls : List (List String) := []
  LibvirtErrs : List (Option String) := []
  WaitForShutdownCalled : Bool := false
  WaitForShutdownState : Bool := false
  QemuImgCalled : Bool := false
  QemuImgCalls : List String := []
  QemuImgErrs : List (Option String) := []
  VerifyCalled : Bool := false
  VerifyErr : Option String := none
  VersionCalled : Bool := false
  VersionResult : String := ""
  VersionErr : Option String := none
  deriving DecidableEq, Repr

/-- The method `DriverMock.Start`: the returned error and the mock. -/
def DriverMock.Start (d : DriverMock) (args : List String) : Option String × DriverMock :=
  let d := { d with LibvirtCalls := d.LibvirtCalls ++ [args] }
  if d.LibvirtErrs.length ≥ d.LibvirtCalls.length then
    ((d.LibvirtErrs[d.LibvirtCalls.length - 1]?).getD none, d)
  else
    (none, d)

/-- The method `DriverMock.Stop`. -/
def DriverMock.Stop (d : DriverMock) : Option String × DriverMock :=
  (d.StopErr, { d with StopCalled := true })

/-- A value of the interface `Driver`: one of its two implementations. -/
inductive Driver where
  | libvirt (d : LibvirtDriver)
  | mock (d : DriverMock)

/-- The call `driver.Start(args...)` through the interface: the returned error and
the driver afterwards. -/
def Driver.Start (driver : Driver) (args : List String) : Outcome (Option String × Driver) :=
  match driver with
  | .libvirt d =>
    match d.Start args with
    | .panicked => .panicked
    | .returned (err, d', _) => .returned (err, Driver.libvirt d')
  | .mock d => .returned ((d.Start args).1, Driver.mock (d.Start args).2)

/-! ## builder.go: the outcome of `Builder.Run` -/

/-- The values the steps store in the state bag (`interface{}`). -/
inductive Value where
  | nil
  | error (msg : String)
  | bool (b : Bool)
  | int (n : Int)
  | string (s : String)
  | strings (l : List String)
  deriving DecidableEq, Repr

/-- The `multistep.BasicStateBag`: a map from keys to values, the latest binding of a
key first. -/
abbrev StateBag := List (String × Value)

/-- The method `StateBag.GetOk`. -/
def StateBag.GetOk (state : StateBag) (k : String) : Option Value := state.lookup k

/-- The method `StateBag.Put`. -/
def StateBag.Put (state : StateBag) (k : String) (v : Value) : StateBag := (k, v) :: state

/-- The constant `multistep.StateCancelled` of the SDK. -/
def StateCancelled : String := "cancelled"

/-- The constant `multistep.StateHalted` of the SDK. -/
def StateHalted : String := "halted"

/-- The struct `Artifact` as `Builder.Run` fills it. -/
structure Artifact where
  dir : String
  f : List String
  state : List (String × Value)
  deriving DecidableEq, Repr

/-- What `Builder.Run` returns, `(packersdk.Artifact, error)`, or a fault. -/
inductive RunResult where
  | artifact (a : Artifact)
  | error (msg : String)
  | panicked
  deriving DecidableEq, Repr

/-- Lines 151-200 of `Builder.Run`: the result, decided from the state bag the runner
leaves behind; `Walk` is the result of `filepath.Walk` over the output directory, the
files it visits or its error. -/
def Builder_Run_result (config : Config) (state : StateBag)
    (Walk : Except String (List String)) : RunResult :=
  match state.GetOk "error" with
  | some (Value.error rawErr) => .error rawErr
  | some _ => .panicked
  | none =>
    if (state.GetOk StateCancelled).isSome then
      .error "Build was cancelled."
    else if (state.GetOk StateHalted).isSome then
      .error "Build was halted."
    else
      match Walk with
      | .error err => .error err
      | .ok files =>
        let generated := match state.GetOk "generated_data" with
          | some v => v
          | none => Value.nil
        let artifactState : List (String × Value) :=
          [("generated_data", generated), ("diskName", Value.string config.VMName)]
        let artifactState := match state.GetOk "qemu_disk_paths" with
          | some (Value.strings diskpaths) =>
            artifactState ++ [("diskPaths", Value.strings diskpaths)]
          | _ => artifactState
        .artifact
          { dir := config.OutputDir
            f := files
            state := artifactState ++
              [("diskType", Value.string config.Format),
               ("diskSize", Value.string config.DiskSize),
               ("hypervisor", Value.string config.Hypervisor)] }

/-! ## The step runner -/

/-- The type `multistep.StepAction`. -/
inductive StepAction where
  | ActionContinue
  | ActionHalt
  deriving DecidableEq, Repr

/-- A `multistep.Step`: its methods `Run` and `Cleanup` over the state bag. -/
structure Step where
  Run : StateBag → StepAction × StateBag
  Cleanup : StateBag → StateBag

/-- What the runner does, in order: it runs the step at a position of the step list
or invokes the cleanup of that step. -/
inductive RunnerEvent where
  | run (i : Nat)
  | cleanup (i : Nat)
  deriving DecidableEq, Repr

/-- Modelled from the spec: the runner `b.runner` that `Builder.Run` obtains from
`commonsteps.NewRunnerWithPauseFn` (SDK code, not part of the sources at hand), after
section 4.3: the steps are executed in order against the shared state; a step that
returns Halt sets the halted flag and stops the execution of further steps; an
external interrupt (`interrupted i`: it has arrived when step `i` is about to start)
sets the cancelled flag and stops the execution likewise; the cleanup of every step
that has run, the halting one included, is invoked in reverse order. The arguments
are the remaining steps, the position of the first of them, the state, and the events
so far. -/
def Runner_run (interrupted : Nat → Bool) :
    List Step → Nat → StateBag → List RunnerEvent → StateBag × List RunnerEvent
  | [], _, state, events => (state, events)
  | step :: rest, i, state, events =>
    if interrupted i then
      (state.Put StateCancelled (Value.bool true), events)
    else
      let ran := step.Run state
      let after :=
        match ran.1 with
        | .ActionHalt => (ran.2.Put StateHalted (Value.bool true), events ++ [RunnerEvent.run i])
        | .ActionContinue =>
          Runner_run interrupted rest (i + 1) ran.2 (events ++ [RunnerEvent.run i])
      (step.Cleanup after.1, after.2 ++ [RunnerEvent.cleanup i])

/-- The position of the first step that returns Halt when the steps are run in order
from `state`, counted from `i`; `none` when every step returns Continue. -/
def firstHalt : List Step → Nat → StateBag → Option Nat
  | [], _, _ => none
  | step :: rest, i, state =>
    match (step.Run state).1 with
    | .ActionHalt => some i
    | .ActionContinue => firstHalt rest (i + 1) (step.Run state).2

/-! ## step_run.go: the default descriptor -/

/-- The replacement of one character by the escaper that `html/template` applies to a
value inserted in HTML text or in a quoted attribute value (its
`htmlReplacementTable`): NUL, the two quotes, `&`, `+`, `<` and `>` are replaced. -/
def htmlReplacement (c : Char) : String :=
  if c = Char.ofNat 0 then "\uFFFD"
  else if c = Char.ofNat 34 then "&#34;"
  else if c = '&' then "&amp;"
  else if c = Char.ofNat 39 then "&#39;"
  else if c = '+' then "&#43;"
  else if c = '<' then "&lt;"
  else if c = '>' then "&gt;"
  else String.singleton c

/-- The escaper of `html/template` for a string inserted in HTML text or in a quoted
attribute value. -/
def htmlEscape (s : String) : String :=
  String.mk (List.flatten (s.toList.map fun c => (htmlReplacement c).toList))

/-- The struct `Cdrom` of step_run.go. -/
structure Cdrom where
  Format : String := ""
  Source : String := ""
  deriving DecidableEq, Repr

/-- The struct `LibvirtXML` of step_run.go. -/
structure LibvirtXML where
  Hypervisor : String
  Name : String
  Vcpu : Int
  Memory : Int
  Loader : String
  Arch : String
  Machine : String
  CPUMode : String
  Emulator : String
  DiskImage : Bool
  Disks : List Disk
  Cdrom : Cdrom
  FloppyPath : String
  NetName : String
  NetDevice : String
  VncIP : String
  VncPort : Int
  VncPassword : String
  deriving DecidableEq, Repr

/-- The struct `XMLTemplateData` of step_run.go. -/
structure XMLTemplateData where
  VncIP : String
  VncPort : Int
  VncPassword : String
  VMName : String
  Disks : List Disk
  IsoPath : String
  deriving DecidableEq, Repr

/-- `XmlTemplate` from its start to the action that chooses the CPU element, executed
on `x`. -/
def XmlTemplate_head (x : LibvirtXML) : String :=
  "<domain type='" ++ htmlEscape x.Hypervisor ++
    "'>\n" ++
    "\t<name>" ++ htmlEscape x.Name ++
    "</name>\n" ++
    "\t<vcpu>" ++ toString x.Vcpu ++
    "</vcpu>\n" ++
    "\t<memory unit='MiB'>" ++ toString x.Memory ++
    "</memory>\n" ++
    "\t<os>\n" ++
    "\t\t<type arch='" ++ htmlEscape x.Arch ++
    "' machine='" ++ htmlEscape x.Machine ++
    "'>hvm</type>\n" ++
    "\t\t" ++
    (if x.Loader ≠ "" then
      "<loader readonly='yes' type='pflash'>" ++ htmlEscape x.Loader ++ "</loader>"
    else "") ++
    "\n" ++
    "\t\t<boot dev='hd'/>\n" ++
    "\t\t<boot dev='cdrom'/>\n" ++
    "\t</os>\n" ++
    "\t<features>\n" ++
    "\t\t<acpi/>\n" ++
    "\t\t<apic/>\n" ++
    "\t</features>\n" ++
    "\t"

/-- The CPU element of `XmlTemplate`: the action
`if eq .CPUMode "host-passthrough" "host-model"` with its two branches. -/
def XmlTemplate_cpu (CPUMode : String) : String :=
  if CPUMode = "host-passthrough" ∨ CPUMode = "host-model" then
    "\n" ++
    "\t<cpu mode='" ++ htmlEscape CPUMode ++
    "'>\n" ++
    "\t</cpu>\n" ++
    "\t"
  else
    "\n" ++
    "\t<cpu mode='custom' match='exact' check='none'>\n" ++
    "    \t<model fallback='allow'>" ++ htmlEscape CPUMode ++
    "</model>\n" ++
    "  \t</cpu>\n" ++
    "\t"

/-- `XmlTemplate` from the end of the CPU element to the `range` over the disks. -/
def XmlTemplate_emulator (x : LibvirtXML) : String :=
  "\n" ++
    "\t<clock offset='utc'>\n" ++
    "\t</clock>\n" ++
    "\t<on_poweroff>destroy</on_poweroff>\n" ++
    "\t<on_reboot>restart</on_reboot>\n" ++
    "\t<on_crash>destroy</on_crash>\n" ++
    "\t<devices>\n" ++
    "\t<emulator>" ++ htmlEscape x.Emulator ++
    "</emulator>\n" ++
    "\t"

/-- The body of `range .Disks` in `XmlTemplate`, executed on one disk. -/
def XmlTemplate_disk (d : Disk) : String :=
  "\n" ++
    "\t<disk type='file' device='disk'>\n" ++
    "\t\t<driver name='qemu' type='" ++ htmlEscape d.Format ++
    "' cache='" ++ htmlEscape d.DiskCache ++
    "' discard='" ++ htmlEscape d.DiskDiscard ++
    "' " ++
    (if d.DetectZeroes ≠ "off" then
      "detect_zeroes='" ++ htmlEscape d.DetectZeroes ++ "'"
    else "") ++
    "/>\n" ++
    "\t\t<source file='" ++ htmlEscape d.Source ++
    "'/>\n" ++
    "\t\t<target dev='" ++ htmlEscape d.Dev ++
    "' bus='" ++ htmlEscape d.DiskInterface ++
    "'/>\n" ++
    "\t</disk>\n" ++
    "\t"

/-- The removable-media and floppy entries of `XmlTemplate`: the two actions
`if not .DiskImage` and `if .FloppyPath` with the text around them. -/
def XmlTemplate_media (x : LibvirtXML) : String :=
  "\n" ++
    "\t" ++
    (if ¬ x.DiskImage = true then
      "\n" ++
    "\t<disk type='file' device='cdrom'>\n" ++
    "\t\t<driver name='qemu' type='raw'/>\n" ++
    "\t\t<source file='" ++ htmlEscape x.Cdrom.Source ++
      "'/>\n" ++
    "\t\t<target dev='sdd'/>\n" ++
    "\t\t<readonly/>\n" ++
    "\t</disk>\n" ++
    "\t"
    else "") ++
    "\n" ++
    "\t" ++
    (if x.FloppyPath ≠ "" then
      "\n" ++
    "\t<disk type='file' device='floppy'>\n" ++
    "\t\t<driver name='qemu' type='raw'/>\n" ++
    "\t\t<source file='" ++ htmlEscape x.FloppyPath ++
      "'/>\n" ++
    "\t\t<target dev='fda'/>\n" ++
    "\t\t<readonly/>\n" ++
    "\t</disk>\n" ++
    "\t"
    else "")

/-- The rest of `XmlTemplate`: the controllers, the network interface, the consoles,
the input devices, the display and the balloon. -/
def XmlTemplate_tail (x : LibvirtXML) : String :=
  "\n" ++
    "\t<controller type='usb' index='0' model='ehci'>\n" ++
    "\t\t<address type='pci' domain='0x0000' bus='0x02' slot='0x01' function='0x0'/>\n" ++
    "\t</controller>\n" ++
    "\t<controller type='scsi' index='0' model='virtio-scsi'>\n" ++
    "\t\t<address type='pci' domain='0x0000' bus='0x02' slot='0x02' function='0x0'/>\n" ++
    "\t</controller>\n" ++
    "\t<interface type='network'>\n" ++
    "\t\t<source network='" ++ htmlEscape x.NetName ++
    "'/>\n" ++
    "\t\t<model type='" ++ htmlEscape x.NetDevice ++
    "'/>\n" ++
    "\t</interface>\n" ++
    "\t<serial type='pty'>\n" ++
    "\t\t<source path='/dev/pts/0'/>\n" ++
    "\t\t<target type='" ++
    (if x.Arch = "x86_64" then "isa-serial" else "system-serial") ++
    "' port='0'/>\n" ++
    "\t</serial>\n" ++
    "\t<console type='pty' tty='/dev/pts/0'>\n" ++
    "\t\t<source path='/dev/pts/0'/>\n" ++
    "\t\t<target type='serial' port='0'/>\n" ++
    "\t</console>\n" ++
    "\t<input type='tablet'>\n" ++
    "\t\t<alias name='input0'/>\n" ++
    "\t</input>\n" ++
    "\t<input type='keyboard'>\n" ++
    "\t\t<alias name='input1'/>\n" ++
    "\t</input>\n" ++
    "\t<graphics type='vnc' port='" ++ toString x.VncPort ++
    "' " ++
    (if x.VncPassword ≠ "" then
      "passwd='" ++ htmlEscape x.VncPassword ++ "'"
    else "") ++
    ">\n" ++
    "\t\t<listen type='address' address='" ++ htmlEscape x.VncIP ++
    "'/>\n" ++
    "\t</graphics>\n" ++
    "\t<video>\n" ++
    "\t\t<model type='" ++
    (if x.Arch = "x86_64" then "cirrus" else "virtio") ++
    "' primary='yes'/>\n" ++
    "\t</video>\n" ++
    "\t<memballoon model='virtio'>\n" ++
    "\t\t<address type='pci' domain='0x0000' bus='0x00' slot='0x08' function='0x0'/>\n" ++
    "\t</memballoon>\n" ++
    "\t</devices>\t\n" ++
    "</domain>\n"

/-- The execution `t.Execute(&b, libvirtXML)` of the parsed `XmlTemplate`. -/
def XmlTemplate_execute (x : LibvirtXML) : String :=
  XmlTemplate_head x ++ XmlTemplate_cpu x.CPUMode ++ XmlTemplate_emulator x ++
    String.join (x.Disks.map XmlTemplate_disk) ++ XmlTemplate_media x ++ XmlTemplate_tail x

/-! ## step_run.go: `stepRun.getXMLDesc` and `stepRun.Run` -/

/-- The `interpolate.Context` of the SDK: the field `Data`, set by getXMLDesc (`none`
is nil), and the fields the configuration decoding has filled. -/
structure Context where
  Data : Option XMLTemplateData := none
  UserVariables : List (String × String) := []
  BuildName : String := ""
  BuildType : String := ""
  TemplatePath : String := ""
  EnableEnv : Bool := false
  deriving DecidableEq, Repr

/-- What getXMLDesc obtains from outside step_run.go: `path/filepath`,
`ioutil.ReadFile`, and `interpolate.Render` of the SDK. -/
structure RunEnv where
  fp : FilePath
  ReadFile : String → Except String String
  Render : String → Context → Except String String

/-- The method `StateBag.Get`: the value of a key, nil when the key is absent. -/
def StateBag.Get (state : StateBag) (k : String) : Value :=
  match state.GetOk k with
  | some v => v
  | none => Value.nil

/-- The expression `state.Get(k).(string)`; the type assertion faults on any other
value. -/
def StateBag.GetString (state : StateBag) (k : String) : Outcome String :=
  match state.Get k with
  | .string v => .returned v
  | _ => .panicked

/-- The expression `state.Get(k).(int)`. -/
def StateBag.GetInt (state : StateBag) (k : String) : Outcome Int :=
  match state.Get k with
  | .int v => .returned v
  | _ => .panicked

/-- Sequencing of Go code that can fault. -/
def Outcome.bind {α β : Type} (o : Outcome α) (f : α → Outcome β) : Outcome β :=
  match o with
  | .returned a => f a
  | .panicked => .panicked

/-- Lines 197-228 of getXMLDesc on the state bag: the staged disk paths are read (and
asserted to be a `[]string`) only when the build does not boot a disk image. -/
def getXMLDesc_stateDisks (config : Config) (fp : FilePath) (state : StateBag) :
    Outcome (Except String (List Disk)) :=
  if !config.DiskImage then
    match state.Get "qemu_disk_paths" with
    | .strings qemu_disk_paths => .returned (getXMLDesc_disks config fp qemu_disk_paths)
    | _ => .panicked
  else
    .returned (getXMLDesc_disks config fp [])

/-- Lines 230-233 of getXMLDesc: the floppy path, empty when no floppy is staged. -/
def getXMLDesc_floppyPath (state : StateBag) : Outcome String :=
  match state.GetOk "floppy_path" with
  | none => .returned ""
  | some (.string floppyPathRaw) => .returned floppyPathRaw
  | some _ => .panicked

/-- Lines 235-288 of getXMLDesc: the descriptor, from the user's template file when
one is configured and from `XmlTemplate` otherwise. `ctx` is the field `config.ctx`. -/
def getXMLDesc_document (env : RunEnv) (config : Config) (ctx : Context)
    (netName vncIP : String) (vncPort : Int) (vncPassword isoPath : String)
    (disks : List Disk) (floppyPath : String) : Except String String :=
  if config.XMLFile ≠ "" then
    match env.ReadFile config.XMLFile with
    | .error err => .error err
    | .ok oriData =>
      let data : XMLTemplateData :=
        { VncIP := vncIP
          VncPort := vncPort
          VncPassword := vncPassword
          VMName := config.VMName
          Disks := disks
          IsoPath := isoPath }
      let configCtx : Context := { ctx with Data := some data }
      env.Render oriData configCtx
  else
    .ok (XmlTemplate_execute
      { Hypervisor := config.Hypervisor
        Name := config.VMName
        Vcpu := config.CpuCount
        Memory := config.MemorySize
        Loader := config.Loader
        Arch := config.Arch
        Machine := config.MachineType
        CPUMode := config.CPUMode
        Emulator := config.EmulatorBinary
        DiskImage := config.DiskImage
        Disks := disks
        Cdrom := { Source := isoPath }
        FloppyPath := floppyPath
        NetName := netName
        NetDevice := config.NetDevice
        VncIP := vncIP
        VncPort := vncPort
        VncPassword := vncPassword })

/-- The struct `stepRun`, without its `ui`. -/
structure stepRun where
  DiskImage : Bool := false
  atLeastVersion2 : Bool := false
  deriving DecidableEq, Repr

/-- The method `stepRun.getXMLDesc`: the returned string or error. `config` is the
value stored under "config" and `ctx` its field `ctx`. -/
def stepRun.getXMLDesc (_s : stepRun) (env : RunEnv) (config : Config) (ctx : Context)
    (state : StateBag) : Outcome (Except String String) :=
  (state.GetString "net").bind fun netName =>
  let vncIP := config.VNCBindAddress
  (state.GetInt "vnc_port").bind fun vncPort =>
  (state.GetString "vnc_password").bind fun vncPassword =>
  (state.GetString "iso_path").bind fun isoPath =>
  (getXMLDesc_stateDisks config env.fp state).bind fun disksOrErr =>
  match disksOrErr with
  | .error err => .returned (.error err)
  | .ok disks =>
    (getXMLDesc_floppyPath state).bind fun floppyPath =>
    .returned (getXMLDesc_document env config ctx netName vncIP vncPort vncPassword isoPath
      disks floppyPath)

/-- The method `stepRun.Run`: the action, the state bag and the driver afterwards.
`config` and `driver` are the values stored under "config" and "driver". -/
def stepRun.Run (s : stepRun) (env : RunEnv) (config : Config) (ctx : Context)
    (driver : Driver) (state : StateBag) : Outcome (StepAction × StateBag × Driver) :=
  (s.getXMLDesc env config ctx state).bind fun xmlDescOrErr =>
  match xmlDescOrErr with
  | .error err =>
    .returned (.ActionHalt,
      state.Put "error" (Value.error ("Error generating XML: " ++ err)), driver)
  | .ok xmlDesc =>
    (driver.Start [xmlDesc]).bind fun started =>
    match started.1 with
    | some err =>
      .returned (.ActionHalt,
        state.Put "error" (Value.error ("Error starting VM: " ++ err)), started.2)
    | none => .returned (.ActionContinue, state, started.2)

/-! ## step_run.go: the target device names in a descriptor -/

/-- The text that opens the `dev` attribute of a `target` element in `XmlTemplate`
(lines 66, 73 and 81 of step_run.go). -/
def targetMarker : List Char := "<target dev='".toList

/-- The text that follows `marker` in a text that starts with it. -/
def stripMarker : List Char → List Char → Option (List Char)
  | [], l => some l
  | _ :: _, [] => none
  | m :: ms, c :: cs => if m = c then stripMarker ms cs else none

/-- The values of the `dev` attributes of the `target` elements of a text, in document
order: wherever the marker occurs, the characters up to the next single quote. -/
def scanTargets : List Char → List String
  | [] => []
  | c :: cs =>
    match stripMarker targetMarker (c :: cs) with
    | some rest => String.mk (rest.takeWhile fun a => a ≠ Char.ofNat 39) :: scanTargets cs
    | none => scanTargets cs

/-- The target device names of the disk-type entries of a descriptor. In `XmlTemplate`
the `disk` elements (hard disks, CD-ROM, floppy) are the only ones whose `target` has a
`dev` attribute. -/
def targetDevs (doc : String) : List String := scanTargets doc.toList

/-- The text `l` differs from `m` at a position that both have, so that no text that
starts with `l` starts with `m`. -/
def clash : List Char → List Char → Bool
  | m :: ms, c :: cs => if m = c then clash ms cs else true
  | _, _ => false

/-- No occurrence of the marker starts inside `l`, whatever text follows `l`. -/
def quiet : List Char → Bool
  | [] => true
  | c :: cs => clash targetMarker (c :: cs) && quiet cs

/-- A character that neither opens a tag nor closes a quoted attribute value. -/
@[reducible] def plainChar (c : Char) : Prop := c ≠ '<' ∧ c ≠ Char.ofNat 39

/-! ## step_run.go: the CPU element in a descriptor -/

/-- No occurrence of the text `m` starts inside `l`, whatever text follows `l`. -/
def quietFor (m : List Char) : List Char → Bool
  | [] => true
  | c :: cs => clash m (c :: cs) && quietFor m cs

/-- The text after the first occurrence of `m` in a text, if `m` occurs in it. -/
def findAfter (m : List Char) : List Char → Option (List Char)
  | [] => none
  | c :: cs =>
    match stripMarker m (c :: cs) with
    | some rest => some rest
    | none => findAfter m cs

/-- The text before the first occurrence of `m` in a text, the whole text if `m` does
not occur in it. -/
def takeBefore (m : List Char) : List Char → List Char
  | [] => []
  | c :: cs =>
    match stripMarker m (c :: cs) with
    | some _ => []
    | none => c :: takeBefore m cs

/-- The text between the first occurrence of `start` in a document and the next
occurrence of `stop`; `none` when `start` does not occur. -/
def between (start stop doc : String) : Option String :=
  (findAfter start.data doc.data).map fun r => String.mk (takeBefore stop.data r)

/-- The `cpu` element of a descriptor: its attributes and its content, the text between
`<cpu ` and `</cpu>`. -/
def cpuElement (doc : String) : Option String := between "<cpu " "</cpu>" doc

/-- The `model` element inside a `cpu` element: its attributes and its content, the
text between `<model` and `</model>`; `none` when there is no `model` element. -/
def modelElement (cpu : String) : Option String := between "<model" "</model>" cpu

/-- The value of a decimal numeral. -/
def decimalValue (ds : List Char) : Nat :=
  ds.foldl (fun n d => 10 * n + (d.toNat - '0'.toNat)) 0

/-- The reference that a text following `&` starts with: the character it stands for
and the number of characters it takes, for the five predefined entities of XML and for
decimal character references. -/
def xmlReference : List Char → Option (Char × Nat)
  | 'a' :: 'm' :: 'p' :: ';' :: _ => some ('&', 4)
  | 'l' :: 't' :: ';' :: _ => some ('<', 3)
  | 'g' :: 't' :: ';' :: _ => some ('>', 3)
  | 'q' :: 'u' :: 'o' :: 't' :: ';' :: _ => some (Char.ofNat 34, 5)
  | 'a' :: 'p' :: 'o' :: 's' :: ';' :: _ => some (Char.ofNat 39, 5)
  | '#' :: rest =>
    let ds := rest.takeWhile Char.isDigit
    if ds ≠ [] ∧ (rest.drop ds.length).head? = some ';' then
      some (Char.ofNat (decimalValue ds), ds.length + 2)
    else none
  | _ => none

/-- The characters that XML character data stands for, `skip` characters of a reference
still to be passed over. -/
def xmlChars : Nat → List Char → List Char
  | _, [] => []
  | skip + 1, _ :: cs => xmlChars skip cs
  | 0, c :: cs =>
    if c = '&' then
      match xmlReference cs with
      | some (d, n) => d :: xmlChars n cs
      | none => c :: xmlChars 0 cs
    else c :: xmlChars 0 cs

/-- The text that XML character data stands for: entity and character references are
replaced by their characters. -/
def xmlText (s : String) : String := String.mk (xmlChars 0 s.data)

/-- A CPU mode as it can be carried by XML text: html/template writes U+FFFD for a NUL
character. -/
def withoutNul (s : String) : String :=
  String.mk (s.data.map fun c => if c = Char.ofNat 0 then Char.ofNat 0xFFFD else c)

/-! ## Concrete inputs -/

/-- A daemon with two active networks, "isolated" on bridge "virbr1" and "default"
on bridge "virbr0"; with `brokenFirst` the bridge-name query for "isolated" fails. -/
def exampleDaemon (brokenFirst : Bool) : Libvirt where
  ConnectListAllNetworks := .ok [⟨"isolated", [1]⟩, ⟨"default", [2]⟩]
  NetworkGetBridgeName := fun n =>
    if n.Name = "default" then .ok "virbr0"
    else if brokenFirst then .error "internal error: network is not active"
    else .ok "virbr1"
  DomainCreateXML := fun _ => .ok ⟨"packer-vm", [7], 3⟩
  DomainDestroy := fun _ => none
  DomainInterfaceAddresses := fun _ => .ok []

/-- A driver as `newDriver` builds it, connected to `exampleDaemon` and configured
for the bridge "virbr0". -/
def exampleDriver (brokenFirst : Bool) : LibvirtDriver where
  libvirt := some (exampleDaemon brokenFirst)
  netBridge := "virbr0"
  vmNet := ⟨"", []⟩
  QemuImgPath := "/usr/bin/qemu-img"
  vmDomain := ⟨"", [], 0⟩
  vmEndCh := none

/-- The driver `exampleDriver false` after `Start` has created the domain with id 3:
the completion channel exists and is empty. -/
def exampleStartedDriver : LibvirtDriver :=
  { exampleDriver false with vmEndCh := some [], vmDomain := ⟨"packer-vm", [7], 3⟩ }

/-- An environment in which `config.Decode` succeeds, /dev/kvm opens, every binary is
found where it is named, no path exists yet and the embedded SDK configurations
report nothing. -/
def exampleEnv : PrepareEnv where
  Decode := none
  OpenKvm := true
  LookPath := fun file => .ok file
  Stat := fun _ => false
  ShutdownConfig := []
  FloppyConfig := []
  CDConfig := []
  VNCConfig := []
  ISOConfigWarnings := []
  ISOConfig := []
  HTTPConfig := []
  Comm := []

/-- A state bag left by a run in which a step stored an error and the runner set both
the cancelled and the halted flag. -/
def exampleFailedState : StateBag :=
  [(StateHalted, Value.bool true), (StateCancelled, Value.bool true),
   ("error", Value.error "Error starting VM: no such domain"), ("net", Value.string "default")]

/-- A step that records its name in the state bag and continues or halts. -/
def exampleStep (name : String) (action : StepAction) : Step where
  Run := fun state => (action, state.Put name (Value.bool true))
  Cleanup := fun state => state

/-- Collaborators of getXMLDesc: every path is made absolute under "/build", one
template file exists, and rendering appends the VM name of the interpolation data to
the template text. -/
def exampleRunEnv : RunEnv where
  fp := ⟨fun p => .ok ("/build/" ++ p), fun a b => a ++ "/" ++ b⟩
  ReadFile := fun file =>
    if file = "/templates/domain.xml" then .ok "<domain type='kvm'>"
    else .error ("open " ++ file ++ ": no such file or directory")
  Render := fun text ctx =>
    match ctx.Data with
    | some data => .ok (text ++ data.VMName)
    | none => .error "template: no data"

/-- The state bag as the steps before `stepRun` leave it in an ISO build with two
disks and no floppy. -/
def exampleRunState : StateBag :=
  [("qemu_disk_paths", Value.strings ["output/vm", "output/vm-1"]),
   ("iso_path", Value.string "/cache/install.iso"),
   ("vnc_password", Value.string ""),
   ("vnc_port", Value.int 5901),
   ("net", Value.string "default")]

/-- A prepared configuration of an ISO build. -/
def exampleConfig : Config :=
  { Hypervisor := "kvm", CpuCount := 2, MemorySize := 1024, DiskInterface := "virtio",
    DiskSize := "40960M", DiskCache := "writeback", DiskDiscard := "ignore",
    DetectZeroes := "off", Format := "qcow2", Arch := "x86_64", MachineType := "pc",
    CPUMode := "host-passthrough", EmulatorBinary := "/usr/libexec/qemu-kvm",
    NetDevice := "virtio-net", NetBridge := "virbr0", OutputDir := "output",
    VNCBindAddress := "127.0.0.1", VNCPortMin := 5900, VNCPortMax := 6000, VMName := "vm" }

/-- The started driver of a domain without guest agent: the daemon answers the
interface-address query with an error. -/
def exampleDriverNoAgent : LibvirtDriver :=
  { exampleStartedDriver with
    libvirt := some
      { exampleDaemon false with
        DomainInterfaceAddresses := fun _ => .error "Guest agent is not responding" } }

/-- The started driver of a domain with a loopback interface and a network interface
that has an IPv6 and an IPv4 address. -/
def exampleDriverWithAddrs : LibvirtDriver :=
  { exampleStartedDriver with
    libvirt := some
      { exampleDaemon false with
        DomainInterfaceAddresses := fun _ => .ok
          [⟨"lo", [⟨1, "::1"⟩]⟩, ⟨"eth0", [⟨1, "fe80::1"⟩, ⟨0, "192.168.122.14"⟩]⟩] } }

/-- The data of a default descriptor with one disk and the given CPU mode. -/
def exampleXML (CPUMode : String) : LibvirtXML :=
  { Hypervisor := "kvm", Name := "vm", Vcpu := 2, Memory := 1024, Loader := "",
    Arch := "x86_64", Machine := "pc", CPUMode := CPUMode,
    Emulator := "/usr/libexec/qemu-kvm", DiskImage := false,
    Disks := [⟨"qcow2", "/build/output/vm", "vda", "writeback", "ignore", "off", "virtio"⟩],
    Cdrom := { Source := "/cache/install.iso" }, FloppyPath := "", NetName := "default",
    NetDevice := "virtio-net", VncIP := "127.0.0.1", VncPort := 5901, VncPassword := "" }

/-- The decoded configuration of an ISO build on the "scsi" interface with three
additional disks. -/
def exampleScsiInput : Config :=
  { PackerBuildName := "vm", DiskInterface := "scsi",
    AdditionalDiskSize := ["10G", "10G", "10G"] }

/-- The state bag of that build before `stepRun`: the disk and the three additional
disks are staged, no floppy. -/
def exampleScsiState : StateBag :=
  [("qemu_disk_paths",
      Value.strings ["output-vm/packer-vm", "output-vm/packer-vm-1", "output-vm/packer-vm-2",
        "output-vm/packer-vm-3"]),
   ("iso_path", Value.string "/cache/install.iso"),
   ("vnc_password", Value.string ""),
   ("vnc_port", Value.int 5901),
   ("net", Value.string "default")]

/-- Collaborators of getXMLDesc like `exampleRunEnv`, with a rendering that appends
every field of the interpolation data to the template text. -/
def exampleTemplateEnv : RunEnv where
  fp := ⟨fun p => .ok ("/build/" ++ p), fun a b => a ++ "/" ++ b⟩
  ReadFile := fun file =>
    if file = "/templates/domain.xml" then .ok "<domain type='kvm'>"
    else .error ("open " ++ file ++ ": no such file or directory")
  Render := fun text ctx =>
    match ctx.Data with
    | some data => .ok (text ++ " " ++ data.VncIP ++ " " ++ toString data.VncPort ++ " [" ++
        data.VncPassword ++ "] " ++ data.VMName ++ " " ++
        String.intercalate "," (data.Disks.map fun d => d.Source ++ "=" ++ d.Dev) ++ " " ++
        data.IsoPath)
    | none => .error "template: no data"

/-! ## Device names (step_run.go, getXMLDesc) -/

theorem toNat_ofNat_of_valid (n : Nat) (h : n.isValidChar) : (Char.ofNat n).toNat = n := by
  unfold Char.ofNat
  rw [dif_pos h]
  simp only [Char.ofNatAux, Char.toNat, UInt32.toNat, UInt32.ofNat', BitVec.toNat_ofNatLt]

/-- Below the surrogate range `%c` prints the code point itself. -/
theorem fmtC_toNat_of_lt (c : Nat) (h : c < 0xD800) : (fmtC c).toNat = c := by
  have hv : c.isValidChar := Or.inl h
  unfold fmtC
  rw [if_pos hv]
  exact toNat_ofNat_of_valid c hv

/-- The first surrogate is printed as the replacement character. -/
theorem fmtC_surrogate : (fmtC 0xD800).toNat = 0xFFFD := by decide

/-- Up to and including the first surrogate, `%c` is strictly increasing. -/
theorem fmtC_strictMono (a b : Nat) (hab : a < b) (hb : b ≤ 0xD800) : fmtC a < fmtC b := by
  have key : (fmtC a).toNat < (fmtC b).toNat := by
    rw [fmtC_toNat_of_lt a (by omega)]
    rcases Nat.lt_or_ge b 0xD800 with h | h
    · rw [fmtC_toNat_of_lt b h]; exact hab
    · have hb2 : b = 0xD800 := by omega
      rw [hb2, fmtC_surrogate]; omega
  rw [Char.lt_def, UInt32.lt_def]
  exact key

theorem devName_lt (iface : String) (i j : Nat) (hij : i < j) (hj : j ≤ 55199) :
    devName iface i < devName iface j := by
  have hc : fmtC ('a'.toNat + i) < fmtC ('a'.toNat + j) := by
    apply fmtC_strictMono
    · omega
    · have : 'a'.toNat = 97 := by decide
      omega
  rw [String.lt_iff_toList_lt]
  simp only [devName, String.toList, String.data_append, String.singleton]
  exact List.Lex.append_left _ (List.Lex.rel hc) _

/-- The device names written by the loop of getXMLDesc: those of the disks already in
the slice, then one name per remaining path, numbered from the current index. -/
theorem getXMLDesc_loop_names (config : Config) (fp : FilePath) (paths : List String) :
    ∀ (i : Nat) (acc disks : List Disk),
      getXMLDesc_loop config fp paths i acc = .ok disks →
      disks.map Disk.Dev = acc.map Disk.Dev ++
        (List.range paths.length).map (fun k => devName config.DiskInterface (i + k)) := by
  induction paths with
  | nil =>
    intro i acc disks h
    simp only [getXMLDesc_loop, Except.ok.injEq] at h
    simp [h]
  | cons p ps ih =>
    intro i acc disks h
    simp only [getXMLDesc_loop] at h
    cases hp : fp.Abs p with
    | error e => rw [hp] at h; cases h
    | ok full =>
      rw [hp] at h
      have := ih (i + 1) _ disks h
      rw [this]
      simp only [List.map_append, List.map_cons, List.map_nil, mkDisk, List.length_cons,
        List.range_succ_eq_map, List.map_map, List.append_assoc, List.singleton_append,
        Nat.add_zero]
      congr 2
      apply List.map_congr_left
      intro k _
      simp only [Function.comp, Nat.succ_eq_add_one]
      congr 1
      omega

/-- The loop of getXMLDesc returns a slice whenever `filepath.Abs` succeeds on every
path. -/
theorem getXMLDesc_loop_ok (config : Config) (fp : FilePath) (paths : List String)
    (habs : ∀ p ∈ paths, ∃ q, fp.Abs p = .ok q) :
    ∀ (i : Nat) (acc : List Disk), ∃ disks, getXMLDesc_loop config fp paths i acc = .ok disks := by
  induction paths with
  | nil => intro i acc; exact ⟨acc, rfl⟩
  | cons p ps ih =>
    intro i acc
    obtain ⟨q, hq⟩ := habs p (List.mem_cons_self _ _)
    simp only [getXMLDesc_loop, hq]
    exact ih (fun p hp => habs p (List.mem_cons_of_mem _ hp)) _ _

/-- The disk branch of getXMLDesc in ISO mode is the loop started at index 0 with an
empty slice. -/
theorem getXMLDesc_disks_iso (config : Config) (fp : FilePath) (paths : List String)
    (hmode : config.DiskImage = false) :
    getXMLDesc_disks config fp paths = getXMLDesc_loop config fp paths 0 [] := by
  simp [getXMLDesc_disks, hmode]

/-- The device names of a successful ISO-mode run, in disk order. -/
theorem getXMLDesc_disks_names (config : Config) (fp : FilePath) (paths : List String)
    (hmode : config.DiskImage = false) (disks : List Disk)
    (h : getXMLDesc_disks config fp paths = .ok disks) :
    disks.map Disk.Dev = (List.range paths.length).map (devName config.DiskInterface) := by
  rw [getXMLDesc_disks_iso config fp paths hmode] at h
  have := getXMLDesc_loop_names config fp paths 0 [] disks h
  simpa using this

/-- In ISO mode the disk slice is built whenever `filepath.Abs` succeeds on every
staged path. -/
theorem getXMLDesc_disks_ok (config : Config) (fp : FilePath) (paths : List String)
    (hmode : config.DiskImage = false) (habs : ∀ p ∈ paths, ∃ q, fp.Abs p = .ok q) :
    ∃ disks, getXMLDesc_disks config fp paths = .ok disks := by
  rw [getXMLDesc_disks_iso config fp paths hmode]
  exact getXMLDesc_loop_ok config fp paths habs 0 []

/-- Claim C1, amended: in non-disk-image mode, for up to 55200 staged disk paths on
which `filepath.Abs` succeeds, getXMLDesc builds the disk slice, and for every slice it
builds the device names are the function `devName` of the disk interface and the disk
index only, are pairwise distinct, and are strictly increasing in disk order. -/
theorem C1_device_names_distinct_ordered (config : Config) (fp : FilePath)
    (paths : List String) (hmode : config.DiskImage = false) (hN : paths.length ≤ 55200) :
    ((∀ p ∈ paths, ∃ q, fp.Abs p = .ok q) →
      ∃ disks, getXMLDesc_disks config fp paths = .ok disks) ∧
    ∀ disks, getXMLDesc_disks config fp paths = .ok disks →
      disks.map Disk.Dev = (List.range paths.length).map (devName config.DiskInterface) ∧
      (disks.map Disk.Dev).Nodup ∧
      (disks.map Disk.Dev).Pairwise (fun a b => a < b) := by
  refine ⟨fun habs => ?_, fun disks h => ?_⟩
  · rw [getXMLDesc_disks_iso config fp paths hmode]
    exact getXMLDesc_loop_ok config fp paths habs 0 []
  · have hnames := getXMLDesc_disks_names config fp paths hmode disks h
    have hpw : (disks.map Disk.Dev).Pairwise (fun a b => a < b) := by
      rw [hnames, List.pairwise_map]
      have hr := List.pairwise_lt_range paths.length
      have hmem : ∀ x ∈ List.range paths.length, x ≤ 55199 := by
        intro x hx
        have := List.mem_range.mp hx
        omega
      have hboth := List.Pairwise.and_mem.mp hr
      refine hboth.imp ?_
      intro a b hab
      exact devName_lt _ a b hab.2.2 (hmem b hab.2.1)
    refine ⟨hnames, ?_, hpw⟩
    exact hpw.imp (fun hab => ne_of_lt hab)

/-- Claim C1, witness: two staged disks with interface "virtio". -/
theorem C1_device_names_distinct_ordered_witness :
    (∃ disks, getXMLDesc_disks { DiskInterface := "virtio" }
        ⟨fun p => .ok p, fun a b => a ++ "/" ++ b⟩ ["a.qcow2", "b.qcow2"] = .ok disks) ∧
    ∀ disks, getXMLDesc_disks { DiskInterface := "virtio" }
        ⟨fun p => .ok p, fun a b => a ++ "/" ++ b⟩ ["a.qcow2", "b.qcow2"] = .ok disks →
      disks.map Disk.Dev = ["vda", "vdb"] ∧ (disks.map Disk.Dev).Nodup ∧
      (disks.map Disk.Dev).Pairwise (fun a b => a < b) := by
  have h := C1_device_names_distinct_ordered { DiskInterface := "virtio" }
    ⟨fun p => .ok p, fun a b => a ++ "/" ++ b⟩ ["a.qcow2", "b.qcow2"] rfl (by decide)
  refine ⟨h.1 (fun p _ => ⟨p, rfl⟩), fun disks hd => ?_⟩
  have h2 := h.2 disks hd
  refine ⟨?_, h2.2.1, h2.2.2⟩
  rw [h2.1]
  decide

/-- Claim C1, counterexample: with 55201 staged disks the 55200th and the 55201st
device name are both the prefix followed by U+FFFD, so the names are not pairwise
distinct. -/
theorem C1_counterexample_many_disks :
    ∃ disks, getXMLDesc_disks { DiskInterface := "virtio" }
        ⟨fun p => .ok p, fun a b => a ++ "/" ++ b⟩ (List.replicate 55201 "d.qcow2") = .ok disks ∧
      (disks.map Disk.Dev)[55199]? = some "vd\uFFFD" ∧
      (disks.map Disk.Dev)[55200]? = some "vd\uFFFD" ∧
      ¬ (disks.map Disk.Dev).Nodup := by
  have hok := getXMLDesc_loop_ok { DiskInterface := "virtio" }
    ⟨fun p => .ok p, fun a b => a ++ "/" ++ b⟩ (List.replicate 55201 "d.qcow2")
    (fun p _ => ⟨p, rfl⟩) 0 []
  obtain ⟨disks, hd⟩ := hok
  rw [← getXMLDesc_disks_iso _ _ _ rfl] at hd
  have hnames := getXMLDesc_disks_names _ _ _ rfl disks hd
  simp only [List.length_replicate] at hnames
  have h1 : (disks.map Disk.Dev)[55199]? = some "vd\uFFFD" := by
    rw [hnames, List.getElem?_map, List.getElem?_range (by omega)]
    decide
  have h2 : (disks.map Disk.Dev)[55200]? = some "vd\uFFFD" := by
    rw [hnames, List.getElem?_map, List.getElem?_range (by omega)]
    decide
  refine ⟨disks, hd, h1, h2, ?_⟩
  intro hnd
  have := (List.getElem?_inj (by
    have hlen : (disks.map Disk.Dev).length = 55201 := by rw [hnames]; simp
    omega) hnd (h1.trans h2.symm))
  omega

/-- Claim C2, amended: for every valid disk interface the prefix is the one of the
table, and when `filepath.Abs` succeeds on every staged path the slice is built and
the device name of every disk with index below 26 is that prefix followed by exactly
one character, the lower-case letter with code point 'a' + index. -/
theorem C2_device_names_letters_from_a (config : Config) (fp : FilePath)
    (paths : List String) (hmode : config.DiskImage = false)
    (habs : ∀ p ∈ paths, ∃ q, fp.Abs p = .ok q) :
    (diskInterfaceToDev "ide" = "hd" ∧ diskInterfaceToDev "scsi" = "sd" ∧
      diskInterfaceToDev "virtio" = "vd" ∧ diskInterfaceToDev "virtio-scsi" = "sd") ∧
    ∃ disks, getXMLDesc_disks config fp paths = .ok disks ∧
      ∀ i, i < paths.length → i < 26 →
        ∃ c : Char, (disks.map Disk.Dev)[i]? =
            some (diskInterfaceToDev config.DiskInterface ++ String.singleton c) ∧
          c.toNat = 'a'.toNat + i ∧ c.isLower = true := by
  refine ⟨by decide, ?_⟩
  obtain ⟨disks, hd⟩ := (getXMLDesc_disks_ok config fp paths hmode habs)
  refine ⟨disks, hd, fun i hi h26 => ?_⟩
  have hnames := getXMLDesc_disks_names config fp paths hmode disks hd
  refine ⟨fmtC ('a'.toNat + i), ?_, ?_, ?_⟩
  · rw [hnames, List.getElem?_map, List.getElem?_range hi]
    rfl
  · exact fmtC_toNat_of_lt _ (by have : 'a'.toNat = 97 := by decide
                                 omega)
  · have h97 : 'a'.toNat = 97 := by decide
    have hn : (fmtC ('a'.toNat + i)).toNat = 97 + i := by
      rw [fmtC_toNat_of_lt _ (by omega), h97]
    have hv : (fmtC ('a'.toNat + i)).val.toNat = 97 + i := hn
    simp only [Char.isLower, Bool.and_eq_true, decide_eq_true_eq, UInt32.le_def]
    have h1 : (97 : UInt32).toNat = 97 := rfl
    have h2 : (122 : UInt32).toNat = 122 := rfl
    constructor
    · show (97 : UInt32).toNat ≤ (fmtC ('a'.toNat + i)).val.toNat
      omega
    · show (fmtC ('a'.toNat + i)).val.toNat ≤ (122 : UInt32).toNat
      omega

/-- Claim C2, witness: two disks with interface "virtio" are named "vda" and "vdb". -/
theorem C2_device_names_letters_from_a_witness :
    ∃ disks, getXMLDesc_disks { DiskInterface := "virtio" }
        ⟨fun p => .ok p, fun a b => a ++ "/" ++ b⟩ ["a.qcow2", "b.qcow2"] = .ok disks ∧
      disks.map Disk.Dev = ["vda", "vdb"] := by
  have h := (C2_device_names_letters_from_a { DiskInterface := "virtio" }
    ⟨fun p => .ok p, fun a b => a ++ "/" ++ b⟩ ["a.qcow2", "b.qcow2"] rfl
    (fun p _ => ⟨p, rfl⟩)).2
  obtain ⟨disks, hd, -⟩ := h
  refine ⟨disks, hd, ?_⟩
  rw [getXMLDesc_disks_names _ _ _ rfl disks hd]
  decide

/-- Claim C2, counterexample: with 27 disks and interface "virtio" the last device
name is "vd" followed by the character after 'z', which is no letter. -/
theorem C2_counterexample_27_disks :
    ∃ disks, getXMLDesc_disks { DiskInterface := "virtio" }
        ⟨fun p => .ok p, fun a b => a ++ "/" ++ b⟩ (List.replicate 27 "d.qcow2") = .ok disks ∧
      (disks.map Disk.Dev)[26]? = some ("vd" ++ String.singleton (Char.ofNat 123)) ∧
      (Char.ofNat 123).isAlpha = false := by
  refine ⟨_, rfl, ?_, ?_⟩ <;> decide

/-! ## `LibvirtDriver.Verify` (driver.go) -/

/-- The loop of `Verify` stops at the first network whose bridge is the configured
one, when the bridge-name queries before it succeed with other names. -/
theorem Verify_loop_first_match (l : Libvirt) (d : LibvirtDriver) (n : Network)
    (post : List Network) (hn : l.NetworkGetBridgeName n = .ok d.netBridge) :
    ∀ pre : List Network,
      (∀ m ∈ pre, ∃ b, l.NetworkGetBridgeName m = .ok b ∧ b ≠ d.netBridge) →
      Verify_loop l d (pre ++ n :: post) = (none, { d with vmNet := n }) := by
  intro pre
  induction pre with
  | nil => intro _; simp [Verify_loop, hn]
  | cons m pre ih =>
    intro h
    obtain ⟨b, hb, hne⟩ := h m (List.mem_cons_self _ _)
    simp only [List.cons_append, Verify_loop, hb, if_neg hne]
    exact ih (fun m hm => h m (List.mem_cons_of_mem _ hm))

/-- When the loop of `Verify` returns no error, it has stopped at such a first
match. -/
theorem Verify_loop_success (l : Libvirt) (d : LibvirtDriver) :
    ∀ nets : List Network, (Verify_loop l d nets).1 = none →
      ∃ pre n post, nets = pre ++ n :: post ∧ l.NetworkGetBridgeName n = .ok d.netBridge ∧
        (∀ m ∈ pre, ∃ b, l.NetworkGetBridgeName m = .ok b ∧ b ≠ d.netBridge) := by
  intro nets
  induction nets with
  | nil => intro h; simp [Verify_loop] at h
  | cons m rest ih =>
    intro h
    simp only [Verify_loop] at h
    cases hm : l.NetworkGetBridgeName m with
    | error e => rw [hm] at h; simp at h
    | ok b =>
      rw [hm] at h
      by_cases hb : b = d.netBridge
      · exact ⟨[], m, rest, rfl, by rw [hm, hb], by simp⟩
      · simp only [if_neg hb] at h
        obtain ⟨pre, n, post, hnets, hn, hpre⟩ := ih h
        refine ⟨m :: pre, n, post, by rw [hnets]; rfl, hn, ?_⟩
        intro x hx
        rcases List.mem_cons.mp hx with rfl | hx
        · exact ⟨b, hm, hb⟩
        · exact hpre x hx

/-- When every bridge-name query succeeds, the loop of `Verify` returns no error iff
some listed network has the configured bridge, and its only error is the one that
names the configured bridge, with the driver unchanged. -/
theorem Verify_loop_all_ok (l : Libvirt) (d : LibvirtDriver) :
    ∀ nets : List Network, (∀ m ∈ nets, ∃ b, l.NetworkGetBridgeName m = .ok b) →
      ((Verify_loop l d nets).1 = none ↔
        ∃ n ∈ nets, l.NetworkGetBridgeName n = .ok d.netBridge) ∧
      ((Verify_loop l d nets).1 ≠ none →
        (Verify_loop l d nets).1 =
            some ("Not found available network for bridge " ++ d.netBridge) ∧
          (Verify_loop l d nets).2 = d) := by
  intro nets
  induction nets with
  | nil => intro _; simp [Verify_loop]
  | cons m rest ih =>
    intro h
    obtain ⟨b, hb⟩ := h m (List.mem_cons_self _ _)
    have ih2 := ih (fun x hx => h x (List.mem_cons_of_mem _ hx))
    simp only [Verify_loop, hb]
    by_cases hbe : b = d.netBridge
    · rw [if_pos hbe]
      refine ⟨⟨fun _ => ⟨m, List.mem_cons_self _ _, by rw [hb, hbe]⟩, fun _ => rfl⟩, ?_⟩
      intro hcontra
      exact absurd rfl hcontra
    · rw [if_neg hbe]
      refine ⟨?_, ih2.2⟩
      rw [ih2.1]
      constructor
      · rintro ⟨n, hn, hbn⟩
        exact ⟨n, List.mem_cons_of_mem _ hn, hbn⟩
      · rintro ⟨n, hn, hbn⟩
        rcases List.mem_cons.mp hn with rfl | hn
        · rw [hb] at hbn
          injection hbn with hbn
          exact absurd hbn hbe
        · exact ⟨n, hn, hbn⟩

/-- The loop of `Verify` stops at the first network whose bridge-name query fails,
when the queries before it succeed with names other than the configured one: it
returns the error of that query and leaves the driver as it is. -/
theorem Verify_loop_first_error (l : Libvirt) (d : LibvirtDriver) (m : Network)
    (post : List Network) (e : String) (hm : l.NetworkGetBridgeName m = .error e) :
    ∀ pre : List Network,
      (∀ x ∈ pre, ∃ b, l.NetworkGetBridgeName x = .ok b ∧ b ≠ d.netBridge) →
      Verify_loop l d (pre ++ m :: post) = (some e, d) := by
  intro pre
  induction pre with
  | nil => intro _; simp [Verify_loop, hm]
  | cons x pre ih =>
    intro h
    obtain ⟨b, hb, hne⟩ := h x (List.mem_cons_self _ _)
    simp only [List.cons_append, Verify_loop, hb, if_neg hne]
    exact ih (fun y hy => h y (List.mem_cons_of_mem _ hy))

/-- Claim C3, amended: `Verify` on a connected driver returns, and it returns no error
iff the daemon lists the active networks and some listed network has the configured
bridge name while every bridge-name query for the networks listed before it succeeds
with another name; that first matching network is then recorded as the driver's
network. When the listing and every bridge-name query succeed, `Verify` succeeds iff
some listed network has the configured bridge name, and otherwise fails with the
error that names the configured bridge. When a daemon query fails first (the listing,
or the bridge-name query of a network before which every query gave another name),
`Verify` returns the error of that query. Whenever it fails the driver is unchanged. -/
theorem C3_verify_first_matching_network (d : LibvirtDriver) (l : Libvirt)
    (hl : d.libvirt = some l) :
    ∃ err d', d.Verify = .returned (err, d') ∧
      (err = none ↔ ∃ nets pre n post, l.ConnectListAllNetworks = .ok nets ∧
        nets = pre ++ n :: post ∧ l.NetworkGetBridgeName n = .ok d.netBridge ∧
        ∀ m ∈ pre, ∃ b, l.NetworkGetBridgeName m = .ok b ∧ b ≠ d.netBridge) ∧
      (∀ nets pre n post, l.ConnectListAllNetworks = .ok nets →
        nets = pre ++ n :: post → l.NetworkGetBridgeName n = .ok d.netBridge →
        (∀ m ∈ pre, ∃ b, l.NetworkGetBridgeName m = .ok b ∧ b ≠ d.netBridge) →
        d' = { d with vmNet := n }) ∧
      (∀ nets, l.ConnectListAllNetworks = .ok nets →
        (∀ m ∈ nets, ∃ b, l.NetworkGetBridgeName m = .ok b) →
        (err = none ↔ ∃ n ∈ nets, l.NetworkGetBridgeName n = .ok d.netBridge) ∧
        (err ≠ none →
          err = some ("Not found available network for bridge " ++ d.netBridge) ∧ d' = d)) ∧
      (∀ e, l.ConnectListAllNetworks = .error e → err = some e ∧ d' = d) ∧
      (∀ nets pre m post e, l.ConnectListAllNetworks = .ok nets →
        nets = pre ++ m :: post → l.NetworkGetBridgeName m = .error e →
        (∀ x ∈ pre, ∃ b, l.NetworkGetBridgeName x = .ok b ∧ b ≠ d.netBridge) →
        err = some e ∧ d' = d) ∧
      (err ≠ none → d' = d) := by
  cases hlist : l.ConnectListAllNetworks with
  | error e =>
    refine ⟨some e, d, by simp [LibvirtDriver.Verify, hl, hlist], ?_, ?_, ?_, ?_, ?_, ?_⟩
    · constructor
      · intro h; cases h
      · rintro ⟨nets, _, _, _, h, _⟩; cases h
    · intro nets _ _ _ h; cases h
    · intro nets h; cases h
    · intro e2 h
      injection h with h
      exact ⟨by rw [h], rfl⟩
    · intro nets _ _ _ _ h; cases h
    · intro _; rfl
  | ok nets =>
    refine ⟨(Verify_loop l d nets).1, (Verify_loop l d nets).2,
      by simp [LibvirtDriver.Verify, hl, hlist], ?_, ?_, ?_, ?_, ?_, ?_⟩
    · constructor
      · intro h
        obtain ⟨pre, n, post, h1, h2, h3⟩ := Verify_loop_success l d nets h
        exact ⟨nets, pre, n, post, rfl, h1, h2, h3⟩
      · rintro ⟨nets2, pre, n, post, h0, h1, h2, h3⟩
        injection h0 with h0
        subst h0
        rw [h1, Verify_loop_first_match l d n post h2 pre h3]
    · intro nets2 pre n post h0 h1 h2 h3
      injection h0 with h0
      subst h0
      rw [h1, Verify_loop_first_match l d n post h2 pre h3]
    · intro nets2 h0 hall
      injection h0 with h0
      subst h0
      exact Verify_loop_all_ok l d nets hall
    · intro e h; cases h
    · intro nets2 pre m post e h0 h1 h2 h3
      injection h0 with h0
      subst h0
      rw [h1, Verify_loop_first_error l d m post e h2 pre h3]
      exact ⟨rfl, rfl⟩
    · intro hne
      have key : ∀ ns : List Network, (Verify_loop l d ns).1 ≠ none →
          (Verify_loop l d ns).2 = d := by
        intro ns
        induction ns with
        | nil => intro _; rfl
        | cons x rest ih =>
          intro h
          simp only [Verify_loop] at h ⊢
          cases hx : l.NetworkGetBridgeName x with
          | error e => rfl
          | ok b =>
            rw [hx] at h
            by_cases hb : b = d.netBridge
            · simp [hb] at h
            · simp only [if_neg hb] at h ⊢
              exact ih h
      exact key nets hne

/-- Claim C3, witness: the daemon lists "isolated" (bridge "virbr1") and "default"
(bridge "virbr0"); `Verify` for the bridge "virbr0" succeeds and records "default". -/
theorem C3_verify_first_matching_network_witness :
    ∃ err d', (exampleDriver false).Verify = .returned (err, d') ∧ err = none ∧
      d'.vmNet = ⟨"default", [2]⟩ := by
  obtain ⟨err, d', hv, hiff, hrec, -⟩ :=
    C3_verify_first_matching_network (exampleDriver false) (exampleDaemon false) rfl
  have hpre : ∀ m ∈ [(⟨"isolated", [1]⟩ : Network)],
      ∃ b, (exampleDaemon false).NetworkGetBridgeName m = .ok b ∧
        b ≠ (exampleDriver false).netBridge := by
    intro m hm
    rw [List.mem_singleton.mp hm]
    exact ⟨"virbr1", rfl, by decide⟩
  refine ⟨err, d', hv, ?_, ?_⟩
  · exact hiff.mpr ⟨_, [⟨"isolated", [1]⟩], ⟨"default", [2]⟩, [], rfl, rfl, rfl, hpre⟩
  · rw [hrec _ [⟨"isolated", [1]⟩] ⟨"default", [2]⟩ [] rfl rfl rfl hpre]

/-- Claim C3, counterexample: the active network "default" has the configured bridge
"virbr0", but the bridge-name query for the network listed before it fails; `Verify`
fails, with the error of that query, which does not name the configured bridge. -/
theorem C3_counterexample_failing_query :
    (∃ nets n, (exampleDaemon true).ConnectListAllNetworks = .ok nets ∧ n ∈ nets ∧
      (exampleDaemon true).NetworkGetBridgeName n = .ok (exampleDriver true).netBridge) ∧
    ∃ d', (exampleDriver true).Verify =
      .returned (some "internal error: network is not active", d') :=
  ⟨⟨_, ⟨"default", [2]⟩, rfl, by decide, rfl⟩, ⟨_, rfl⟩⟩

/-! ## The monitor goroutine of `LibvirtDriver.Start` (driver.go) -/

/-- While every reply is the running state or the state -1 (which leaves `errorState`
at its initial value -1) the monitor writes nothing, keeps the driver as it is and
waits for the next tick. -/
theorem monitor_loop_silent (d : LibvirtDriver) :
    ∀ (pre : List Poll) (k : Nat),
      (∀ p ∈ pre, p = Poll.state DomainRunning ∨ p = Poll.state (-1)) →
      monitor_loop d pre (-1) k =
        { driver := d, written := [], polled := k + pre.length, status := .waiting } := by
  intro pre
  induction pre with
  | nil => intro k _; simp [monitor_loop]
  | cons p pre ih =>
    intro k h
    have step : monitor_loop d (p :: pre) (-1) k = monitor_loop d pre (-1) (k + 1) := by
      rcases h p (List.mem_cons_self _ _) with hp | hp <;> subst hp <;>
        simp [monitor_loop, DomainRunning]
    rw [step, ih (k + 1) (fun q hq => h q (List.mem_cons_of_mem _ hq))]
    simp only [List.length_cons]
    congr 1
    omega

/-- The first reply that is an error or a state other than running and other than -1
ends the monitor: one value is written, the recorded id is cleared, and the replies
after it are not looked at. -/
theorem monitor_loop_signal (d : LibvirtDriver) (hch : d.vmEndCh = some [])
    (o : Poll) (rest : List Poll)
    (ho : (∃ msg, o = .err msg) ∨ (∃ s, o = .state s ∧ s ≠ DomainRunning ∧ s ≠ -1)) :
    ∀ (pre : List Poll) (k : Nat),
      (∀ p ∈ pre, p = Poll.state DomainRunning ∨ p = Poll.state (-1)) →
      monitor_loop d (pre ++ o :: rest) (-1) k =
        { driver := { d with vmEndCh := some [o.signal],
                             vmDomain := { d.vmDomain with ID := 0 } }
          written := [o.signal]
          polled := k + pre.length + 1
          status := .terminated } := by
  intro pre
  induction pre with
  | nil =>
    intro k _
    rcases ho with ⟨msg, rfl⟩ | ⟨s, rfl, hs1, hs2⟩
    · simp [monitor_loop, hch, Poll.signal]
    · simp [monitor_loop, hch, Poll.signal, hs1, hs2]
  | cons p pre ih =>
    intro k h
    have step : monitor_loop d (p :: (pre ++ o :: rest)) (-1) k =
        monitor_loop d (pre ++ o :: rest) (-1) (k + 1) := by
      rcases h p (List.mem_cons_self _ _) with hp | hp <;> subst hp <;>
        simp [monitor_loop, DomainRunning]
    rw [List.cons_append, step, ih (k + 1) (fun q hq => h q (List.mem_cons_of_mem _ hq))]
    simp only [List.length_cons]
    congr 1
    omega

/-- Every sequence of replies either consists of running states and states -1 only, or
has a first reply that is an error or another state. -/
theorem polls_first_signal (polls : List Poll) :
    (∀ p ∈ polls, p = Poll.state DomainRunning ∨ p = Poll.state (-1)) ∨
    ∃ pre o rest, polls = pre ++ o :: rest ∧
      (∀ p ∈ pre, p = Poll.state DomainRunning ∨ p = Poll.state (-1)) ∧
      ((∃ msg, o = Poll.err msg) ∨ (∃ s, o = Poll.state s ∧ s ≠ DomainRunning ∧ s ≠ -1)) := by
  induction polls with
  | nil => left; intro p hp; cases hp
  | cons q rest ih =>
    by_cases hq : q = Poll.state DomainRunning ∨ q = Poll.state (-1)
    · rcases ih with hall | ⟨pre, o, rest2, h1, h2, h3⟩
      · left
        intro p hp
        rcases List.mem_cons.mp hp with rfl | hp
        · exact hq
        · exact hall p hp
      · right
        refine ⟨q :: pre, o, rest2, by rw [h1]; rfl, ?_, h3⟩
        intro p hp
        rcases List.mem_cons.mp hp with rfl | hp
        · exact hq
        · exact h2 p hp
    · right
      refine ⟨[], q, rest, rfl, (fun p hp => by cases hp), ?_⟩
      cases q with
      | err msg => exact Or.inl ⟨msg, rfl⟩
      | state s =>
        refine Or.inr ⟨s, rfl, ?_, ?_⟩
        · intro hs; exact hq (Or.inl (by rw [hs]))
        · intro hs; exact hq (Or.inr (by rw [hs]))

/-- Claim C4, amended: on a freshly started driver, while every reply so far is the
running state (or the state -1) the monitor has written nothing, has not touched the
driver and is still waiting; on the first reply that is a query error or a state other
than running and other than -1 it has written exactly one value (99, or the state), the
channel holds that value, the recorded domain id is 0 and the monitor has terminated
after that poll, whatever the later replies are. Every sequence of replies is of one of
these two kinds. -/
theorem C4_monitor_signals_exactly_once (d : LibvirtDriver) (hch : d.vmEndCh = some [])
    (pre rest : List Poll) (o : Poll)
    (hpre : ∀ p ∈ pre, p = Poll.state DomainRunning ∨ p = Poll.state (-1))
    (ho : (∃ msg, o = .err msg) ∨ (∃ s, o = .state s ∧ s ≠ DomainRunning ∧ s ≠ -1)) :
    ((monitor d pre).written = [] ∧ (monitor d pre).status = .waiting ∧
      (monitor d pre).driver = d) ∧
    (monitor d (pre ++ o :: rest)).written = [o.signal] ∧
    (monitor d (pre ++ o :: rest)).driver.vmEndCh = some [o.signal] ∧
    (monitor d (pre ++ o :: rest)).driver.vmDomain.ID = 0 ∧
    (monitor d (pre ++ o :: rest)).status = .terminated ∧
    (monitor d (pre ++ o :: rest)).polled = pre.length + 1 ∧
    monitor d (pre ++ o :: rest) = monitor d (pre ++ [o]) ∧
    (∀ polls : List Poll,
      (∀ p ∈ polls, p = Poll.state DomainRunning ∨ p = Poll.state (-1)) ∨
      ∃ pre2 o2 rest2, polls = pre2 ++ o2 :: rest2 ∧
        (∀ p ∈ pre2, p = Poll.state DomainRunning ∨ p = Poll.state (-1)) ∧
        ((∃ msg, o2 = Poll.err msg) ∨
          (∃ s, o2 = Poll.state s ∧ s ≠ DomainRunning ∧ s ≠ -1))) := by
  have h1 := monitor_loop_silent d pre 0 hpre
  have h2 := monitor_loop_signal d hch o rest ho pre 0 hpre
  have h3 := monitor_loop_signal d hch o [] ho pre 0 hpre
  unfold monitor
  rw [h1, h2, h3]
  simp only [Nat.zero_add, and_self, true_and]
  exact polls_first_signal

/-- Claim C4, witness: a running reply and a reply -1, then the state 5 (shut off), then
a further reply. -/
theorem C4_monitor_signals_exactly_once_witness :
    (monitor exampleStartedDriver [.state 1, .state (-1), .state 5, .err "gone"]).written
      = [5] ∧
    (monitor exampleStartedDriver
      [.state 1, .state (-1), .state 5, .err "gone"]).driver.vmDomain.ID = 0 ∧
    (monitor exampleStartedDriver [.state 1, .state (-1), .state 5, .err "gone"]).polled
      = 3 := by
  have h := C4_monitor_signals_exactly_once exampleStartedDriver rfl
    [.state 1, .state (-1)] [.err "gone"] (.state 5)
    (by
      intro p hp
      simp only [List.mem_cons, List.mem_singleton, List.not_mem_nil, or_false] at hp
      rcases hp with hp | hp
      · exact Or.inl (by rw [hp]; rfl)
      · exact Or.inr hp)
    (Or.inr ⟨5, rfl, by decide, by decide⟩)
  exact ⟨h.2.1, h.2.2.2.1, h.2.2.2.2.2.1⟩

/-- Claim C4, counterexample: the reply "state -1" is a state other than running, but
the monitor writes nothing and keeps waiting, and the recorded id is not cleared. -/
theorem C4_counterexample_state_minus_one :
    (-1 : Int) ≠ DomainRunning ∧
    (monitor exampleStartedDriver [.state (-1)]).written = [] ∧
    (monitor exampleStartedDriver [.state (-1)]).status = .waiting ∧
    (monitor exampleStartedDriver [.state (-1)]).driver.vmDomain.ID = 3 := by
  refine ⟨by decide, rfl, rfl, rfl⟩

/-! ## `Config.Prepare` (config.go): the disk size -/

theorem Prepare_accelerator_DiskSize (env : PrepareEnv) (s : PrepareState) :
    (Prepare_accelerator env s).c.DiskSize = s.c.DiskSize ∧
    (Prepare_accelerator env s).errs = s.errs := by
  simp only [Prepare_accelerator, apply_ite Config.DiskSize, ite_self, and_self]

theorem Prepare_sizing_DiskSize (s : PrepareState) :
    (Prepare_sizing s).c.DiskSize = s.c.DiskSize ∧ (Prepare_sizing s).errs = s.errs := by
  simp only [Prepare_sizing, apply_ite Config.DiskSize, ite_self, and_self]

theorem mem_errIf (cond : Prop) [Decidable cond] (e x : PrepareError) :
    x ∈ errIf cond e ↔ cond ∧ x = e := by
  unfold errIf
  split <;> simp_all

theorem Prepare_machine_DiskSize (s : PrepareState) :
    (Prepare_machine s).c.DiskSize = s.c.DiskSize ∧ (Prepare_machine s).errs = s.errs := by
  simp only [Prepare_machine, apply_ite Config.DiskSize, ite_self, and_self]

theorem Prepare_emulator_DiskSize (env : PrepareEnv) (s : PrepareState) :
    (Prepare_emulator env s).c.DiskSize = s.c.DiskSize ∧
    (PrepareError.invalidDiskSize ∈ (Prepare_emulator env s).errs ↔
      PrepareError.invalidDiskSize ∈ s.errs) := by
  unfold Prepare_emulator
  cases env.LookPath s.c.EmulatorBinary <;>
    simp [apply_ite Config.DiskSize]

theorem Prepare_sdk_DiskSize (env : PrepareEnv) (s : PrepareState) :
    (Prepare_sdk env s).c.DiskSize = s.c.DiskSize ∧
    (PrepareError.invalidDiskSize ∈ (Prepare_sdk env s).errs ↔
      PrepareError.invalidDiskSize ∈ s.errs) := by
  constructor
  · simp only [Prepare_sdk, apply_ite Config.DiskSize, ite_self]
  · simp [Prepare_sdk]

theorem Prepare_validate_DiskSize (env : PrepareEnv) (s : PrepareState) :
    (Prepare_validate env s).c.DiskSize = s.c.DiskSize ∧
    (PrepareError.invalidDiskSize ∈ (Prepare_validate env s).errs ↔
      PrepareError.invalidDiskSize ∈ s.errs) := by
  constructor
  · simp only [Prepare_validate, apply_ite Config.DiskSize, ite_self]
  · simp [Prepare_validate, mem_errIf]

/-- The disk size and the presence of the disk-size error at the end of `Prepare` are
those left by the disk-size block. -/
theorem Prepare_body_DiskSize (env : PrepareEnv) (c : Config) :
    (Prepare_body env c).c.DiskSize =
      (Prepare_diskSize { c := c, errs := env.ShutdownConfig.map PrepareError.sdk,
                          warnings := [], log := [] }).c.DiskSize ∧
    (PrepareError.invalidDiskSize ∈ (Prepare_body env c).errs ↔
      PrepareError.invalidDiskSize ∈
        (Prepare_diskSize { c := c, errs := env.ShutdownConfig.map PrepareError.sdk,
                            warnings := [], log := [] }).errs) := by
  unfold Prepare_body
  simp only []
  constructor
  · rw [(Prepare_validate_DiskSize _ _).1, (Prepare_sdk_DiskSize _ _).1,
      (Prepare_sizing_DiskSize _).1, (Prepare_emulator_DiskSize _ _).1,
      (Prepare_machine_DiskSize _).1, (Prepare_accelerator_DiskSize _ _).1]
  · rw [(Prepare_validate_DiskSize _ _).2, (Prepare_sdk_DiskSize _ _).2,
      (Prepare_sizing_DiskSize _).2, (Prepare_emulator_DiskSize _ _).2,
      (Prepare_machine_DiskSize _).2, (Prepare_accelerator_DiskSize _ _).2]

theorem isUpper_iff (c : Char) : c.isUpper = true ↔ 65 ≤ c.toNat ∧ c.toNat ≤ 90 := by
  simp only [Char.isUpper, Bool.and_eq_true, decide_eq_true_eq, UInt32.le_def]
  exact Iff.rfl

/-- Lower-casing turns no character into a digit and leaves the digits alone. -/
theorem ToLowerRune_isDigit (c : Char) : (ToLowerRune c).isDigit = c.isDigit := by
  unfold ToLowerRune
  by_cases hu : c.isUpper = true
  · rw [if_pos hu]
    have h := (isUpper_iff c).mp hu
    obtain ⟨n, hn⟩ : ∃ n, c.toNat = n := ⟨_, rfl⟩
    have hc : c = Char.ofNat n := by rw [← hn, Char.ofNat_toNat]
    rw [hn] at h
    subst hc
    rw [hn]
    obtain ⟨h1, h2⟩ := h
    interval_cases n <;> decide
  · rw [if_neg hu]
    split
    · next h => subst h; decide
    · split
      · next h => subst h; decide
      · rfl

theorem ToLowerRune_of_isDigit (c : Char) (h : c.isDigit = true) : ToLowerRune c = c := by
  unfold ToLowerRune
  have hu : ¬ c.isUpper = true := by
    intro hu
    have h1 := (isUpper_iff c).mp hu
    simp only [Char.isDigit, Bool.and_eq_true, decide_eq_true_eq, UInt32.le_def] at h
    have h2 : c.toNat ≤ 57 := h.2
    omega
  rw [if_neg hu]
  split
  · next h2 => subst h2; exact absurd h (by decide)
  · split
    · next h2 => subst h2; exact absurd h (by decide)
    · rfl

/-- The characters whose lower-case form is one of b, k, m, g, t: these letters in
either case, and the Kelvin sign. -/
theorem ToLowerRune_unit (u : Char) :
    ToLowerRune u ∈ ['b', 'k', 'm', 'g', 't'] ↔ u ∈ unitLetters ++ [kelvinSign] := by
  unfold ToLowerRune
  by_cases hu : u.isUpper = true
  · rw [if_pos hu]
    have h := (isUpper_iff u).mp hu
    obtain ⟨n, hn⟩ : ∃ n, u.toNat = n := ⟨_, rfl⟩
    have hc : u = Char.ofNat n := by rw [← hn, Char.ofNat_toNat]
    rw [hn] at h
    subst hc
    rw [hn]
    obtain ⟨h1, h2⟩ := h
    interval_cases n <;> decide
  · rw [if_neg hu]
    split
    · next h => subst h; decide
    · next h1 =>
      split
      · next h => subst h; decide
      · next h2 =>
        have hk : u ≠ kelvinSign := h2
        simp only [unitLetters, List.mem_append, List.mem_cons, List.mem_singleton,
          List.mem_nil_iff, or_false, hk]
        constructor
        · rintro (h | h | h | h | h) <;> simp [h]
        · rintro (h | h | h | h | h | h | h | h | h | h)
          all_goals first
            | (subst h; exact absurd (by decide) hu)
            | simp [h]

theorem isDigit_comp_ToLowerRune : (Char.isDigit ∘ ToLowerRune) = Char.isDigit :=
  funext ToLowerRune_isDigit

theorem unit_match_iff (unit : List Char) :
    ((unit.map ToLowerRune == [] || unit.map ToLowerRune == ['b'] ||
      unit.map ToLowerRune == ['k'] || unit.map ToLowerRune == ['m'] ||
      unit.map ToLowerRune == ['g'] || unit.map ToLowerRune == ['t']) = true) ↔
    (unit = [] ∨ ∃ u, unit = [u] ∧ ToLowerRune u ∈ ['b', 'k', 'm', 'g', 't']) := by
  cases unit with
  | nil => simp
  | cons u t =>
    cases t with
    | nil => simp [or_assoc]
    | cons v w => simp

/-- The first pattern of `Prepare` on the lower-cased disk size, read on the disk size
itself. -/
theorem matchDiskSize_ToLower (s : String) :
    matchDiskSize (ToLower s) = true ↔
      s.toList.takeWhile Char.isDigit ≠ [] ∧
      (s.toList.dropWhile Char.isDigit = [] ∨
        ∃ u, s.toList.dropWhile Char.isDigit = [u] ∧
          ToLowerRune u ∈ ['b', 'k', 'm', 'g', 't']) := by
  unfold matchDiskSize ToLower
  simp only [String.toList, List.takeWhile_map, List.dropWhile_map, isDigit_comp_ToLowerRune,
    Bool.and_eq_true, Bool.not_eq_true', List.isEmpty_eq_false, ne_eq, List.map_eq_nil_iff]
  rw [unit_match_iff]

/-- The first pattern of `Prepare` accepts exactly the disk sizes made of digits,
optionally followed by a unit letter in either case or by the Kelvin sign. -/
theorem matchDiskSize_iff (s : String) :
    matchDiskSize (ToLower s) = true ↔ digitsThenUnit (unitLetters ++ [kelvinSign]) s := by
  rw [matchDiskSize_ToLower]
  constructor
  · rintro ⟨hne, hrest⟩
    refine ⟨s.toList.takeWhile Char.isDigit, hne, fun c hc => List.mem_takeWhile_imp hc, ?_⟩
    have hsplit := List.takeWhile_append_dropWhile Char.isDigit s.toList
    rcases hrest with h | ⟨u, h, hu⟩
    · left
      rw [h, List.append_nil] at hsplit
      exact hsplit.symm
    · right
      refine ⟨u, (ToLowerRune_unit u).mp hu, ?_⟩
      rw [h] at hsplit
      exact hsplit.symm
  · rintro ⟨ds, hne, hall, h | ⟨u, hu, h⟩⟩
    · have h1 : s.toList.takeWhile Char.isDigit = ds := by
        rw [h]
        have := @List.takeWhile_append_of_pos _ _ ds [] hall
        simpa using this
      have h2 : s.toList.dropWhile Char.isDigit = [] := by
        rw [h]
        have := @List.dropWhile_append_of_pos _ _ ds [] hall
        simpa using this
      rw [h1, h2]
      exact ⟨hne, Or.inl rfl⟩
    · have hnd : u.isDigit = false := by
        have hl := (ToLowerRune_unit u).mpr hu
        rw [← ToLowerRune_isDigit]
        simp only [List.mem_cons, List.mem_singleton, List.mem_nil_iff, or_false] at hl
        rcases hl with h | h | h | h | h <;> rw [h] <;> decide
      have h1 : s.toList.takeWhile Char.isDigit = ds := by
        rw [h, List.takeWhile_append_of_pos hall]
        simp [List.takeWhile, hnd]
      have h2 : s.toList.dropWhile Char.isDigit = [u] := by
        rw [h, List.dropWhile_append_of_pos hall]
        simp [List.dropWhile, hnd]
      rw [h1, h2]
      exact ⟨hne, Or.inr ⟨u, rfl, (ToLowerRune_unit u).mpr hu⟩⟩

/-- The second pattern of `Prepare` on the lower-cased disk size accepts exactly the
non-empty strings of digits. -/
theorem matchDigits_ToLower (s : String) :
    matchDigits (ToLower s) = true ↔ s.toList ≠ [] ∧ ∀ c ∈ s.toList, c.isDigit = true := by
  unfold matchDigits ToLower
  simp [String.toList, ToLowerRune_isDigit]

/-- The four ways through the disk-size block of `Prepare`. -/
theorem Prepare_diskSize_cases (s : PrepareState) :
    ((s.c.DiskSize = "" ∨ s.c.DiskSize = "0") →
      (Prepare_diskSize s).c.DiskSize = "40960M" ∧ (Prepare_diskSize s).errs = s.errs) ∧
    (¬ (s.c.DiskSize = "" ∨ s.c.DiskSize = "0") → matchDiskSize (ToLower s.c.DiskSize) = false →
      (Prepare_diskSize s).c.DiskSize = s.c.DiskSize ∧
        (Prepare_diskSize s).errs = s.errs ++ [PrepareError.invalidDiskSize]) ∧
    (¬ (s.c.DiskSize = "" ∨ s.c.DiskSize = "0") → matchDiskSize (ToLower s.c.DiskSize) = true →
      matchDigits (ToLower s.c.DiskSize) = true →
      (Prepare_diskSize s).c.DiskSize = s.c.DiskSize ++ "M" ∧
        (Prepare_diskSize s).errs = s.errs) ∧
    (¬ (s.c.DiskSize = "" ∨ s.c.DiskSize = "0") → matchDiskSize (ToLower s.c.DiskSize) = true →
      matchDigits (ToLower s.c.DiskSize) = false →
      (Prepare_diskSize s).c.DiskSize = s.c.DiskSize ∧ (Prepare_diskSize s).errs = s.errs) := by
  refine ⟨?_, ?_, ?_, ?_⟩
  · intro h
    simp [Prepare_diskSize, h]
  · intro h hm
    simp [Prepare_diskSize, h, hm]
  · intro h hm hd
    simp [Prepare_diskSize, h, hm, hd]
  · intro h hm hd
    simp [Prepare_diskSize, h, hm, hd]

theorem invalidDiskSize_not_mem_sdk (l : List String) :
    PrepareError.invalidDiskSize ∉ l.map PrepareError.sdk := by
  simp

theorem toList_ne_nil_of_ne_empty (s : String) (h : s.toList ≠ []) : s ≠ "" := by
  intro hs
  subst hs
  exact h rfl

/-- Claim C5: when the configuration decodes, a disk size made only of decimal digits,
other than "0", is normalised by `Prepare` to the same digits followed by "M", and no
disk-size error is recorded. -/
theorem C5_digits_only_disk_size_gets_M (env : PrepareEnv) (c : Config)
    (hdec : env.Decode = none) (hne : c.DiskSize.toList ≠ [])
    (hdig : ∀ ch ∈ c.DiskSize.toList, ch.isDigit = true) (h0 : c.DiskSize ≠ "0") :
    ∃ s, c.Prepare env = .prepared s ∧ s.c.DiskSize = c.DiskSize ++ "M" ∧
      PrepareError.invalidDiskSize ∉ s.errs := by
  refine ⟨Prepare_body env c, by simp [Config.Prepare, hdec], ?_, ?_⟩
  all_goals
    have hunset : ¬ (c.DiskSize = "" ∨ c.DiskSize = "0") := by
      rintro (h | h)
      · exact toList_ne_nil_of_ne_empty _ hne h
      · exact h0 h
    have hm : matchDiskSize (ToLower c.DiskSize) = true :=
      (matchDiskSize_iff c.DiskSize).mpr ⟨c.DiskSize.toList, hne, hdig, Or.inl rfl⟩
    have hd : matchDigits (ToLower c.DiskSize) = true :=
      (matchDigits_ToLower c.DiskSize).mpr ⟨hne, hdig⟩
    have hcase := (Prepare_diskSize_cases
      { c := c, errs := env.ShutdownConfig.map PrepareError.sdk, warnings := [],
        log := [] }).2.2.1 hunset hm hd
  · rw [(Prepare_body_DiskSize env c).1]
    exact hcase.1
  · rw [(Prepare_body_DiskSize env c).2, hcase.2]
    exact invalidDiskSize_not_mem_sdk _

/-- Claim C5, witness: the disk size "40960" becomes "40960M". -/
theorem C5_digits_only_disk_size_gets_M_witness :
    ∃ s, Config.Prepare exampleEnv { DiskSize := "40960" } = .prepared s ∧
      s.c.DiskSize = "40960M" ∧ PrepareError.invalidDiskSize ∉ s.errs :=
  C5_digits_only_disk_size_gets_M exampleEnv { DiskSize := "40960" } rfl (by decide)
    (by decide) (by decide)

/-- Claim C6: when the configuration decodes and the disk size is empty or "0",
`Prepare` sets it to the default "40960M" and records no disk-size error. -/
theorem C6_unset_disk_size_gets_default (env : PrepareEnv) (c : Config)
    (hdec : env.Decode = none) (hunset : c.DiskSize = "" ∨ c.DiskSize = "0") :
    ∃ s, c.Prepare env = .prepared s ∧ s.c.DiskSize = "40960M" ∧
      PrepareError.invalidDiskSize ∉ s.errs := by
  have hcase := (Prepare_diskSize_cases
    { c := c, errs := env.ShutdownConfig.map PrepareError.sdk, warnings := [],
      log := [] }).1 hunset
  refine ⟨Prepare_body env c, by simp [Config.Prepare, hdec], ?_, ?_⟩
  · rw [(Prepare_body_DiskSize env c).1]
    exact hcase.1
  · rw [(Prepare_body_DiskSize env c).2, hcase.2]
    exact invalidDiskSize_not_mem_sdk _

/-- Claim C6, witness: the disk size "0" becomes "40960M". -/
theorem C6_unset_disk_size_gets_default_witness :
    ∃ s, Config.Prepare exampleEnv { DiskSize := "0" } = .prepared s ∧
      s.c.DiskSize = "40960M" ∧ PrepareError.invalidDiskSize ∉ s.errs :=
  C6_unset_disk_size_gets_default exampleEnv { DiskSize := "0" } rfl (Or.inr rfl)

/-- What the disk-size check of `Prepare` accepts: when the configuration decodes, the
error "Invalid disk size." is recorded iff the disk size is neither empty nor "0" and
is not one or more decimal digits optionally followed by a single character that is
one of b, k, m, g, t in either case or that `strings.ToLower` turns into k (the Kelvin
sign U+212A); a rejected disk size is left unchanged. -/
theorem Prepare_invalidDiskSize_iff (env : PrepareEnv) (c : Config) (hdec : env.Decode = none) :
    PrepareError.invalidDiskSize.message = "Invalid disk size." ∧
    ∃ s, c.Prepare env = .prepared s ∧
      (PrepareError.invalidDiskSize ∈ s.errs ↔
        c.DiskSize ≠ "" ∧ c.DiskSize ≠ "0" ∧
          ¬ digitsThenUnit (unitLetters ++ [kelvinSign]) c.DiskSize) ∧
      (PrepareError.invalidDiskSize ∈ s.errs → s.c.DiskSize = c.DiskSize) := by
  refine ⟨rfl, Prepare_body env c, by simp [Config.Prepare, hdec], ?_, ?_⟩
  all_goals
    have hcases := Prepare_diskSize_cases
      { c := c, errs := env.ShutdownConfig.map PrepareError.sdk, warnings := [], log := [] }
    have hsdk := invalidDiskSize_not_mem_sdk env.ShutdownConfig
    rw [(Prepare_body_DiskSize env c).2]
  · rw [← matchDiskSize_iff]
    by_cases hunset : c.DiskSize = "" ∨ c.DiskSize = "0"
    · rw [(hcases.1 hunset).2]
      constructor
      · intro h; exact absurd h hsdk
      · rintro ⟨h1, h2, -⟩
        rcases hunset with h | h
        · exact absurd h h1
        · exact absurd h h2
    · have hne : c.DiskSize ≠ "" ∧ c.DiskSize ≠ "0" := by
        constructor
        · intro h; exact hunset (Or.inl h)
        · intro h; exact hunset (Or.inr h)
      cases hm : matchDiskSize (ToLower c.DiskSize) with
      | false =>
        rw [(hcases.2.1 hunset hm).2]
        simp [hne.1, hne.2]
      | true =>
        cases hd : matchDigits (ToLower c.DiskSize) with
        | true =>
          rw [(hcases.2.2.1 hunset hm hd).2]
          simp [hsdk]
        | false =>
          rw [(hcases.2.2.2 hunset hm hd).2]
          simp [hsdk]
  · rw [(Prepare_body_DiskSize env c).1]
    by_cases hunset : c.DiskSize = "" ∨ c.DiskSize = "0"
    · rw [(hcases.1 hunset).2]
      intro h; exact absurd h hsdk
    · cases hm : matchDiskSize (ToLower c.DiskSize) with
      | false =>
        intro _
        exact (hcases.2.1 hunset hm).1
      | true =>
        cases hd : matchDigits (ToLower c.DiskSize) with
        | true =>
          rw [(hcases.2.2.1 hunset hm hd).2]
          intro h; exact absurd h hsdk
        | false =>
          rw [(hcases.2.2.2 hunset hm hd).2]
          intro h; exact absurd h hsdk

/-- The disk size "abc" is rejected and left as it is. -/
theorem Prepare_invalidDiskSize_abc :
    ∃ s, Config.Prepare exampleEnv { DiskSize := "abc" } = .prepared s ∧
      PrepareError.invalidDiskSize ∈ s.errs ∧ s.c.DiskSize = "abc" := by
  obtain ⟨-, s, hs, hiff, hkeep⟩ :=
    Prepare_invalidDiskSize_iff exampleEnv { DiskSize := "abc" } rfl
  have hmem : PrepareError.invalidDiskSize ∈ s.errs := by
    rw [hiff, ← matchDiskSize_iff]
    decide
  exact ⟨s, hs, hmem, hkeep hmem⟩

/-- Claim C7, the code at the failing input: the disk size "5" followed by the Kelvin
sign U+212A is not digits optionally followed by one of b, k, m, g, t in either case,
and it is neither empty nor "0", but `Prepare` records no disk-size error for it: the
pattern is matched against `strings.ToLower` of the size, which is "5k". -/
theorem C7_kelvin_sign_is_accepted :
    ¬ digitsThenUnit unitLetters (String.mk ['5', kelvinSign]) ∧
    String.mk ['5', kelvinSign] ≠ "" ∧ String.mk ['5', kelvinSign] ≠ "0" ∧
    ∃ s, Config.Prepare exampleEnv { DiskSize := String.mk ['5', kelvinSign] } = .prepared s ∧
      PrepareError.invalidDiskSize ∉ s.errs := by
  refine ⟨?_, by decide, by decide, _, rfl, by decide⟩
  rintro ⟨ds, -, hall, h | ⟨u, hu, h⟩⟩
  · have hk : kelvinSign ∈ ds := by
      rw [← h]
      simp [String.toList]
    exact absurd (hall _ hk) (by decide)
  · have h2 : (String.mk ['5', kelvinSign]).toList = ['5'] ++ [kelvinSign] := rfl
    rw [h2] at h
    have := (List.append_inj' h rfl).2
    have hu2 : u = kelvinSign := by
      injection this with h3
      exact h3.symm
    rw [hu2] at hu
    exact absurd hu (by decide)

/-! ## `Builder.Run` (builder.go): the outcome -/

/-- Claim C8: after the pipeline has run, an "error" value in the state is returned
whatever the flags are; without one, a set cancelled flag gives "Build was
cancelled."; without either, a set halted flag gives "Build was halted."; and an
artifact is returned only when none of the three is present. -/
theorem C8_run_result_priority (config : Config) (state : StateBag)
    (Walk : Except String (List String)) :
    (∀ e, state.GetOk "error" = some (Value.error e) →
      Builder_Run_result config state Walk = .error e) ∧
    (state.GetOk "error" = none → (state.GetOk StateCancelled).isSome = true →
      Builder_Run_result config state Walk = .error "Build was cancelled.") ∧
    (state.GetOk "error" = none → state.GetOk StateCancelled = none →
      (state.GetOk StateHalted).isSome = true →
      Builder_Run_result config state Walk = .error "Build was halted.") ∧
    (∀ a, Builder_Run_result config state Walk = .artifact a →
      state.GetOk "error" = none ∧ state.GetOk StateCancelled = none ∧
        state.GetOk StateHalted = none) := by
  refine ⟨?_, ?_, ?_, ?_⟩
  · intro e he
    simp [Builder_Run_result, he]
  · intro he hc
    simp [Builder_Run_result, he, hc]
  · intro he hc hh
    simp [Builder_Run_result, he, hc, hh]
  · intro a ha
    unfold Builder_Run_result at ha
    cases he : state.GetOk "error" with
    | some v =>
      rw [he] at ha
      cases v <;> simp at ha
    | none =>
      rw [he] at ha
      cases hc : state.GetOk StateCancelled with
      | some v => simp [hc] at ha
      | none =>
        cases hh : state.GetOk StateHalted with
        | some v => simp [hc, hh] at ha
        | none => exact ⟨rfl, rfl, rfl⟩

/-- Claim C8, witness: with an error stored and both flags set, the stored error is
the result. -/
theorem C8_run_result_priority_witness :
    Builder_Run_result { OutputDir := "output-vm" } exampleFailedState (.ok ["output-vm/vm"]) =
      .error "Error starting VM: no such domain" :=
  (C8_run_result_priority { OutputDir := "output-vm" } exampleFailedState
    (.ok ["output-vm/vm"])).1 "Error starting VM: no such domain" (by decide)

/-! ## The step runner -/

theorem firstHalt_ge : ∀ (steps : List Step) (i : Nat) (state : StateBag) (k : Nat),
    firstHalt steps i state = some k → i ≤ k ∧ k < i + steps.length := by
  intro steps
  induction steps with
  | nil => intro i state k h; simp [firstHalt] at h
  | cons step rest ih =>
    intro i state k h
    simp only [firstHalt] at h
    cases ha : (step.Run state).1 with
    | ActionHalt =>
      rw [ha] at h
      simp only [Option.some.injEq] at h
      simp only [List.length_cons]
      omega
    | ActionContinue =>
      rw [ha] at h
      have := ih (i + 1) _ k h
      simp only [List.length_cons]
      omega

/-- The events of a run in which the step at position `k` is the first to halt and no
interrupt arrives before it: the steps from the current position to `k` are run in
order and then cleaned up in reverse order. -/
theorem Runner_run_events (interrupted : Nat → Bool) :
    ∀ (steps : List Step) (i : Nat) (state : StateBag) (events : List RunnerEvent) (k : Nat),
      firstHalt steps i state = some k →
      (∀ j, i ≤ j → j ≤ k → interrupted j = false) →
      (Runner_run interrupted steps i state events).2 =
        events ++ (List.range' i (k + 1 - i)).map RunnerEvent.run ++
          (List.range' i (k + 1 - i)).reverse.map RunnerEvent.cleanup := by
  intro steps
  induction steps with
  | nil => intro i state events k h; simp [firstHalt] at h
  | cons step rest ih =>
    intro i state events k h hint
    have hge := (firstHalt_ge (step :: rest) i state k h).1
    have hi : interrupted i = false := hint i (Nat.le_refl _) hge
    simp only [firstHalt] at h
    simp only [Runner_run, hi, Bool.false_eq_true, if_false]
    cases ha : (step.Run state).1 with
    | ActionHalt =>
      rw [ha] at h
      simp only [Option.some.injEq] at h
      subst h
      have h1 : i + 1 - i = 1 := by omega
      simp [h1]
    | ActionContinue =>
      rw [ha] at h
      have hge2 := (firstHalt_ge rest (i + 1) _ k h).1
      have ih2 := ih (i + 1) (step.Run state).2 (events ++ [RunnerEvent.run i]) k h
        (fun j h1 h2 => hint j (by omega) h2)
      simp only []
      rw [ih2]
      have h1 : k + 1 - i = (k + 1 - (i + 1)) + 1 := by omega
      rw [h1, List.range'_succ]
      simp

/-- Claim C9 (the runner is modelled from the spec): when the step at position `k` is
the first to return Halt and no interrupt stops the run before it, the runner runs
the steps at positions 0 to `k` in order, then invokes the cleanup of exactly these
steps in reverse order, `k` first; no later step is run or cleaned up. -/
theorem C9_halt_runs_cleanup_in_reverse (interrupted : Nat → Bool) (steps : List Step)
    (state : StateBag) (k : Nat) (hk : firstHalt steps 0 state = some k)
    (hint : ∀ j, j ≤ k → interrupted j = false) :
    (Runner_run interrupted steps 0 state []).2 =
      (List.range (k + 1)).map RunnerEvent.run ++
        (List.range (k + 1)).reverse.map RunnerEvent.cleanup ∧
    ∀ j, k < j →
      RunnerEvent.run j ∉ (Runner_run interrupted steps 0 state []).2 ∧
      RunnerEvent.cleanup j ∉ (Runner_run interrupted steps 0 state []).2 := by
  have h := Runner_run_events interrupted steps 0 state [] k hk (fun j _ hj => hint j hj)
  simp only [Nat.sub_zero, List.nil_append] at h
  rw [← List.range_eq_range'] at h
  refine ⟨h, fun j hj => ?_⟩
  rw [h]
  simp only [List.mem_append, List.mem_map, List.mem_range, List.mem_reverse, not_or,
    not_exists, not_and]
  refine ⟨⟨?_, ?_⟩, ⟨?_, ?_⟩⟩
  · intro x hx hxe
    injection hxe with hxe
    omega
  · intro x _ hxe
    cases hxe
  · intro x _ hxe
    cases hxe
  · intro x hx hxe
    injection hxe with hxe
    omega

/-- Claim C9, witness: of four steps the third halts; steps 0, 1, 2 run, their
cleanups follow in the order 2, 1, 0, and step 3 is never touched. -/
theorem C9_halt_runs_cleanup_in_reverse_witness :
    (Runner_run (fun _ => false)
      [exampleStep "download" .ActionContinue, exampleStep "create_disk" .ActionContinue,
       exampleStep "run" .ActionHalt, exampleStep "convert" .ActionContinue] 0 [] []).2 =
      [.run 0, .run 1, .run 2, .cleanup 2, .cleanup 1, .cleanup 0] :=
  (C9_halt_runs_cleanup_in_reverse (fun _ => false)
    [exampleStep "download" .ActionContinue, exampleStep "create_disk" .ActionContinue,
     exampleStep "run" .ActionHalt, exampleStep "convert" .ActionContinue] [] 2 rfl
    (fun _ _ => rfl)).1

/-! ## `LibvirtDriver.WaitForShutdown` and `LibvirtDriver.Stop` (driver.go) -/

/-- A successful `Start` leaves a connected driver with an empty completion channel
and the created domain recorded. -/
theorem Start_ok_started (d d' : LibvirtDriver) (Args : List String) (reqs : List Request)
    (h : d.Start Args = .returned (none, d', reqs)) :
    d'.vmEndCh = some [] ∧ ∃ l, d'.libvirt = some l := by
  unfold LibvirtDriver.Start at h
  cases Args with
  | nil => cases h
  | cons XMLDesc rest =>
    cases hl : d.libvirt with
    | none => simp [hl] at h
    | some l =>
      cases hc : l.DomainCreateXML XMLDesc with
      | error e => simp [hl, hc] at h
      | ok domain =>
        simp only [hl, hc, Outcome.returned.injEq, Prod.mk.injEq, true_and] at h
        rw [← h.1]
        exact ⟨rfl, l, rfl⟩

/-- On a connected driver `Stop` returns. -/
theorem Stop_returns (d : LibvirtDriver) (l : Libvirt) (hl : d.libvirt = some l) :
    ∃ err sent, d.Stop = .returned (err, sent) := by
  unfold LibvirtDriver.Stop
  rw [hl]
  by_cases hid : d.vmDomain.ID ≠ 0
  · rw [if_pos hid]
    cases hdes : l.DomainDestroy d.vmDomain with
    | none => exact ⟨none, [Request.DomainDestroy d.vmDomain], by simp only [hdes]⟩
    | some e => exact ⟨some e, [Request.DomainDestroy d.vmDomain], by simp only [hdes]⟩
  · rw [if_neg hid]
    exact ⟨_, _, rfl⟩

/-- Claim C10: on a driver whose domain has been started (connected, completion
channel present), `WaitForShutdown` returns as soon as the channel holds a value or
the cancellation has fired; it returns true only by receiving a value from the
channel and false only when the cancellation has fired; either way it sends no
request to the daemon and leaves the recorded domain and the connection as they were,
so that `Stop` afterwards behaves as it would have before the wait and returns
without a fault. -/
theorem C10_wait_for_shutdown_no_side_effects (d : LibvirtDriver) (l : Libvirt)
    (endCh : List Int) (hconn : d.libvirt = some l) (hstarted : d.vmEndCh = some endCh)
    (cancelReady pickCancel : Bool) :
    ((endCh ≠ [] ∨ cancelReady = true) →
      ∃ b d' reqs, d.WaitForShutdown cancelReady pickCancel = .returned b d' reqs) ∧
    ∀ b d' reqs, d.WaitForShutdown cancelReady pickCancel = .returned b d' reqs →
      (b = true → ∃ v rest, endCh = v :: rest ∧ d'.vmEndCh = some rest) ∧
      (b = false → cancelReady = true ∧ d'.vmEndCh = some endCh) ∧
      reqs = [] ∧ d'.vmDomain = d.vmDomain ∧ d'.libvirt = d.libvirt ∧
      d'.Stop = d.Stop ∧ ∃ err sent, d'.Stop = .returned (err, sent) := by
  constructor
  · intro hready
    unfold LibvirtDriver.WaitForShutdown
    rw [hstarted]
    cases endCh with
    | nil =>
      have hc : cancelReady = true := by
        rcases hready with h | h
        · exact absurd rfl h
        · exact h
      subst hc
      exact ⟨_, _, _, rfl⟩
    | cons v rest =>
      cases cancelReady with
      | false => exact ⟨_, _, _, rfl⟩
      | true =>
        cases pickCancel with
        | false => exact ⟨_, _, _, rfl⟩
        | true => exact ⟨_, _, _, rfl⟩
  · intro b d' reqs h
    unfold LibvirtDriver.WaitForShutdown at h
    rw [hstarted] at h
    have hstop := Stop_returns d l hconn
    have hcancel : ∀ (c : Bool) (rest : List Int), c = true →
        WaitResult.returned false d [] = WaitResult.returned b d' reqs →
        (b = true → ∃ v rest, endCh = v :: rest ∧ d'.vmEndCh = some rest) ∧
        (b = false → c = true ∧ d'.vmEndCh = some endCh) ∧
        reqs = [] ∧ d'.vmDomain = d.vmDomain ∧ d'.libvirt = d.libvirt ∧
        d'.Stop = d.Stop ∧ ∃ err sent, d'.Stop = .returned (err, sent) := by
      intro c rest hc h
      simp only [WaitResult.returned.injEq] at h
      obtain ⟨hb, hd, hr⟩ := h
      subst hb hd hr
      refine ⟨?_, ?_, rfl, rfl, rfl, rfl, hstop⟩
      · intro hb; cases hb
      · intro _; exact ⟨hc, hstarted⟩
    have hrecv : ∀ (c : Bool) (v : Int) (rest : List Int), endCh = v :: rest →
        WaitResult.returned true { d with vmEndCh := some rest } [] =
          WaitResult.returned b d' reqs →
        (b = true → ∃ v rest, endCh = v :: rest ∧ d'.vmEndCh = some rest) ∧
        (b = false → c = true ∧ d'.vmEndCh = some endCh) ∧
        reqs = [] ∧ d'.vmDomain = d.vmDomain ∧ d'.libvirt = d.libvirt ∧
        d'.Stop = d.Stop ∧ ∃ err sent, d'.Stop = .returned (err, sent) := by
      intro c v rest he h
      simp only [WaitResult.returned.injEq] at h
      obtain ⟨hb, hd, hr⟩ := h
      subst hb hd hr
      refine ⟨?_, ?_, rfl, rfl, rfl, rfl, hstop⟩
      · intro _; exact ⟨v, rest, he, rfl⟩
      · intro hb; cases hb
    cases endCh with
    | nil =>
      cases cancelReady with
      | false => cases h
      | true => exact hcancel true [] rfl h
    | cons v rest =>
      cases cancelReady with
      | false => exact hrecv false v rest rfl h
      | true =>
        cases pickCancel with
        | false => exact hrecv true v rest rfl h
        | true => exact hcancel true rest rfl h

/-- Claim C10, witness: the cancellation fires while the monitor has written nothing;
the wait returns false, the started domain (id 3) is still recorded, and `Stop`
returns after sending the destroy request for it. -/
theorem C10_wait_for_shutdown_no_side_effects_witness :
    ∃ d', exampleStartedDriver.WaitForShutdown true false = .returned false d' [] ∧
      d'.vmDomain.ID = 3 ∧
      d'.Stop = .returned (none, [Request.DomainDestroy ⟨"packer-vm", [7], 3⟩]) := by
  have h := C10_wait_for_shutdown_no_side_effects exampleStartedDriver (exampleDaemon false)
    [] rfl rfl true false
  refine ⟨exampleStartedDriver, rfl, ?_, ?_⟩
  · rw [(h.2 false exampleStartedDriver [] rfl).2.2.2.1]
    rfl
  · rw [(h.2 false exampleStartedDriver [] rfl).2.2.2.2.2.1]
    rfl

/-- Claim C11: on a driver on which `Start` has never recorded a completion channel,
`WaitForShutdown` returns true at once, whatever the state of the cancellation
channel, without receiving from a channel, sending a request or changing the
driver. -/
theorem C11_wait_without_start_returns_true (d : LibvirtDriver) (hnever : d.vmEndCh = none)
    (cancelReady pickCancel : Bool) :
    d.WaitForShutdown cancelReady pickCancel = .returned true d [] := by
  unfold LibvirtDriver.WaitForShutdown
  rw [hnever]

/-- Claim C11, witness: the driver as `newDriver` leaves it, with the cancellation
not fired. -/
theorem C11_wait_without_start_returns_true_witness :
    (exampleDriver false).WaitForShutdown false false = .returned true (exampleDriver false) [] :=
  C11_wait_without_start_returns_true (exampleDriver false) rfl false false

/-- When the monitor has terminated, the recorded domain id is 0. -/
theorem monitor_loop_terminated_id (d : LibvirtDriver) :
    ∀ (polls : List Poll) (errorState : Int) (polled : Nat),
      (monitor_loop d polls errorState polled).status = .terminated →
      (monitor_loop d polls errorState polled).driver.vmDomain.ID = 0 := by
  intro polls
  induction polls with
  | nil => intro errorState polled h; simp [monitor_loop] at h
  | cons reply rest ih =>
    intro errorState polled h
    unfold monitor_loop at h ⊢
    dsimp only at h ⊢
    split at h
    · split at h
      · rename_i hne ch hch
        rw [if_pos hne]
      · simp at h
    · rename_i hne
      rw [if_neg hne]
      exact ih _ _ h

/-- Claim C12: `Stop` with a recorded domain id of 0 returns success and sends
nothing to the daemon; on a connected driver with a non-zero recorded id it sends
exactly one destroy request, for the recorded domain, and returns exactly the result
of that request; so a destroy request is sent iff the recorded id is non-zero. Once
the monitor has terminated the recorded id is 0 and `Stop` is such a no-op. -/
theorem C12_stop_destroys_iff_recorded (d : LibvirtDriver) :
    (d.vmDomain.ID = 0 → d.Stop = .returned (none, [])) ∧
    (∀ l, d.libvirt = some l → d.vmDomain.ID ≠ 0 →
      d.Stop = .returned (l.DomainDestroy d.vmDomain, [Request.DomainDestroy d.vmDomain])) ∧
    (∀ err sent, d.Stop = .returned (err, sent) →
      (Request.DomainDestroy d.vmDomain ∈ sent ↔ d.vmDomain.ID ≠ 0)) ∧
    (∀ polls, (monitor d polls).status = .terminated →
      (monitor d polls).driver.Stop = .returned (none, [])) := by
  have hzero : ∀ d' : LibvirtDriver, d'.vmDomain.ID = 0 → d'.Stop = .returned (none, []) := by
    intro d' h
    simp [LibvirtDriver.Stop, h]
  have hnonzero : ∀ l, d.libvirt = some l → d.vmDomain.ID ≠ 0 →
      d.Stop = .returned (l.DomainDestroy d.vmDomain, [Request.DomainDestroy d.vmDomain]) := by
    intro l hl hid
    unfold LibvirtDriver.Stop
    rw [if_pos hid, hl]
    cases hdes : l.DomainDestroy d.vmDomain <;> simp only [hdes]
  refine ⟨hzero d, hnonzero, ?_, ?_⟩
  · intro err sent h
    by_cases hid : d.vmDomain.ID = 0
    · rw [hzero d hid] at h
      simp only [Outcome.returned.injEq, Prod.mk.injEq] at h
      rw [← h.2]
      simp [hid]
    · cases hl : d.libvirt with
      | none =>
        unfold LibvirtDriver.Stop at h
        rw [if_pos hid, hl] at h
        cases h
      | some l =>
        rw [hnonzero l hl hid] at h
        simp only [Outcome.returned.injEq, Prod.mk.injEq] at h
        rw [← h.2]
        simp [hid]
  · intro polls h
    exact hzero _ (monitor_loop_terminated_id d polls (-1) 0 h)

/-- Claim C12, witness: the started driver (recorded id 3) sends one destroy request
and returns its result; after the monitor has seen the domain shut off, `Stop` sends
nothing. -/
theorem C12_stop_destroys_iff_recorded_witness :
    exampleStartedDriver.Stop =
      .returned (none, [Request.DomainDestroy ⟨"packer-vm", [7], 3⟩]) ∧
    (monitor exampleStartedDriver [.state 1, .state 5]).driver.Stop = .returned (none, []) :=
  ⟨(C12_stop_destroys_iff_recorded exampleStartedDriver).2.1 (exampleDaemon false) rfl
      (by decide),
    (C12_stop_destroys_iff_recorded exampleStartedDriver).2.2.2 [.state 1, .state 5] rfl⟩

/-! ## `stepRun.Run` (step_run.go) -/

/-- Claim C13: when descriptor generation fails, `Run` returns Halt, stores the error
"Error generating XML: ..." under "error" and does not call the driver; when the
descriptor is generated, `Run` calls `Start` once, with the descriptor as its only
argument, and returns Halt with "Error starting VM: ..." stored under "error" if
`Start` returns an error, and Continue with the state bag untouched otherwise. So a
returning `Run` halts iff one of the two fails, and it writes to the state bag iff it
halts. With the mock driver the descriptor is appended to the recorded calls. -/
theorem C13_run_halts_iff_descriptor_or_start_fails (s : stepRun) (env : RunEnv)
    (config : Config) (ctx : Context) (driver : Driver) (state : StateBag) :
    (∀ e, s.getXMLDesc env config ctx state = .returned (.error e) →
      s.Run env config ctx driver state = .returned (.ActionHalt,
        state.Put "error" (Value.error ("Error generating XML: " ++ e)), driver)) ∧
    (∀ xml e driver', s.getXMLDesc env config ctx state = .returned (.ok xml) →
      driver.Start [xml] = .returned (some e, driver') →
      s.Run env config ctx driver state = .returned (.ActionHalt,
        state.Put "error" (Value.error ("Error starting VM: " ++ e)), driver')) ∧
    (∀ xml driver', s.getXMLDesc env config ctx state = .returned (.ok xml) →
      driver.Start [xml] = .returned (none, driver') →
      s.Run env config ctx driver state = .returned (.ActionContinue, state, driver')) ∧
    (∀ action state' driver', s.Run env config ctx driver state =
        .returned (action, state', driver') →
      (action = .ActionHalt ↔
        (∃ e, s.getXMLDesc env config ctx state = .returned (.error e)) ∨
        (∃ xml e d, s.getXMLDesc env config ctx state = .returned (.ok xml) ∧
          driver.Start [xml] = .returned (some e, d))) ∧
      (action = .ActionHalt ↔ ∃ e, state' = state.Put "error" (Value.error e)) ∧
      (action = .ActionContinue ↔ state' = state)) ∧
    (∀ xml m, driver = Driver.mock m →
      s.getXMLDesc env config ctx state = .returned (.ok xml) →
      ∃ action state' m', s.Run env config ctx driver state =
          .returned (action, state', Driver.mock m') ∧
        m'.LibvirtCalls = m.LibvirtCalls ++ [[xml]]) := by
  have hput : ∀ e, state.Put "error" (Value.error e) ≠ state := by
    intro e h
    have := congrArg List.length h
    simp [StateBag.Put] at this
  refine ⟨?_, ?_, ?_, ?_, ?_⟩
  · intro e h
    simp [stepRun.Run, h, Outcome.bind]
  · intro xml e driver' h hs
    simp [stepRun.Run, h, hs, Outcome.bind]
  · intro xml driver' h hs
    simp [stepRun.Run, h, hs, Outcome.bind]
  · intro action state' driver' h
    unfold stepRun.Run at h
    cases hx : s.getXMLDesc env config ctx state with
    | panicked => simp [hx, Outcome.bind] at h
    | returned r =>
      cases r with
      | error e =>
        simp only [hx, Outcome.bind, Outcome.returned.injEq, Prod.mk.injEq] at h
        obtain ⟨ha, hst, -⟩ := h
        subst ha hst
        refine ⟨⟨fun _ => Or.inl ⟨e, rfl⟩, fun _ => rfl⟩, ⟨fun _ => ⟨_, rfl⟩, fun _ => rfl⟩, ?_⟩
        constructor
        · intro h; cases h
        · intro h; exact absurd h (hput _)
      | ok xml =>
        cases hs : driver.Start [xml] with
        | panicked => simp [hx, hs, Outcome.bind] at h
        | returned started =>
          obtain ⟨err, d⟩ := started
          cases err with
          | some e =>
            simp only [hx, hs, Outcome.bind, Outcome.returned.injEq, Prod.mk.injEq] at h
            obtain ⟨ha, hst, -⟩ := h
            subst ha hst
            refine ⟨⟨fun _ => Or.inr ⟨xml, e, d, rfl, hs⟩, fun _ => rfl⟩,
              ⟨fun _ => ⟨_, rfl⟩, fun _ => rfl⟩, ?_⟩
            constructor
            · intro h; cases h
            · intro h; exact absurd h (hput _)
          | none =>
            simp only [hx, hs, Outcome.bind, Outcome.returned.injEq, Prod.mk.injEq] at h
            obtain ⟨ha, hst, -⟩ := h
            subst ha hst
            refine ⟨⟨(fun h => by cases h), ?_⟩, ⟨(fun h => by cases h), ?_⟩,
              ⟨fun _ => rfl, fun _ => rfl⟩⟩
            · rintro (⟨e, he⟩ | ⟨xml2, e, d2, hx2, hs2⟩)
              · cases he
              · simp only [Outcome.returned.injEq, Except.ok.injEq] at hx2
                subst hx2
                rw [hs] at hs2
                simp at hs2
            · rintro ⟨e, he⟩
              exact absurd he.symm (hput e)
  · intro xml m hm h
    subst hm
    cases herr : (m.Start [xml]).1 with
    | some e =>
      refine ⟨.ActionHalt, state.Put "error" (Value.error ("Error starting VM: " ++ e)),
        (m.Start [xml]).2, ?_, ?_⟩
      · simp [stepRun.Run, h, Outcome.bind, Driver.Start, herr]
      · unfold DriverMock.Start
        dsimp only
        split <;> rfl
    | none =>
      refine ⟨.ActionContinue, state, (m.Start [xml]).2, ?_, ?_⟩
      · simp [stepRun.Run, h, Outcome.bind, Driver.Start, herr]
      · unfold DriverMock.Start
        dsimp only
        split <;> rfl

/-- Claim C13, witness: the configured template file does not exist; `Run` halts with
the wrapped error stored and the mock driver records no call. -/
theorem C13_run_halts_iff_descriptor_or_start_fails_witness :
    stepRun.Run {} exampleRunEnv { exampleConfig with XMLFile := "/templates/none.xml" } {}
        (Driver.mock {}) exampleRunState =
      .returned (.ActionHalt,
        exampleRunState.Put "error" (Value.error
          "Error generating XML: open /templates/none.xml: no such file or directory"),
        Driver.mock {}) :=
  (C13_run_halts_iff_descriptor_or_start_fails {} exampleRunEnv
    { exampleConfig with XMLFile := "/templates/none.xml" } {} (Driver.mock {})
    exampleRunState).1 "open /templates/none.xml: no such file or directory" rfl

/-! ## `Config.Prepare` (config.go): the checks -/

/-- The errors appended by the checks at the end of `Prepare`, read on the
configuration at the start of these checks. -/
theorem Prepare_validate_errs (env : PrepareEnv) (s : PrepareState) :
    (Prepare_validate env s).errs =
      s.errs ++ errIf (¬ (s.c.Format = "qcow2" ∨ s.c.Format = "raw")) .invalidFormat ++
      errIf (s.c.UseBackingFile = true ∧ ¬ (s.c.DiskImage = true ∧ s.c.Format = "qcow2"))
        .useBackingFile ++
      errIf (s.c.SkipResizeDisk = true ∧ ¬ (s.c.DiskImage = true)) .skipResizeDisk ++
      errIf (s.c.Hypervisor ∉ hypervisors) .invalidHypervisor ++
      errIf (s.c.DiskInterface ∉ diskInterface) .unrecognizedDiskInterface ++
      errIf (s.c.DiskCache ∉ diskCache) .unrecognizedDiskCache ++
      errIf (s.c.DiskDiscard ∉ diskDiscard) .unrecognizedDiskDiscard ++
      errIf (s.c.DetectZeroes ∉ diskDZeroes) .unrecognizedDetectZeroes ++
      errIf (s.c.PackerForce = false ∧ env.Stat s.c.OutputDir = true)
        (.outputDirExists s.c.OutputDir) ++
      errIf (s.c.VNCPortMin > s.c.VNCPortMax) .vncPortRange ++
      errIf (s.c.XMLFile ≠ "" ∧ env.Stat s.c.XMLFile = false) (.xmlFileMissing s.c.XMLFile) := by
  simp only [Prepare_validate]
  split_ifs <;> rfl

/-- The checks at the end of `Prepare` change the compaction flags and the bridge
only. -/
theorem Prepare_validate_fields (env : PrepareEnv) (s : PrepareState) :
    (Prepare_validate env s).c.Format = s.c.Format ∧
    (Prepare_validate env s).c.Hypervisor = s.c.Hypervisor ∧
    (Prepare_validate env s).c.DiskInterface = s.c.DiskInterface ∧
    (Prepare_validate env s).c.DiskCache = s.c.DiskCache ∧
    (Prepare_validate env s).c.DiskDiscard = s.c.DiskDiscard ∧
    (Prepare_validate env s).c.DetectZeroes = s.c.DetectZeroes ∧
    (Prepare_validate env s).c.CpuCount = s.c.CpuCount ∧
    (Prepare_validate env s).c.MemorySize = s.c.MemorySize ∧
    (Prepare_validate env s).c.EmulatorBinary = s.c.EmulatorBinary ∧
    (Prepare_validate env s).c.UseBackingFile = s.c.UseBackingFile ∧
    (Prepare_validate env s).c.DiskImage = s.c.DiskImage ∧
    (Prepare_validate env s).c.SkipResizeDisk = s.c.SkipResizeDisk ∧
    (Prepare_validate env s).c.VNCPortMin = s.c.VNCPortMin ∧
    (Prepare_validate env s).c.VNCPortMax = s.c.VNCPortMax ∧
    (Prepare_validate env s).c.NetBridge ≠ "" ∧
    (Prepare_validate env s).warnings = s.warnings ∧
    (Prepare_validate env s).log = s.log := by
  simp only [Prepare_validate]
  split_ifs <;> simp_all

/-- The embedded SDK configurations append their errors and the ISO warnings; the
two defaults set there touch the network device and the disk interface only. -/
theorem Prepare_sdk_fields (env : PrepareEnv) (s : PrepareState) :
    (Prepare_sdk env s).errs = s.errs ++
      (env.FloppyConfig ++ env.CDConfig ++ env.VNCConfig ++ env.ISOConfig ++ env.HTTPConfig ++
        env.Comm).map PrepareError.sdk ∧
    (Prepare_sdk env s).warnings = s.warnings ++ env.ISOConfigWarnings ∧
    (Prepare_sdk env s).log = s.log ∧
    (Prepare_sdk env s).c.CpuCount = s.c.CpuCount ∧
    (Prepare_sdk env s).c.MemorySize = s.c.MemorySize ∧
    (Prepare_sdk env s).c.EmulatorBinary = s.c.EmulatorBinary := by
  simp only [Prepare_sdk, List.map_append, List.append_assoc, true_and]
  split_ifs <;> simp

/-- After the sizing block the memory size is at least 10 and the CPU count at least
1; the block records no error and no warning and leaves the emulator alone. -/
theorem Prepare_sizing_fields (s : PrepareState) :
    (Prepare_sizing s).errs = s.errs ∧
    (Prepare_sizing s).warnings = s.warnings ∧
    10 ≤ (Prepare_sizing s).c.MemorySize ∧
    1 ≤ (Prepare_sizing s).c.CpuCount ∧
    (Prepare_sizing s).c.EmulatorBinary = s.c.EmulatorBinary := by
  simp only [Prepare_sizing, apply_ite Config.MemorySize, apply_ite Config.CpuCount,
    apply_ite Config.EmulatorBinary, ite_self, true_and]
  refine ⟨?_, ?_, trivial⟩
  · split_ifs <;> omega
  · split_ifs <;> omega

/-- The emulator lookup either records the emulator error or replaces the binary by
the path found. -/
theorem Prepare_emulator_fields (env : PrepareEnv) (s : PrepareState) :
    (Prepare_emulator env s).warnings = s.warnings ∧
    ((∃ p, env.LookPath s.c.EmulatorBinary = .ok p ∧
        (Prepare_emulator env s).c.EmulatorBinary = p ∧
        (Prepare_emulator env s).errs = s.errs) ∨
      (Prepare_emulator env s).errs =
        s.errs ++ [PrepareError.emulatorNotExecutable s.c.EmulatorBinary]) := by
  unfold Prepare_emulator
  cases h : env.LookPath s.c.EmulatorBinary with
  | error e =>
    refine ⟨?_, Or.inr ?_⟩ <;> simp
  | ok p =>
    refine ⟨?_, Or.inl ⟨p, rfl, ?_, ?_⟩⟩ <;> simp [apply_ite Config.EmulatorBinary]

/-- After the machine defaults the emulator binary is named. -/
theorem Prepare_machine_fields (s : PrepareState) :
    (Prepare_machine s).errs = s.errs ∧ (Prepare_machine s).warnings = s.warnings ∧
    (Prepare_machine s).c.EmulatorBinary ≠ "" := by
  simp only [Prepare_machine, apply_ite Config.EmulatorBinary, true_and]
  split_ifs with h <;> simp_all

/-- The disk-size block appends the disk-size error exactly when the size is set and
the first pattern rejects it. -/
theorem Prepare_diskSize_errs (s : PrepareState) :
    (Prepare_diskSize s).errs = s.errs ++
      errIf (¬ (s.c.DiskSize = "" ∨ s.c.DiskSize = "0") ∧
        matchDiskSize (ToLower s.c.DiskSize) = false) .invalidDiskSize ∧
    (Prepare_diskSize s).warnings = s.warnings := by
  unfold Prepare_diskSize errIf
  by_cases h : s.c.DiskSize = "" ∨ s.c.DiskSize = "0"
  · simp [h]
  · cases hm : matchDiskSize (ToLower s.c.DiskSize) with
    | false => simp [h, hm]
    | true =>
      cases hd : matchDigits (ToLower s.c.DiskSize) <;> simp [h, hm, hd]

theorem Prepare_accelerator_warnings (env : PrepareEnv) (s : PrepareState) :
    (Prepare_accelerator env s).warnings = s.warnings := by
  simp only [Prepare_accelerator]

theorem errIf_eq_nil (cond : Prop) [Decidable cond] (e : PrepareError) :
    errIf cond e = [] ↔ ¬ cond := by
  unfold errIf
  split <;> simp_all

/-- The disk size left by the disk-size block when it records no error: digits
followed by one unit character. -/
theorem Prepare_diskSize_valid (s : PrepareState)
    (h : PrepareError.invalidDiskSize ∉ (Prepare_diskSize s).errs) :
    ∃ ds u, ds ≠ [] ∧ (∀ ch ∈ ds, ch.isDigit = true) ∧ u ∈ unitLetters ++ [kelvinSign] ∧
      (Prepare_diskSize s).c.DiskSize.toList = ds ++ [u] := by
  have hcases := Prepare_diskSize_cases s
  by_cases hunset : s.c.DiskSize = "" ∨ s.c.DiskSize = "0"
  · rw [(hcases.1 hunset).1]
    exact ⟨"40960".toList, 'M', by decide, by decide, by decide, by decide⟩
  · cases hm : matchDiskSize (ToLower s.c.DiskSize) with
    | false =>
      rw [(hcases.2.1 hunset hm).2] at h
      simp at h
    | true =>
      cases hd : matchDigits (ToLower s.c.DiskSize) with
      | true =>
        rw [(hcases.2.2.1 hunset hm hd).1]
        have hdig := (matchDigits_ToLower s.c.DiskSize).mp hd
        refine ⟨s.c.DiskSize.toList, 'M', hdig.1, hdig.2, by decide, ?_⟩
        simp [String.toList, String.data_append]
      | false =>
        rw [(hcases.2.2.2 hunset hm hd).1]
        obtain ⟨ds, hne, hall, hform | ⟨u, hu, hform⟩⟩ := (matchDiskSize_iff s.c.DiskSize).mp hm
        · have : matchDigits (ToLower s.c.DiskSize) = true :=
            (matchDigits_ToLower s.c.DiskSize).mpr ⟨by rw [hform]; exact hne,
              by rw [hform]; exact hall⟩
          rw [hd] at this
          cases this
        · exact ⟨ds, u, hne, hall, hu, hform⟩

/-- The fields of a configuration that `Prepare` returns without error (when
`exec.LookPath` returns a non-empty path for a non-empty name): it has a
hypervisor among kvm, qemu, xen; a format qcow2 or raw; a disk interface, cache,
discard and detect-zeroes setting among the allowed values; a disk size made of
digits followed by one unit character, which is one of b, k, m, g, t in either case
or the Kelvin sign; at least one CPU; a memory size of at least 10; and a non-empty
bridge and emulator binary. -/
theorem Prepare_ok_config_valid (env : PrepareEnv) (c : Config) (s : PrepareState)
    (hLook : ∀ file path, env.LookPath file = .ok path → file ≠ "" → path ≠ "")
    (h : c.Prepare env = .prepared s) (hok : s.errs = []) :
    s.c.Hypervisor ∈ hypervisors ∧ (s.c.Format = "qcow2" ∨ s.c.Format = "raw") ∧
    s.c.DiskInterface ∈ diskInterface ∧ s.c.DiskCache ∈ diskCache ∧
    s.c.DiskDiscard ∈ diskDiscard ∧ s.c.DetectZeroes ∈ diskDZeroes ∧
    (∃ ds u, ds ≠ [] ∧ (∀ ch ∈ ds, ch.isDigit = true) ∧ u ∈ unitLetters ++ [kelvinSign] ∧
      s.c.DiskSize.toList = ds ++ [u]) ∧
    1 ≤ s.c.CpuCount ∧ 10 ≤ s.c.MemorySize ∧ s.c.NetBridge ≠ "" ∧
    s.c.EmulatorBinary ≠ "" := by
  unfold Config.Prepare at h
  cases hdec : env.Decode with
  | some e => rw [hdec] at h; cases h
  | none =>
    rw [hdec] at h
    simp only [PrepareResult.prepared.injEq] at h
    subst h
    have hds := Prepare_body_DiskSize env c
    have hbody : Prepare_body env c = Prepare_validate env (Prepare_sdk env (Prepare_sizing
        (Prepare_emulator env (Prepare_machine (Prepare_accelerator env (Prepare_diskSize
          { c := c, errs := env.ShutdownConfig.map PrepareError.sdk, warnings := [],
            log := [] })))))) := rfl
    rw [hbody] at hok ⊢
    generalize hs0 : Prepare_diskSize
      { c := c, errs := env.ShutdownConfig.map PrepareError.sdk, warnings := [],
        log := [] } = s1 at hok hds ⊢
    rw [hbody, hs0] at hds
    have hv := Prepare_validate_fields env (Prepare_sdk env (Prepare_sizing
      (Prepare_emulator env (Prepare_machine (Prepare_accelerator env s1)))))
    have hve := Prepare_validate_errs env (Prepare_sdk env (Prepare_sizing
      (Prepare_emulator env (Prepare_machine (Prepare_accelerator env s1)))))
    rw [hok] at hve
    have hve2 := hve.symm
    simp only [List.append_eq_nil, errIf_eq_nil] at hve2
    obtain ⟨⟨⟨⟨⟨⟨⟨⟨⟨⟨⟨hs6, hfmt⟩, -⟩, -⟩, hhyp⟩, hdi⟩, hdc⟩, hdd⟩, hdz⟩, -⟩, -⟩, -⟩ := hve2
    have hsdk := Prepare_sdk_fields env (Prepare_sizing
      (Prepare_emulator env (Prepare_machine (Prepare_accelerator env s1))))
    rw [hsdk.1] at hs6
    simp only [List.append_eq_nil] at hs6
    have hsz := Prepare_sizing_fields
      (Prepare_emulator env (Prepare_machine (Prepare_accelerator env s1)))
    have hs4 := hs6.1
    rw [hsz.1] at hs4
    have hem := (Prepare_emulator_fields env (Prepare_machine (Prepare_accelerator env s1))).2
    have hma := Prepare_machine_fields (Prepare_accelerator env s1)
    have hemu : (Prepare_emulator env (Prepare_machine
        (Prepare_accelerator env s1))).c.EmulatorBinary ≠ "" := by
      rcases hem with ⟨p, hp, hpe, -⟩ | herr
      · rw [hpe]
        exact hLook _ p hp hma.2.2
      · rw [hs4] at herr
        have := congrArg List.length herr
        simp at this
    have hs1 : s1.errs = [] := by
      rcases hem with ⟨p, hp, hpe, he⟩ | herr
      · rw [hs4, hma.1, (Prepare_accelerator_DiskSize env s1).2] at he
        exact he.symm
      · rw [hs4] at herr
        have := congrArg List.length herr
        simp at this
    refine ⟨?_, ?_, ?_, ?_, ?_, ?_, ?_, ?_, ?_, hv.2.2.2.2.2.2.2.2.2.2.2.2.2.2.1, ?_⟩
    · rw [hv.2.1]; exact not_not.mp hhyp
    · rw [hv.1]; exact not_not.mp hfmt
    · rw [hv.2.2.1]; exact not_not.mp hdi
    · rw [hv.2.2.2.1]; exact not_not.mp hdc
    · rw [hv.2.2.2.2.1]; exact not_not.mp hdd
    · rw [hv.2.2.2.2.2.1]; exact not_not.mp hdz
    · rw [hds.1, ← hs0]
      apply Prepare_diskSize_valid
      rw [hs0, hs1]; simp
    · rw [hv.2.2.2.2.2.2.1, hsdk.2.2.2.1]; exact hsz.2.2.2.1
    · rw [hv.2.2.2.2.2.2.2.1, hsdk.2.2.2.2.1]; exact hsz.2.2.1
    · rw [hv.2.2.2.2.2.2.2.2.1, hsdk.2.2.2.2.2, hsz.2.2.2.2]; exact hemu

/-- The empty configuration in the example environment is prepared without error, with
every default applied. -/
theorem Prepare_ok_config_valid_example :
    (Prepare_body exampleEnv {}).errs = [] ∧
    (Prepare_body exampleEnv {}).c.Hypervisor ∈ hypervisors ∧
    (Prepare_body exampleEnv {}).c.DiskSize = "40960M" ∧
    1 ≤ (Prepare_body exampleEnv {}).c.CpuCount ∧
    10 ≤ (Prepare_body exampleEnv {}).c.MemorySize ∧
    (Prepare_body exampleEnv {}).c.EmulatorBinary ≠ "" := by
  have h := Prepare_ok_config_valid exampleEnv {} (Prepare_body exampleEnv {})
    (by
      intro file path hp hne
      simp only [exampleEnv, Except.ok.injEq] at hp
      rw [← hp]
      exact hne)
    rfl (by decide)
  exact ⟨by decide, h.1, by decide, h.2.2.2.2.2.2.2.1, h.2.2.2.2.2.2.2.2.1, h.2.2.2.2.2.2.2.2.2.2⟩

/-- Claim C14, the code at the failing input: the disk size "5" followed by the Kelvin
sign U+212A is prepared without error and kept, but its last character is none of the
unit letters b, k, m, g, t in either case. -/
theorem C14_kelvin_unit_is_prepared :
    (Prepare_body exampleEnv { DiskSize := String.mk ['5', kelvinSign] }).errs = [] ∧
    Config.Prepare exampleEnv { DiskSize := String.mk ['5', kelvinSign] } =
      .prepared (Prepare_body exampleEnv { DiskSize := String.mk ['5', kelvinSign] }) ∧
    (Prepare_body exampleEnv { DiskSize := String.mk ['5', kelvinSign] }).c.DiskSize.toList =
      ['5', kelvinSign] ∧
    ¬ ∃ ds u, u ∈ unitLetters ∧
      (Prepare_body exampleEnv { DiskSize := String.mk ['5', kelvinSign] }).c.DiskSize.toList =
        ds ++ [u] := by
  have hsize : (Prepare_body exampleEnv
      { DiskSize := String.mk ['5', kelvinSign] }).c.DiskSize.toList = ['5', kelvinSign] := by
    decide
  refine ⟨by decide, rfl, hsize, ?_⟩
  rintro ⟨ds, u, hu, h⟩
  rw [hsize] at h
  have h2 : ['5', kelvinSign] = ['5'] ++ [kelvinSign] := rfl
  rw [h2] at h
  have h3 := (List.append_inj' h rfl).2
  injection h3 with h4
  rw [← h4] at hu
  exact absurd hu (by decide)

theorem count_errIf (cond : Prop) [Decidable cond] (e x : PrepareError) :
    (errIf cond e).count x = if cond ∧ e = x then 1 else 0 := by
  unfold errIf
  by_cases hc : cond
  · by_cases he : e = x
    · simp [hc, he]
    · simp [hc, he, List.count_cons]
  · simp [hc]

theorem count_sdk_map (l : List String) (x : PrepareError) (hx : ∀ m, x ≠ .sdk m) :
    (l.map PrepareError.sdk).count x = 0 := by
  rw [List.count_eq_zero]
  intro h
  obtain ⟨m, -, hm⟩ := List.mem_map.mp h
  exact hx m hm.symm

/-- Before the final checks the only errors recorded, besides those of the embedded
SDK configurations and of the emulator lookup, is the disk-size error, recorded once
when the size is set and the first pattern rejects it. -/
theorem Prepare_early_count (env : PrepareEnv) (c : Config) (x : PrepareError)
    (hsdk : ∀ m, x ≠ .sdk m) (hemu : ∀ b, x ≠ .emulatorNotExecutable b) :
    (Prepare_sdk env (Prepare_sizing (Prepare_emulator env (Prepare_machine
      (Prepare_accelerator env (Prepare_diskSize
        { c := c, errs := env.ShutdownConfig.map PrepareError.sdk, warnings := [],
          log := [] })))))).errs.count x =
      (errIf (¬ (c.DiskSize = "" ∨ c.DiskSize = "0") ∧
        matchDiskSize (ToLower c.DiskSize) = false) .invalidDiskSize).count x := by
  generalize hs1 : Prepare_diskSize
    { c := c, errs := env.ShutdownConfig.map PrepareError.sdk, warnings := [],
      log := [] } = s1
  have h1 := (Prepare_diskSize_errs
    { c := c, errs := env.ShutdownConfig.map PrepareError.sdk, warnings := [],
      log := [] }).1
  rw [hs1] at h1
  simp only at h1
  rw [(Prepare_sdk_fields env _).1, List.count_append, count_sdk_map _ x hsdk,
    (Prepare_sizing_fields _).1, Nat.add_zero]
  have h3 : (Prepare_machine (Prepare_accelerator env s1)).errs = s1.errs := by
    rw [(Prepare_machine_fields _).1, (Prepare_accelerator_DiskSize env s1).2]
  rcases (Prepare_emulator_fields env (Prepare_machine (Prepare_accelerator env s1))).2 with
    ⟨p, -, -, he⟩ | he
  · rw [he, h3, h1, List.count_append, count_sdk_map _ x hsdk, Nat.zero_add]
  · rw [he, h3, h1, List.count_append, List.count_append, count_sdk_map _ x hsdk,
      Nat.zero_add]
    have : [PrepareError.emulatorNotExecutable
        (Prepare_machine (Prepare_accelerator env s1)).c.EmulatorBinary].count x = 0 := by
      rw [List.count_eq_zero]
      intro hmem
      exact hemu _ (List.mem_singleton.mp hmem)
    rw [this, Nat.add_zero]

/-- Claim C15: when the configuration decodes, the error list of `Prepare` holds
exactly one entry for each violated check among disk size, format, use_backing_file,
skip_resize_disk, hypervisor, disk interface, disk cache, disk discard, detect-zeroes
and VNC port range, and none for a check that is not violated, whatever the other
checks find; the checks after the disk size are read on the prepared
configuration. -/
theorem C15_prepare_collects_every_error (env : PrepareEnv) (c : Config)
    (hdec : env.Decode = none) :
    ∃ s, c.Prepare env = .prepared s ∧
      reportsOnceIff s.errs .invalidDiskSize
        (c.DiskSize ≠ "" ∧ c.DiskSize ≠ "0" ∧
          ¬ digitsThenUnit (unitLetters ++ [kelvinSign]) c.DiskSize) ∧
      reportsOnceIff s.errs .invalidFormat (¬ (s.c.Format = "qcow2" ∨ s.c.Format = "raw")) ∧
      reportsOnceIff s.errs .useBackingFile
        (s.c.UseBackingFile = true ∧ ¬ (s.c.DiskImage = true ∧ s.c.Format = "qcow2")) ∧
      reportsOnceIff s.errs .skipResizeDisk
        (s.c.SkipResizeDisk = true ∧ ¬ (s.c.DiskImage = true)) ∧
      reportsOnceIff s.errs .invalidHypervisor (s.c.Hypervisor ∉ hypervisors) ∧
      reportsOnceIff s.errs .unrecognizedDiskInterface (s.c.DiskInterface ∉ diskInterface) ∧
      reportsOnceIff s.errs .unrecognizedDiskCache (s.c.DiskCache ∉ diskCache) ∧
      reportsOnceIff s.errs .unrecognizedDiskDiscard (s.c.DiskDiscard ∉ diskDiscard) ∧
      reportsOnceIff s.errs .unrecognizedDetectZeroes (s.c.DetectZeroes ∉ diskDZeroes) ∧
      reportsOnceIff s.errs .vncPortRange (s.c.VNCPortMin > s.c.VNCPortMax) := by
  refine ⟨Prepare_body env c, by simp [Config.Prepare, hdec], ?_⟩
  have hbody : Prepare_body env c = Prepare_validate env (Prepare_sdk env (Prepare_sizing
      (Prepare_emulator env (Prepare_machine (Prepare_accelerator env (Prepare_diskSize
        { c := c, errs := env.ShutdownConfig.map PrepareError.sdk, warnings := [],
          log := [] })))))) := rfl
  have hearly := Prepare_early_count env c
  rw [hbody]
  generalize Prepare_sdk env (Prepare_sizing (Prepare_emulator env (Prepare_machine
    (Prepare_accelerator env (Prepare_diskSize
      { c := c, errs := env.ShutdownConfig.map PrepareError.sdk, warnings := [],
        log := [] }))))) = s6 at hearly ⊢
  have hv := Prepare_validate_fields env s6
  have hve := Prepare_validate_errs env s6
  have hsize : (¬ (c.DiskSize = "" ∨ c.DiskSize = "0") ∧
      matchDiskSize (ToLower c.DiskSize) = false) ↔
      (c.DiskSize ≠ "" ∧ c.DiskSize ≠ "0" ∧
        ¬ digitsThenUnit (unitLetters ++ [kelvinSign]) c.DiskSize) := by
    rw [← matchDiskSize_iff]
    constructor
    · rintro ⟨h1, h2⟩
      exact ⟨fun h => h1 (Or.inl h), fun h => h1 (Or.inr h), by rw [h2]; simp⟩
    · rintro ⟨h1, h2, h3⟩
      refine ⟨?_, by simpa using h3⟩
      rintro (h | h)
      · exact h1 h
      · exact h2 h
  rw [hv.1, hv.2.1, hv.2.2.1, hv.2.2.2.1, hv.2.2.2.2.1, hv.2.2.2.2.2.1,
    hv.2.2.2.2.2.2.2.2.2.1, hv.2.2.2.2.2.2.2.2.2.2.1, hv.2.2.2.2.2.2.2.2.2.2.2.1,
    hv.2.2.2.2.2.2.2.2.2.2.2.2.1, hv.2.2.2.2.2.2.2.2.2.2.2.2.2.1, hve, ← hsize]
  simp only [reportsOnceIff, List.count_append, count_errIf]
  refine ⟨?_, ?_, ?_, ?_, ?_, ?_, ?_, ?_, ?_, ?_⟩
  all_goals
    rw [hearly _ (by intro m h; cases h) (by intro b h; cases h), count_errIf]
    simp only [reduceCtorEq, and_false, and_true, if_false, Nat.add_zero, Nat.zero_add]
    constructor
    · intro hviol
      rw [if_pos hviol]
    · intro hviol
      rw [if_neg hviol]

/-- Claim C15, witness: the disk size "abc" together with an unknown format and an
unknown hypervisor yields all three errors, each once. -/
theorem C15_prepare_collects_every_error_witness :
    ∃ s, Config.Prepare exampleEnv { DiskSize := "abc", Format := "vmdk", Hypervisor := "vbox" } =
        .prepared s ∧
      s.errs.count .invalidDiskSize = 1 ∧ s.errs.count .invalidFormat = 1 ∧
      s.errs.count .invalidHypervisor = 1 := by
  obtain ⟨s, hs, hsize, hformat, -, -, hhyp, -⟩ :=
    C15_prepare_collects_every_error exampleEnv
      { DiskSize := "abc", Format := "vmdk", Hypervisor := "vbox" } rfl
  have heq : s = Prepare_body exampleEnv
      { DiskSize := "abc", Format := "vmdk", Hypervisor := "vbox" } := by
    have h2 : Config.Prepare exampleEnv
        { DiskSize := "abc", Format := "vmdk", Hypervisor := "vbox" } =
        .prepared (Prepare_body exampleEnv
          { DiskSize := "abc", Format := "vmdk", Hypervisor := "vbox" }) := rfl
    rw [h2] at hs
    injection hs with hs
    exact hs.symm
  refine ⟨s, hs, hsize.1 ⟨by decide, by decide, ?_⟩, hformat.1 ?_, hhyp.1 ?_⟩
  · rw [← matchDiskSize_iff]
    decide
  · rw [heq]
    decide
  · rw [heq]
    decide

/-! ## `Config.Prepare` (config.go): the memory size -/

/-- The emulator lookup leaves the checked settings and the memory size alone. -/
theorem Prepare_emulator_frame (env : PrepareEnv) (s : PrepareState) :
    (Prepare_emulator env s).c.Format = s.c.Format ∧
    (Prepare_emulator env s).c.UseBackingFile = s.c.UseBackingFile ∧
    (Prepare_emulator env s).c.DiskImage = s.c.DiskImage ∧
    (Prepare_emulator env s).c.SkipResizeDisk = s.c.SkipResizeDisk ∧
    (Prepare_emulator env s).c.Hypervisor = s.c.Hypervisor ∧
    (Prepare_emulator env s).c.DiskInterface = s.c.DiskInterface ∧
    (Prepare_emulator env s).c.DiskCache = s.c.DiskCache ∧
    (Prepare_emulator env s).c.DiskDiscard = s.c.DiskDiscard ∧
    (Prepare_emulator env s).c.DetectZeroes = s.c.DetectZeroes ∧
    (Prepare_emulator env s).c.PackerForce = s.c.PackerForce ∧
    (Prepare_emulator env s).c.OutputDir = s.c.OutputDir ∧
    (Prepare_emulator env s).c.VNCPortMin = s.c.VNCPortMin ∧
    (Prepare_emulator env s).c.VNCPortMax = s.c.VNCPortMax ∧
    (Prepare_emulator env s).c.XMLFile = s.c.XMLFile ∧
    (Prepare_emulator env s).c.PackerBuildName = s.c.PackerBuildName ∧
    (Prepare_emulator env s).c.MemorySize = s.c.MemorySize ∧
    (Prepare_emulator env s).log = s.log := by
  unfold Prepare_emulator
  cases env.LookPath s.c.EmulatorBinary <;>
    simp only [apply_ite Config.Format, apply_ite Config.UseBackingFile,
      apply_ite Config.DiskImage, apply_ite Config.SkipResizeDisk, apply_ite Config.Hypervisor,
      apply_ite Config.DiskInterface, apply_ite Config.DiskCache, apply_ite Config.DiskDiscard,
      apply_ite Config.DetectZeroes, apply_ite Config.PackerForce, apply_ite Config.OutputDir,
      apply_ite Config.VNCPortMin, apply_ite Config.VNCPortMax, apply_ite Config.XMLFile,
      apply_ite Config.PackerBuildName, apply_ite Config.MemorySize, ite_self, and_self]

/-- The errors after the emulator lookup, as a function of the errors and the emulator
binary before it. -/
theorem Prepare_emulator_errs (env : PrepareEnv) (s : PrepareState) :
    (Prepare_emulator env s).errs = s.errs ++
      (match env.LookPath s.c.EmulatorBinary with
        | .error _ => [PrepareError.emulatorNotExecutable s.c.EmulatorBinary]
        | .ok _ => []) := by
  unfold Prepare_emulator
  cases env.LookPath s.c.EmulatorBinary <;> simp

/-- The hypervisor block keeps two configurations in agreement on the checked settings. -/
theorem Prepare_accelerator_sameChecked (env : PrepareEnv) (s t : PrepareState) (h : sameChecked s.c t.c) :
    sameChecked (Prepare_accelerator env s).c (Prepare_accelerator env t).c := by
  obtain ⟨hFormat, hUseBackingFile, hDiskImage, hSkipResizeDisk, hHypervisor, hDiskInterface, hDiskCache, hDiskDiscard, hDetectZeroes, hPackerForce, hOutputDir, hVNCPortMin, hVNCPortMax, hXMLFile, hEmulatorBinary,
    hPackerBuildName⟩ := h
  refine ⟨?_, ?_, ?_, ?_, ?_, ?_, ?_, ?_, ?_, ?_, ?_, ?_, ?_, ?_, ?_, ?_⟩
  · simp only [Prepare_accelerator, apply_ite Config.Format, ite_self, hFormat]
  · simp only [Prepare_accelerator, apply_ite Config.UseBackingFile, ite_self, hUseBackingFile]
  · simp only [Prepare_accelerator, apply_ite Config.DiskImage, ite_self, hDiskImage]
  · simp only [Prepare_accelerator, apply_ite Config.SkipResizeDisk, ite_self, hSkipResizeDisk]
  · simp only [Prepare_accelerator, apply_ite Config.Hypervisor, ite_self, hHypervisor]
  · simp only [Prepare_accelerator, apply_ite Config.DiskInterface, ite_self, hDiskInterface]
  · simp only [Prepare_accelerator, apply_ite Config.DiskCache, ite_self, hDiskCache]
  · simp only [Prepare_accelerator, apply_ite Config.DiskDiscard, ite_self, hDiskDiscard]
  · simp only [Prepare_accelerator, apply_ite Config.DetectZeroes, ite_self, hDetectZeroes]
  · simp only [Prepare_accelerator, apply_ite Config.PackerForce, ite_self, hPackerForce]
  · simp only [Prepare_accelerator, apply_ite Config.OutputDir, ite_self, hOutputDir, hPackerBuildName]
  · simp only [Prepare_accelerator, apply_ite Config.VNCPortMin, ite_self, hVNCPortMin]
  · simp only [Prepare_accelerator, apply_ite Config.VNCPortMax, ite_self, hVNCPortMax]
  · simp only [Prepare_accelerator, apply_ite Config.XMLFile, ite_self, hXMLFile]
  · simp only [Prepare_accelerator, apply_ite Config.EmulatorBinary, ite_self, hEmulatorBinary]
  · simp only [Prepare_accelerator, apply_ite Config.PackerBuildName, ite_self, hPackerBuildName]

/-- So do the machine defaults. -/
theorem Prepare_machine_sameChecked (s t : PrepareState) (h : sameChecked s.c t.c) :
    sameChecked (Prepare_machine s).c (Prepare_machine t).c := by
  obtain ⟨hFormat, hUseBackingFile, hDiskImage, hSkipResizeDisk, hHypervisor, hDiskInterface, hDiskCache, hDiskDiscard, hDetectZeroes, hPackerForce, hOutputDir, hVNCPortMin, hVNCPortMax, hXMLFile, hEmulatorBinary,
    hPackerBuildName⟩ := h
  refine ⟨?_, ?_, ?_, ?_, ?_, ?_, ?_, ?_, ?_, ?_, ?_, ?_, ?_, ?_, ?_, ?_⟩
  · simp only [Prepare_machine, apply_ite Config.Format, ite_self, hFormat]
  · simp only [Prepare_machine, apply_ite Config.UseBackingFile, ite_self, hUseBackingFile]
  · simp only [Prepare_machine, apply_ite Config.DiskImage, ite_self, hDiskImage]
  · simp only [Prepare_machine, apply_ite Config.SkipResizeDisk, ite_self, hSkipResizeDisk]
  · simp only [Prepare_machine, apply_ite Config.Hypervisor, ite_self, hHypervisor]
  · simp only [Prepare_machine, apply_ite Config.DiskInterface, ite_self, hDiskInterface]
  · simp only [Prepare_machine, apply_ite Config.DiskCache, ite_self, hDiskCache]
  · simp only [Prepare_machine, apply_ite Config.DiskDiscard, ite_self, hDiskDiscard]
  · simp only [Prepare_machine, apply_ite Config.DetectZeroes, ite_self, hDetectZeroes]
  · simp only [Prepare_machine, apply_ite Config.PackerForce, ite_self, hPackerForce]
  · simp only [Prepare_machine, apply_ite Config.OutputDir, apply_ite Config.PackerBuildName,
      ite_self, hOutputDir, hPackerBuildName]
  · simp only [Prepare_machine, apply_ite Config.VNCPortMin, ite_self, hVNCPortMin]
  · simp only [Prepare_machine, apply_ite Config.VNCPortMax, ite_self, hVNCPortMax]
  · simp only [Prepare_machine, apply_ite Config.XMLFile, ite_self, hXMLFile]
  · simp only [Prepare_machine, apply_ite Config.EmulatorBinary, ite_self, hEmulatorBinary]
  · simp only [Prepare_machine, apply_ite Config.PackerBuildName, ite_self, hPackerBuildName]

/-- So does the sizing block. -/
theorem Prepare_sizing_sameChecked (s t : PrepareState) (h : sameChecked s.c t.c) :
    sameChecked (Prepare_sizing s).c (Prepare_sizing t).c := by
  obtain ⟨hFormat, hUseBackingFile, hDiskImage, hSkipResizeDisk, hHypervisor, hDiskInterface, hDiskCache, hDiskDiscard, hDetectZeroes, hPackerForce, hOutputDir, hVNCPortMin, hVNCPortMax, hXMLFile, hEmulatorBinary,
    hPackerBuildName⟩ := h
  refine ⟨?_, ?_, ?_, ?_, ?_, ?_, ?_, ?_, ?_, ?_, ?_, ?_, ?_, ?_, ?_, ?_⟩
  · simp only [Prepare_sizing, apply_ite Config.Format, ite_self, hFormat]
  · simp only [Prepare_sizing, apply_ite Config.UseBackingFile, ite_self, hUseBackingFile]
  · simp only [Prepare_sizing, apply_ite Config.DiskImage, ite_self, hDiskImage]
  · simp only [Prepare_sizing, apply_ite Config.SkipResizeDisk, ite_self, hSkipResizeDisk]
  · simp only [Prepare_sizing, apply_ite Config.Hypervisor, ite_self, hHypervisor]
  · simp only [Prepare_sizing, apply_ite Config.DiskInterface, ite_self, hDiskInterface]
  · simp only [Prepare_sizing, apply_ite Config.DiskCache, ite_self, hDiskCache]
  · simp only [Prepare_sizing, apply_ite Config.DiskDiscard, ite_self, hDiskDiscard]
  · simp only [Prepare_sizing, apply_ite Config.DetectZeroes, ite_self, hDetectZeroes]
  · simp only [Prepare_sizing, apply_ite Config.PackerForce, ite_self, hPackerForce]
  · simp only [Prepare_sizing, apply_ite Config.OutputDir, ite_self, hOutputDir, hPackerBuildName]
  · simp only [Prepare_sizing, apply_ite Config.VNCPortMin, ite_self, hVNCPortMin]
  · simp only [Prepare_sizing, apply_ite Config.VNCPortMax, ite_self, hVNCPortMax]
  · simp only [Prepare_sizing, apply_ite Config.XMLFile, ite_self, hXMLFile]
  · simp only [Prepare_sizing, apply_ite Config.EmulatorBinary, ite_self, hEmulatorBinary]
  · simp only [Prepare_sizing, apply_ite Config.PackerBuildName, ite_self, hPackerBuildName]

/-- So do the embedded SDK configurations. -/
theorem Prepare_sdk_sameChecked (env : PrepareEnv) (s t : PrepareState) (h : sameChecked s.c t.c) :
    sameChecked (Prepare_sdk env s).c (Prepare_sdk env t).c := by
  obtain ⟨hFormat, hUseBackingFile, hDiskImage, hSkipResizeDisk, hHypervisor, hDiskInterface, hDiskCache, hDiskDiscard, hDetectZeroes, hPackerForce, hOutputDir, hVNCPortMin, hVNCPortMax, hXMLFile, hEmulatorBinary,
    hPackerBuildName⟩ := h
  refine ⟨?_, ?_, ?_, ?_, ?_, ?_, ?_, ?_, ?_, ?_, ?_, ?_, ?_, ?_, ?_, ?_⟩
  · simp only [Prepare_sdk, apply_ite Config.Format, ite_self, hFormat]
  · simp only [Prepare_sdk, apply_ite Config.UseBackingFile, ite_self, hUseBackingFile]
  · simp only [Prepare_sdk, apply_ite Config.DiskImage, ite_self, hDiskImage]
  · simp only [Prepare_sdk, apply_ite Config.SkipResizeDisk, ite_self, hSkipResizeDisk]
  · simp only [Prepare_sdk, apply_ite Config.Hypervisor, ite_self, hHypervisor]
  · simp only [Prepare_sdk, apply_ite Config.DiskInterface, ite_self, hDiskInterface]
  · simp only [Prepare_sdk, apply_ite Config.DiskCache, ite_self, hDiskCache]
  · simp only [Prepare_sdk, apply_ite Config.DiskDiscard, ite_self, hDiskDiscard]
  · simp only [Prepare_sdk, apply_ite Config.DetectZeroes, ite_self, hDetectZeroes]
  · simp only [Prepare_sdk, apply_ite Config.PackerForce, ite_self, hPackerForce]
  · simp only [Prepare_sdk, apply_ite Config.OutputDir, ite_self, hOutputDir, hPackerBuildName]
  · simp only [Prepare_sdk, apply_ite Config.VNCPortMin, ite_self, hVNCPortMin]
  · simp only [Prepare_sdk, apply_ite Config.VNCPortMax, ite_self, hVNCPortMax]
  · simp only [Prepare_sdk, apply_ite Config.XMLFile, ite_self, hXMLFile]
  · simp only [Prepare_sdk, apply_ite Config.EmulatorBinary, ite_self, hEmulatorBinary]
  · simp only [Prepare_sdk, apply_ite Config.PackerBuildName, ite_self, hPackerBuildName]

/-- The disk-size block changes the disk size only. -/
theorem Prepare_diskSize_frame (s : PrepareState) :
    (Prepare_diskSize s).c.Format = s.c.Format ∧
    (Prepare_diskSize s).c.UseBackingFile = s.c.UseBackingFile ∧
    (Prepare_diskSize s).c.DiskImage = s.c.DiskImage ∧
    (Prepare_diskSize s).c.SkipResizeDisk = s.c.SkipResizeDisk ∧
    (Prepare_diskSize s).c.Hypervisor = s.c.Hypervisor ∧
    (Prepare_diskSize s).c.DiskInterface = s.c.DiskInterface ∧
    (Prepare_diskSize s).c.DiskCache = s.c.DiskCache ∧
    (Prepare_diskSize s).c.DiskDiscard = s.c.DiskDiscard ∧
    (Prepare_diskSize s).c.DetectZeroes = s.c.DetectZeroes ∧
    (Prepare_diskSize s).c.PackerForce = s.c.PackerForce ∧
    (Prepare_diskSize s).c.OutputDir = s.c.OutputDir ∧
    (Prepare_diskSize s).c.VNCPortMin = s.c.VNCPortMin ∧
    (Prepare_diskSize s).c.VNCPortMax = s.c.VNCPortMax ∧
    (Prepare_diskSize s).c.XMLFile = s.c.XMLFile ∧
    (Prepare_diskSize s).c.EmulatorBinary = s.c.EmulatorBinary ∧
    (Prepare_diskSize s).c.PackerBuildName = s.c.PackerBuildName ∧
    (Prepare_diskSize s).c.MemorySize = s.c.MemorySize ∧
    (Prepare_diskSize s).log = s.log := by
  simp only [Prepare_diskSize]
  split_ifs <;> simp

/-- The emulator binary after the lookup is determined by the emulator binary before
it. -/
theorem Prepare_emulator_binary (env : PrepareEnv) (s t : PrepareState)
    (h : s.c.EmulatorBinary = t.c.EmulatorBinary) :
    (Prepare_emulator env s).c.EmulatorBinary = (Prepare_emulator env t).c.EmulatorBinary := by
  unfold Prepare_emulator
  rw [h]
  cases env.LookPath t.c.EmulatorBinary <;>
    simp only [apply_ite Config.EmulatorBinary, ite_self, h]

/-- Two configurations that agree on the checked settings and on the disk size are
prepared with the same list of errors. -/
theorem Prepare_body_errs_congr (env : PrepareEnv) (c c' : Config) (h : sameChecked c c')
    (hsize : c.DiskSize = c'.DiskSize) :
    (Prepare_body env c).errs = (Prepare_body env c').errs := by
  unfold Prepare_body
  simp only []
  have hgen : ∀ s0 t0 : PrepareState, sameChecked s0.c t0.c → s0.c.DiskSize = t0.c.DiskSize →
      s0.errs = t0.errs →
      (Prepare_validate env (Prepare_sdk env (Prepare_sizing (Prepare_emulator env
        (Prepare_machine (Prepare_accelerator env (Prepare_diskSize s0))))))).errs =
      (Prepare_validate env (Prepare_sdk env (Prepare_sizing (Prepare_emulator env
        (Prepare_machine (Prepare_accelerator env (Prepare_diskSize t0))))))).errs := ?_
  · exact hgen _ _ h hsize rfl
  intro s0 t0 hc0 hd0 he0
  -- the disk-size block
  have he1 : (Prepare_diskSize s0).errs = (Prepare_diskSize t0).errs := by
    rw [(Prepare_diskSize_errs s0).1, (Prepare_diskSize_errs t0).1, he0, hd0]
  have hc1 : sameChecked (Prepare_diskSize s0).c (Prepare_diskSize t0).c := by
    have fs := Prepare_diskSize_frame s0
    have ft := Prepare_diskSize_frame t0
    obtain ⟨hFormat, hUseBackingFile, hDiskImage, hSkipResizeDisk, hHypervisor, hDiskInterface, hDiskCache, hDiskDiscard, hDetectZeroes, hPackerForce, hOutputDir, hVNCPortMin, hVNCPortMax, hXMLFile, hEmulatorBinary,
    hPackerBuildName⟩ := hc0
    unfold sameChecked
    simp only [fs, ft]
    exact ⟨hFormat, hUseBackingFile, hDiskImage, hSkipResizeDisk, hHypervisor, hDiskInterface, hDiskCache, hDiskDiscard, hDetectZeroes, hPackerForce, hOutputDir, hVNCPortMin, hVNCPortMax, hXMLFile, hEmulatorBinary,
    hPackerBuildName⟩
  generalize Prepare_diskSize s0 = s1 at he1 hc1 ⊢
  generalize Prepare_diskSize t0 = t1 at he1 hc1 ⊢
  -- the hypervisor block and the machine defaults
  have he2 : (Prepare_accelerator env s1).errs = (Prepare_accelerator env t1).errs := by
    rw [(Prepare_accelerator_DiskSize env s1).2, (Prepare_accelerator_DiskSize env t1).2, he1]
  have hc2 := Prepare_accelerator_sameChecked env s1 t1 hc1
  generalize Prepare_accelerator env s1 = s2 at he2 hc2 ⊢
  generalize Prepare_accelerator env t1 = t2 at he2 hc2 ⊢
  have he3 : (Prepare_machine s2).errs = (Prepare_machine t2).errs := by
    rw [(Prepare_machine_fields s2).1, (Prepare_machine_fields t2).1, he2]
  have hc3 := Prepare_machine_sameChecked s2 t2 hc2
  generalize Prepare_machine s2 = s3 at he3 hc3 ⊢
  generalize Prepare_machine t2 = t3 at he3 hc3 ⊢
  -- the emulator lookup
  have hemu : s3.c.EmulatorBinary = t3.c.EmulatorBinary := hc3.2.2.2.2.2.2.2.2.2.2.2.2.2.2.1
  have he4 : (Prepare_emulator env s3).errs = (Prepare_emulator env t3).errs := by
    rw [Prepare_emulator_errs, Prepare_emulator_errs, he3, hemu]
  have hc4 : sameChecked (Prepare_emulator env s3).c (Prepare_emulator env t3).c := by
    have fs := Prepare_emulator_frame env s3
    have ft := Prepare_emulator_frame env t3
    have hb := Prepare_emulator_binary env s3 t3 hemu
    obtain ⟨hFormat, hUseBackingFile, hDiskImage, hSkipResizeDisk, hHypervisor, hDiskInterface, hDiskCache, hDiskDiscard, hDetectZeroes, hPackerForce, hOutputDir, hVNCPortMin, hVNCPortMax, hXMLFile, hEmulatorBinary,
    hPackerBuildName⟩ := hc3
    unfold sameChecked
    simp only [fs, ft, hb]
    exact ⟨hFormat, hUseBackingFile, hDiskImage, hSkipResizeDisk, hHypervisor, hDiskInterface, hDiskCache, hDiskDiscard, hDetectZeroes, hPackerForce, hOutputDir, hVNCPortMin, hVNCPortMax, hXMLFile, trivial,
      hPackerBuildName⟩
  generalize Prepare_emulator env s3 = s4 at he4 hc4 ⊢
  generalize Prepare_emulator env t3 = t4 at he4 hc4 ⊢
  -- the sizing block and the embedded SDK configurations
  have he5 : (Prepare_sizing s4).errs = (Prepare_sizing t4).errs := by
    rw [(Prepare_sizing_fields s4).1, (Prepare_sizing_fields t4).1, he4]
  have hc5 := Prepare_sizing_sameChecked s4 t4 hc4
  generalize Prepare_sizing s4 = s5 at he5 hc5 ⊢
  generalize Prepare_sizing t4 = t5 at he5 hc5 ⊢
  have he6 : (Prepare_sdk env s5).errs = (Prepare_sdk env t5).errs := by
    rw [(Prepare_sdk_fields env s5).1, (Prepare_sdk_fields env t5).1, he5]
  have hc6 := Prepare_sdk_sameChecked env s5 t5 hc5
  generalize Prepare_sdk env s5 = s6 at he6 hc6 ⊢
  generalize Prepare_sdk env t5 = t6 at he6 hc6 ⊢
  -- the final checks
  obtain ⟨hFormat, hUseBackingFile, hDiskImage, hSkipResizeDisk, hHypervisor, hDiskInterface, hDiskCache, hDiskDiscard, hDetectZeroes, hPackerForce, hOutputDir, hVNCPortMin, hVNCPortMax, hXMLFile, hEmulatorBinary,
    hPackerBuildName⟩ := hc6
  rw [Prepare_validate_errs, Prepare_validate_errs, he6, hFormat, hUseBackingFile, hDiskImage,
    hSkipResizeDisk, hHypervisor, hDiskInterface, hDiskCache, hDiskDiscard, hDetectZeroes,
    hPackerForce, hOutputDir, hVNCPortMin, hVNCPortMax, hXMLFile]

/-- The sizing block on a memory size below 10: the size becomes 512 and the coercion
is written to the log. -/
theorem Prepare_sizing_small_memory (s : PrepareState) (h : s.c.MemorySize < 10) :
    (Prepare_sizing s).c.MemorySize = 512 ∧
    ("MemorySize " ++ toString s.c.MemorySize ++ " is too small, using default: 512") ∈
      (Prepare_sizing s).log := by
  constructor
  · simp only [Prepare_sizing, apply_ite Config.MemorySize, ite_self, h, if_true]
  · simp only [Prepare_sizing, h, if_true]
    split_ifs <;> simp

theorem Prepare_accelerator_MemorySize (env : PrepareEnv) (s : PrepareState) :
    (Prepare_accelerator env s).c.MemorySize = s.c.MemorySize := by
  simp only [Prepare_accelerator, apply_ite Config.MemorySize, ite_self]

theorem Prepare_machine_MemorySize (s : PrepareState) :
    (Prepare_machine s).c.MemorySize = s.c.MemorySize ∧ (Prepare_machine s).log = s.log := by
  simp only [Prepare_machine, apply_ite Config.MemorySize, ite_self, and_self]

/-- The blocks of `Prepare` before the sizing block leave the memory size alone. -/
theorem Prepare_pre_sizing_MemorySize (env : PrepareEnv) (s : PrepareState) :
    (Prepare_emulator env (Prepare_machine (Prepare_accelerator env
      (Prepare_diskSize s)))).c.MemorySize = s.c.MemorySize := by
  rw [(Prepare_emulator_frame env _).2.2.2.2.2.2.2.2.2.2.2.2.2.2.2.1,
    (Prepare_machine_MemorySize _).1, Prepare_accelerator_MemorySize,
    (Prepare_diskSize_frame _).2.2.2.2.2.2.2.2.2.2.2.2.2.2.2.2.1]

/-- Claim C19, amended: for every decoded configuration whose memory size is below 10,
`Prepare` coerces the memory size to 512; the errors it records are those it records
for any other memory size, so none is recorded on that account; the coercion is
written to the log, and the warnings returned are those of the ISO configuration
alone. -/
theorem C19_small_memory_is_coerced_and_logged (env : PrepareEnv) (c : Config)
    (hdec : env.Decode = none) (hsmall : c.MemorySize < 10) :
    ∃ s, c.Prepare env = .prepared s ∧ s.c.MemorySize = 512 ∧
      (∀ m : Int, s.errs = (Prepare_body env { c with MemorySize := m }).errs) ∧
      s.warnings = env.ISOConfigWarnings ∧
      ("MemorySize " ++ toString c.MemorySize ++ " is too small, using default: 512") ∈
        s.log := by
  refine ⟨Prepare_body env c, by simp [Config.Prepare, hdec], ?_, ?_, ?_, ?_⟩
  · have hmem := Prepare_pre_sizing_MemorySize env
      { c := c, errs := env.ShutdownConfig.map PrepareError.sdk, warnings := [], log := [] }
    simp only [] at hmem
    unfold Prepare_body
    simp only []
    rw [(Prepare_validate_fields env _).2.2.2.2.2.2.2.1, (Prepare_sdk_fields env _).2.2.2.2.1]
    exact (Prepare_sizing_small_memory _ (by rw [hmem]; exact hsmall)).1
  · intro m
    exact Prepare_body_errs_congr env c { c with MemorySize := m }
      ⟨rfl, rfl, rfl, rfl, rfl, rfl, rfl, rfl, rfl, rfl, rfl, rfl, rfl, rfl, rfl, rfl⟩ rfl
  · unfold Prepare_body
    simp only []
    rw [(Prepare_validate_fields env _).2.2.2.2.2.2.2.2.2.2.2.2.2.2.2.1,
      (Prepare_sdk_fields env _).2.1, (Prepare_sizing_fields _).2.1,
      (Prepare_emulator_fields env _).1, (Prepare_machine_fields _).2.1,
      Prepare_accelerator_warnings, (Prepare_diskSize_errs _).2]
    simp
  · have hmem := Prepare_pre_sizing_MemorySize env
      { c := c, errs := env.ShutdownConfig.map PrepareError.sdk, warnings := [], log := [] }
    simp only [] at hmem
    unfold Prepare_body
    simp only []
    rw [(Prepare_validate_fields env _).2.2.2.2.2.2.2.2.2.2.2.2.2.2.2.2,
      (Prepare_sdk_fields env _).2.2.1]
    have := (Prepare_sizing_small_memory _ (by rw [hmem]; exact hsmall)).2
    rw [hmem] at this
    exact this

/-- Claim C19, witness: a memory size of 3 becomes 512, with the coercion in the
log. -/
theorem C19_small_memory_is_coerced_and_logged_witness :
    ∃ s, Config.Prepare exampleEnv { MemorySize := 3 } = .prepared s ∧ s.c.MemorySize = 512 ∧
      "MemorySize 3 is too small, using default: 512" ∈ s.log := by
  obtain ⟨s, hs, hm, -, -, hlog⟩ :=
    C19_small_memory_is_coerced_and_logged exampleEnv { MemorySize := 3 } rfl (by decide)
  exact ⟨s, hs, hm, hlog⟩

/-- Claim C19, counterexample: a memory size of 3 is coerced to 512 without error, but
the warnings `Prepare` returns are empty: the coercion is not reported as a
warning. -/
theorem C19_counterexample_no_warning :
    Config.Prepare exampleEnv { MemorySize := 3 } =
      .prepared (Prepare_body exampleEnv { MemorySize := 3 }) ∧
    (Prepare_body exampleEnv { MemorySize := 3 }).c.MemorySize = 512 ∧
    (Prepare_body exampleEnv { MemorySize := 3 }).errs = [] ∧
    (Prepare_body exampleEnv { MemorySize := 3 }).warnings = [] := by
  refine ⟨rfl, by decide, by decide, by decide⟩

/-! ## The CPU element of the default descriptor (step_run.go) -/

/-- The escaper leaves a string without NUL, quotes, `&`, `+`, `<` and `>` as it
is. -/
theorem htmlEscape_of_plain (s : String)
    (h : ∀ c ∈ s.toList, c ≠ Char.ofNat 0 ∧ c ≠ Char.ofNat 34 ∧ c ≠ '&' ∧ c ≠ Char.ofNat 39 ∧
      c ≠ '+' ∧ c ≠ '<' ∧ c ≠ '>') :
    htmlEscape s = s := by
  have key : ∀ l : List Char,
      (∀ c ∈ l, c ≠ Char.ofNat 0 ∧ c ≠ Char.ofNat 34 ∧ c ≠ '&' ∧ c ≠ Char.ofNat 39 ∧
        c ≠ '+' ∧ c ≠ '<' ∧ c ≠ '>') →
      List.flatten (l.map fun c => (htmlReplacement c).toList) = l := by
    intro l
    induction l with
    | nil => intro _; rfl
    | cons c l ih =>
      intro hl
      obtain ⟨h0, h1, h2, h3, h4, h5, h6⟩ := hl c (List.mem_cons_self _ _)
      have hrep : htmlReplacement c = String.singleton c := by
        simp only [htmlReplacement, h0, h1, h2, h3, h4, h5, h6, if_false]
      simp only [List.map_cons, List.flatten_cons, hrep,
        ih (fun x hx => hl x (List.mem_cons_of_mem _ hx))]
      rfl
  unfold htmlEscape
  rw [key s.toList h]
  rfl

/-! ## `LibvirtDriver.GetDomainIP` (driver.go) -/

theorem GetDomainIP_addrs_eq (addrs : List DomainIPAddr) :
    GetDomainIP_addrs addrs =
      (addrs.find? fun a => decide (a.AddrType = IPAddrTypeIpv4)).map DomainIPAddr.Addr := by
  induction addrs with
  | nil => rfl
  | cons a rest ih =>
    simp only [GetDomainIP_addrs, List.find?_cons]
    by_cases h : a.AddrType = IPAddrTypeIpv4
    · simp [h]
    · simp [h, ih]

/-- The two loops of `GetDomainIP` return the first IPv4 address in interface order
and then address order. -/
theorem GetDomainIP_ifaces_eq (ifaces : List DomainInterface) :
    GetDomainIP_ifaces ifaces =
      ((List.flatten (ifaces.map DomainInterface.Addrs)).find?
        fun a => decide (a.AddrType = IPAddrTypeIpv4)).map DomainIPAddr.Addr := by
  induction ifaces with
  | nil => rfl
  | cons i rest ih =>
    simp only [GetDomainIP_ifaces, List.map_cons, List.flatten_cons, List.find?_append,
      GetDomainIP_addrs_eq]
    cases h : List.find? (fun a => decide (a.AddrType = IPAddrTypeIpv4)) i.Addrs with
    | some a => simp
    | none => simp [ih]

/-- When the daemon answers the interface-address query, `GetDomainIP` returns the
first IPv4 address without error, or an error when there is none. -/
theorem GetDomainIP_of_reply (d : LibvirtDriver) (l : Libvirt) (ifaces : List DomainInterface)
    (hl : d.libvirt = some l) (hq : l.DomainInterfaceAddresses d.vmDomain = .ok ifaces) :
    (∀ a, (List.flatten (ifaces.map DomainInterface.Addrs)).find?
        (fun a => decide (a.AddrType = IPAddrTypeIpv4)) = some a →
      d.GetDomainIP = .returned (a.Addr, none)) ∧
    ((List.flatten (ifaces.map DomainInterface.Addrs)).find?
        (fun a => decide (a.AddrType = IPAddrTypeIpv4)) = none →
      d.GetDomainIP =
        .returned ("", some ("No ipv4 address for domain " ++ d.vmDomain.Name))) := by
  constructor
  · intro a ha
    simp [LibvirtDriver.GetDomainIP, hl, hq, GetDomainIP_ifaces_eq, ha]
  · intro ha
    simp [LibvirtDriver.GetDomainIP, hl, hq, GetDomainIP_ifaces_eq, ha]

/-- Claim C18, the code at the failing input: the daemon answers the
interface-address query with an error, and `GetDomainIP` returns the empty string
with a nil error. -/
theorem C18_get_domain_ip_swallows_query_error :
    exampleDriverNoAgent.GetDomainIP = .returned ("", none) := rfl

/-- The same method on a reply with addresses: the first IPv4 address, skipping the
IPv6 addresses listed before it. -/
theorem GetDomainIP_example : exampleDriverWithAddrs.GetDomainIP =
    .returned ("192.168.122.14", none) := rfl

/-! ## The device name of the first disk in the two boot modes (step_run.go) -/

/-- Claim C20: for the same disk interface, the single disk of a disk-image build and
the first disk of an ISO build (with at least one staged path, `filepath.Abs`
succeeding) get the same device name, the prefix of the interface followed by the
letter with code point 'a' + 0. -/
theorem C20_first_disk_name_same_in_both_modes (image iso : Config) (fp : FilePath)
    (unused : List String) (p : String) (ps : List String)
    (himage : image.DiskImage = true) (hiso : iso.DiskImage = false)
    (hif : image.DiskInterface = iso.DiskInterface)
    (habs : ∀ q ∈ p :: ps, ∃ r, fp.Abs q = .ok r) :
    ∃ d disks, getXMLDesc_disks image fp unused = .ok [d] ∧
      getXMLDesc_disks iso fp (p :: ps) = .ok disks ∧
      (disks.map Disk.Dev)[0]? = some d.Dev ∧
      d.Dev = diskInterfaceToDev image.DiskInterface ++ "a" := by
  obtain ⟨disks, hd⟩ := getXMLDesc_disks_ok iso fp (p :: ps) hiso habs
  have hnames := getXMLDesc_disks_names iso fp (p :: ps) hiso disks hd
  have himg : getXMLDesc_disks image fp unused =
      .ok [mkDisk image (fp.Join (match fp.Abs image.OutputDir with
        | .ok p => p
        | .error _ => "") image.VMName) (devName image.DiskInterface 0)] := by
    simp [getXMLDesc_disks, himage]
  refine ⟨_, disks, himg, hd, ?_, ?_⟩
  · rw [hnames]
    simp [mkDisk, hif, List.range_succ_eq_map]
  · rfl

/-- Claim C20, witness: with interface "virtio" both modes name the disk "vda". -/
theorem C20_first_disk_name_same_in_both_modes_witness :
    ∃ d disks, getXMLDesc_disks { exampleConfig with DiskImage := true } exampleRunEnv.fp [] =
        .ok [d] ∧
      getXMLDesc_disks exampleConfig exampleRunEnv.fp ["output/vm", "output/vm-1"] = .ok disks ∧
      (disks.map Disk.Dev)[0]? = some d.Dev ∧ d.Dev = "vda" := by
  obtain ⟨d, disks, h1, h2, h3, h4⟩ := C20_first_disk_name_same_in_both_modes
    { exampleConfig with DiskImage := true } exampleConfig exampleRunEnv.fp []
    "output/vm" ["output/vm-1"] rfl rfl rfl (fun q _ => ⟨"/build/" ++ q, rfl⟩)
  exact ⟨d, disks, h1, h2, h3, by rw [h4]; decide⟩

/-! ## The user-supplied descriptor template (step_run.go) -/

/-- The loop of getXMLDesc reads the configuration only through the disk literal and
the disk interface. -/
theorem getXMLDesc_loop_congr (c c' : Config) (fp : FilePath)
    (hmk : ∀ src dev, mkDisk c src dev = mkDisk c' src dev)
    (hif : c.DiskInterface = c'.DiskInterface) :
    ∀ (paths : List String) (i : Nat) (acc : List Disk),
      getXMLDesc_loop c fp paths i acc = getXMLDesc_loop c' fp paths i acc := by
  intro paths
  induction paths with
  | nil => intro i acc; rfl
  | cons p ps ih =>
    intro i acc
    simp only [getXMLDesc_loop]
    cases fp.Abs p with
    | error e => rfl
    | ok full =>
      simp only []
      rw [hmk, hif, ih]

/-- The disk slice of getXMLDesc is the same for two configurations with the same
disk settings, output directory, name and boot mode. -/
theorem getXMLDesc_stateDisks_congr (c c' : Config) (fp : FilePath) (state state' : StateBag)
    (hmk : ∀ src dev, mkDisk c src dev = mkDisk c' src dev)
    (hif : c.DiskInterface = c'.DiskInterface) (hmode : c.DiskImage = c'.DiskImage)
    (hdir : c.OutputDir = c'.OutputDir) (hname : c.VMName = c'.VMName)
    (hpaths : state.Get "qemu_disk_paths" = state'.Get "qemu_disk_paths") :
    getXMLDesc_stateDisks c fp state = getXMLDesc_stateDisks c' fp state' := by
  have hloop : ∀ paths, getXMLDesc_loop c fp paths 0 [] = getXMLDesc_loop c' fp paths 0 [] :=
    fun paths => getXMLDesc_loop_congr c c' fp hmk hif paths 0 []
  unfold getXMLDesc_stateDisks getXMLDesc_disks
  simp only [hmode, hpaths, hdir, hname, hif, hmk, hloop]

/-- With a template file configured, the document is the rendered file, whatever the
network name and the floppy path are. -/
theorem getXMLDesc_document_override (env : RunEnv) (config : Config) (ctx : Context)
    (netName vncIP : String) (vncPort : Int) (vncPassword isoPath : String)
    (disks : List Disk) (floppyPath : String) (hfile : config.XMLFile ≠ "") :
    getXMLDesc_document env config ctx netName vncIP vncPort vncPassword isoPath disks
        floppyPath =
      match env.ReadFile config.XMLFile with
      | .error err => .error err
      | .ok oriData => env.Render oriData
          { ctx with Data := some ⟨vncIP, vncPort, vncPassword, config.VMName, disks, isoPath⟩ } := by
  unfold getXMLDesc_document
  rw [if_pos hfile]

/-- The method getXMLDesc once its reads of the state bag have succeeded. -/
theorem getXMLDesc_of_reads (s : stepRun) (env : RunEnv) (config : Config) (ctx : Context)
    (state : StateBag) (netName : String) (vncPort : Int)
    (vncPassword isoPath floppyPath : String) (disks : List Disk)
    (hnet : state.GetString "net" = .returned netName)
    (hport : state.GetInt "vnc_port" = .returned vncPort)
    (hpw : state.GetString "vnc_password" = .returned vncPassword)
    (hiso : state.GetString "iso_path" = .returned isoPath)
    (hfloppy : getXMLDesc_floppyPath state = .returned floppyPath)
    (hdisks : getXMLDesc_stateDisks config env.fp state = .returned (.ok disks)) :
    s.getXMLDesc env config ctx state =
      .returned (getXMLDesc_document env config ctx netName config.VNCBindAddress vncPort
        vncPassword isoPath disks floppyPath) := by
  simp only [stepRun.getXMLDesc, hnet, hport, hpw, hiso, hfloppy, hdisks, Outcome.bind]

/-- The loop of getXMLDesc, when `filepath.Abs` succeeds on every staged path: one disk
per path, in order, with the absolute path as source and the device name of its
index. -/
theorem getXMLDesc_loop_eq (config : Config) (fp : FilePath) (abs : String → String) :
    ∀ (paths : List String) (i : Nat) (acc : List Disk),
      (∀ p ∈ paths, fp.Abs p = .ok (abs p)) →
      getXMLDesc_loop config fp paths i acc = .ok (acc ++ (paths.enumFrom i).map fun ip =>
        mkDisk config (abs ip.2) (devName config.DiskInterface ip.1)) := by
  intro paths
  induction paths with
  | nil => intro i acc _; simp [getXMLDesc_loop]
  | cons p ps ih =>
    intro i acc h
    simp only [getXMLDesc_loop, h p (List.mem_cons_self _ _)]
    rw [ih (i + 1) _ (fun q hq => h q (List.mem_cons_of_mem _ hq))]
    simp [List.enumFrom_cons]

/-- The disk slice that getXMLDesc builds from the state bag: in an ISO build one disk
per staged path, and the output image alone when a disk image is booted. -/
theorem getXMLDesc_stateDisks_eq (config : Config) (fp : FilePath) (state : StateBag)
    (paths : List String) (abs : String → String)
    (hpaths : config.DiskImage = false → state.Get "qemu_disk_paths" = .strings paths)
    (habs : config.DiskImage = false → ∀ p ∈ paths, fp.Abs p = .ok (abs p)) :
    getXMLDesc_stateDisks config fp state = .returned (.ok
      (if config.DiskImage = true then
        [mkDisk config (fp.Join (match fp.Abs config.OutputDir with
          | .ok p => p
          | .error _ => "") config.VMName) (devName config.DiskInterface 0)]
      else
        paths.enum.map fun ip =>
          mkDisk config (abs ip.2) (devName config.DiskInterface ip.1))) := by
  unfold getXMLDesc_stateDisks getXMLDesc_disks
  cases hmode : config.DiskImage with
  | true =>
    simp only [Bool.not_true, Bool.false_eq_true, if_false, if_true, List.nil_append]
  | false =>
    simp only [Bool.not_false, if_true, hpaths hmode, Bool.false_eq_true, if_false]
    rw [getXMLDesc_loop_eq config fp abs paths 0 [] (habs hmode)]
    rfl

/-- Claim C17: with a template file configured and the state bag read, getXMLDesc
returns what `interpolate.Render` makes of the contents of that file with the
interpolation data, or the error of reading or rendering it. The data are the VNC bind
address of the configuration, the VNC port and password of the state bag, the VM name,
the ISO path, and the disk list that getXMLDesc builds: one disk per staged path (its
absolute path, the device name of its index) in an ISO build, the output image alone
when a disk image is booted. The result is the same for a configuration that differs
in the hypervisor, CPU count, memory, CPU mode, architecture, machine type, emulator,
network device and loader, on a state bag that differs in the network name and the
floppy path. -/
theorem C17_template_file_replaces_default (s : stepRun) (env : RunEnv) (config : Config)
    (ctx : Context) (state : StateBag) (hfile : config.XMLFile ≠ "")
    (netName : String) (vncPort : Int) (vncPassword isoPath floppyPath : String)
    (paths : List String) (abs : String → String)
    (hnet : state.GetString "net" = .returned netName)
    (hport : state.GetInt "vnc_port" = .returned vncPort)
    (hpw : state.GetString "vnc_password" = .returned vncPassword)
    (hiso : state.GetString "iso_path" = .returned isoPath)
    (hfloppy : getXMLDesc_floppyPath state = .returned floppyPath)
    (hpaths : config.DiskImage = false → state.Get "qemu_disk_paths" = .strings paths)
    (habs : config.DiskImage = false → ∀ p ∈ paths, env.fp.Abs p = .ok (abs p)) :
    s.getXMLDesc env config ctx state = .returned
      (match env.ReadFile config.XMLFile with
        | .error err => .error err
        | .ok oriData => env.Render oriData
          { ctx with Data := some ⟨config.VNCBindAddress, vncPort, vncPassword, config.VMName,
              (if config.DiskImage = true then
                [mkDisk config (env.fp.Join (match env.fp.Abs config.OutputDir with
                  | .ok p => p
                  | .error _ => "") config.VMName) (devName config.DiskInterface 0)]
              else
                paths.enum.map fun ip =>
                  mkDisk config (abs ip.2) (devName config.DiskInterface ip.1)),
              isoPath⟩ }) ∧
    ∀ (hv : String) (cpus mem : Int) (cm ar mt em nd ld : String) (state' : StateBag)
      (netName' floppyPath' : String),
      state'.GetString "net" = .returned netName' →
      state'.GetInt "vnc_port" = .returned vncPort →
      state'.GetString "vnc_password" = .returned vncPassword →
      state'.GetString "iso_path" = .returned isoPath →
      getXMLDesc_floppyPath state' = .returned floppyPath' →
      state'.Get "qemu_disk_paths" = state.Get "qemu_disk_paths" →
      s.getXMLDesc env
          { config with
            Hypervisor := hv, CpuCount := cpus, MemorySize := mem, CPUMode := cm, Arch := ar,
            MachineType := mt, EmulatorBinary := em, NetDevice := nd, Loader := ld }
          ctx state' =
        s.getXMLDesc env config ctx state := by
  have hdisks := getXMLDesc_stateDisks_eq config env.fp state paths abs hpaths habs
  have hmain := getXMLDesc_of_reads s env config ctx state netName vncPort vncPassword isoPath
    floppyPath _ hnet hport hpw hiso hfloppy hdisks
  rw [getXMLDesc_document_override env config ctx netName config.VNCBindAddress vncPort
    vncPassword isoPath _ floppyPath hfile] at hmain
  refine ⟨hmain, ?_⟩
  intro hv cpus mem cm ar mt em nd ld state' netName' floppyPath' hnet' hport' hpw' hiso'
    hfloppy' hpaths'
  have hx : ∀ cfg' : Config, cfg'.XMLFile = config.XMLFile →
      cfg'.VNCBindAddress = config.VNCBindAddress → cfg'.VMName = config.VMName →
      getXMLDesc_stateDisks cfg' env.fp state' = getXMLDesc_stateDisks config env.fp state →
      s.getXMLDesc env cfg' ctx state' = s.getXMLDesc env config ctx state := by
    intro cfg' h1 h2 h3 h4
    rw [hdisks] at h4
    rw [getXMLDesc_of_reads s env cfg' ctx state' netName' vncPort vncPassword isoPath
      floppyPath' _ hnet' hport' hpw' hiso' hfloppy' h4, hmain,
      getXMLDesc_document_override env cfg' ctx netName' cfg'.VNCBindAddress vncPort
        vncPassword isoPath _ floppyPath' (by rw [h1]; exact hfile), h1, h2, h3]
  exact hx _ rfl rfl rfl
    (getXMLDesc_stateDisks_congr _ _ env.fp state' state (fun _ _ => rfl) rfl rfl rfl rfl hpaths')

/-- Claim C17, witness: the template file "/templates/domain.xml" is configured; the
descriptor is its contents rendered with the six fields of the interpolation data,
the two staged disks among them, not the default document. -/
theorem C17_template_file_replaces_default_witness :
    stepRun.getXMLDesc {} exampleTemplateEnv
      { exampleConfig with XMLFile := "/templates/domain.xml" } {} exampleRunState =
      .returned (.ok ("<domain type='kvm'> 127.0.0.1 5901 [] vm " ++
        "/build/output/vm=vda,/build/output/vm-1=vdb /cache/install.iso")) := by
  have h := (C17_template_file_replaces_default {} exampleTemplateEnv
    { exampleConfig with XMLFile := "/templates/domain.xml" } {} exampleRunState (by decide)
    "default" 5901 "" "/cache/install.iso" "" ["output/vm", "output/vm-1"]
    (fun p => "/build/" ++ p) rfl rfl rfl rfl rfl (fun _ => rfl) (fun _ _ _ => rfl)).1
  rw [h]
  rfl

/-! ## The target device names of the default descriptor (step_run.go) -/

/-- A mismatch with the marker inside `l` remains when text is appended. -/
theorem clash_append (m l v : List Char) (h : clash m l = true) : clash m (l ++ v) = true := by
  induction m generalizing l with
  | nil => simp [clash] at h
  | cons a m ih =>
    cases l with
    | nil => simp [clash] at h
    | cons c cs =>
      simp only [clash, List.cons_append] at h ⊢
      by_cases hac : a = c
      · simp only [hac, if_true] at h ⊢
        exact ih cs h
      · simp only [hac, if_false]

/-- A text that mismatches the marker does not start with it. -/
theorem stripMarker_of_clash (m l : List Char) (h : clash m l = true) :
    stripMarker m l = none := by
  induction m generalizing l with
  | nil => simp [clash] at h
  | cons a m ih =>
    cases l with
    | nil => rfl
    | cons c cs =>
      simp only [clash] at h
      simp only [stripMarker]
      by_cases hac : a = c
      · simp only [hac, if_true] at h ⊢
        exact ih cs h
      · simp only [hac, if_false]

theorem stripMarker_append_self (m l : List Char) : stripMarker m (m ++ l) = some l := by
  induction m with
  | nil => cases l <;> rfl
  | cons a m ih =>
    simp only [List.cons_append, stripMarker, if_true]
    exact ih

theorem scanTargets_cons_some (c : Char) (cs rest : List Char)
    (h : stripMarker targetMarker (c :: cs) = some rest) :
    scanTargets (c :: cs) =
      String.mk (rest.takeWhile fun a => a ≠ Char.ofNat 39) :: scanTargets cs := by
  rw [scanTargets, h]

theorem scanTargets_cons_none (c : Char) (cs : List Char)
    (h : stripMarker targetMarker (c :: cs) = none) :
    scanTargets (c :: cs) = scanTargets cs := by
  rw [scanTargets, h]

theorem quiet_append (u v : List Char) (hu : quiet u = true) (hv : quiet v = true) :
    quiet (u ++ v) = true := by
  induction u with
  | nil => exact hv
  | cons c cs ih =>
    simp only [quiet, Bool.and_eq_true] at hu
    simp only [List.cons_append, quiet, Bool.and_eq_true]
    exact ⟨clash_append _ (c :: cs) v hu.1, ih hu.2⟩

/-- A text inside which no marker starts contributes no target name. -/
theorem scanTargets_quiet (u v : List Char) (hu : quiet u = true) :
    scanTargets (u ++ v) = scanTargets v := by
  induction u with
  | nil => rfl
  | cons c cs ih =>
    simp only [quiet, Bool.and_eq_true] at hu
    have h := stripMarker_of_clash _ _ (clash_append _ (c :: cs) v hu.1)
    simp only [List.cons_append] at h ⊢
    rw [scanTargets_cons_none _ _ h]
    exact ih hu.2

theorem quiet_of_forall_ne (u : List Char) (h : ∀ c ∈ u, c ≠ '<') : quiet u = true := by
  induction u with
  | nil => rfl
  | cons c cs ih =>
    simp only [quiet, Bool.and_eq_true]
    refine ⟨?_, ih (fun x hx => h x (List.mem_cons_of_mem _ hx))⟩
    have hc : ¬ '<' = c := fun e => h c (List.mem_cons_self _ _) e.symm
    simp only [targetMarker, String.toList, clash, hc, if_false]

theorem takeWhile_append_stop (name rest : List Char) (q : Char)
    (h : ∀ c ∈ name, c ≠ q) :
    (name ++ q :: rest).takeWhile (fun a => a ≠ q) = name := by
  induction name with
  | nil => simp [List.takeWhile]
  | cons c cs ih =>
    have hc := h c (List.mem_cons_self _ _)
    simp only [List.cons_append, List.takeWhile_cons, ne_eq, hc, not_false_eq_true,
      decide_True, if_true, ih (fun x hx => h x (List.mem_cons_of_mem _ hx))]

/-- One `target` element: after a text inside which no marker starts, the marker, a
value free of `<` and of the single quote, and the closing quote yield that value. -/
theorem scanTargets_entry (u name rest : List Char) (hu : quiet u = true)
    (hname : ∀ c ∈ name, c ≠ '<' ∧ c ≠ Char.ofNat 39) :
    scanTargets (u ++ (targetMarker ++ (name ++ Char.ofNat 39 :: rest))) =
      String.mk name :: scanTargets rest := by
  rw [scanTargets_quiet u _ hu]
  have hm : targetMarker = '<' :: "target dev='".toList := rfl
  have hs := stripMarker_append_self targetMarker (name ++ Char.ofNat 39 :: rest)
  rw [hm, List.cons_append, ← hm] at hs
  rw [hm, List.cons_append, scanTargets_cons_some _ _ _ hs,
    takeWhile_append_stop name rest _ (fun c hc => (hname c hc).2)]
  congr 1
  have hq : quiet ("target dev='".toList ++ (name ++ [Char.ofNat 39])) = true := by
    apply quiet_append
    · decide
    · apply quiet_append
      · exact quiet_of_forall_ne _ (fun c hc => (hname c hc).1)
      · decide
  have := scanTargets_quiet _ rest hq
  simpa [List.append_assoc] using this


theorem digitChar_plain (n : Nat) (h : n < 10) : plainChar (Nat.digitChar n) := by
  interval_cases n <;> decide

theorem toDigitsCore_plain (fuel : Nat) :
    ∀ (n : Nat) (ds : List Char), (∀ c ∈ ds, plainChar c) →
      ∀ c ∈ Nat.toDigitsCore 10 fuel n ds, plainChar c := by
  induction fuel with
  | zero => intro n ds h; simpa [Nat.toDigitsCore] using h
  | succ f ih =>
    intro n ds h
    simp only [Nat.toDigitsCore]
    have hcons : ∀ c ∈ Nat.digitChar (n % 10) :: ds, plainChar c := by
      intro c hc
      rcases List.mem_cons.mp hc with rfl | hc
      · exact digitChar_plain _ (Nat.mod_lt _ (by decide))
      · exact h c hc
    split
    · exact hcons
    · exact ih _ _ hcons

theorem natRepr_plain (n : Nat) : ∀ c ∈ (toString n).data, plainChar c := by
  show ∀ c ∈ (Nat.repr n).data, plainChar c
  simp only [Nat.repr, Nat.toDigits, List.asString, String.toList]
  exact toDigitsCore_plain _ _ _ (fun c hc => by cases hc)

/-- The decimal text of an integer has neither `<` nor a single quote. -/
theorem intToString_plain (i : Int) : ∀ c ∈ (toString i).data, plainChar c := by
  cases i with
  | ofNat n => exact natRepr_plain n
  | negSucc n =>
    show ∀ c ∈ ("-" ++ toString (n.succ)).data, plainChar c
    intro c hc
    simp only [String.toList, String.data_append, List.mem_append] at hc
    rcases hc with hc | hc
    · have : c = '-' := by simpa using hc
      subst this
      unfold plainChar; decide
    · exact natRepr_plain _ c hc

theorem htmlReplacement_plain (a : Char) : ∀ c ∈ (htmlReplacement a).data, plainChar c := by
  unfold htmlReplacement
  split_ifs with h0 h1 h2 h3 h4 h5 h6
  · decide
  · decide
  · decide
  · decide
  · decide
  · decide
  · decide
  · intro c hc
    have : c = a := by simpa [String.singleton] using hc
    subst this
    exact ⟨h5, h3⟩

/-- The escaper of `html/template` leaves neither `<` nor a single quote. -/
theorem htmlEscape_plain (s : String) : ∀ c ∈ (htmlEscape s).data, plainChar c := by
  intro c hc
  simp only [htmlEscape, String.toList, List.mem_flatten, List.mem_map] at hc
  obtain ⟨l, ⟨a, _, rfl⟩, hcl⟩ := hc
  exact htmlReplacement_plain a c hcl


theorem quiet_of_plain (u : List Char) (h : ∀ c ∈ u, plainChar c) : quiet u = true :=
  quiet_of_forall_ne u (fun c hc => (h c hc).1)

theorem quiet_htmlEscape (s : String) : quiet (htmlEscape s).data = true :=
  quiet_of_plain _ (htmlEscape_plain s)

theorem quiet_int (i : Int) : quiet (toString i).data = true :=
  quiet_of_plain _ (intToString_plain i)

theorem quiet_string_append (a b : String) (ha : quiet a.data = true) (hb : quiet b.data = true) :
    quiet (a ++ b).data = true := by
  rw [String.data_append]
  exact quiet_append _ _ ha hb

theorem quiet_string_ite (c : Prop) [Decidable c] (a b : String) (ha : quiet a.data = true)
    (hb : quiet b.data = true) : quiet (if c then a else b).data = true := by
  split <;> assumption


/-- No `target` element with a `dev` attribute starts in the text of `XmlTemplate`
before the CPU element. -/
theorem quiet_head (x : LibvirtXML) : quiet (XmlTemplate_head x).data = true := by
  unfold XmlTemplate_head
  repeat' apply quiet_string_append
  all_goals try apply quiet_string_ite
  all_goals repeat' apply quiet_string_append
  all_goals first
    | decide!
    | exact quiet_htmlEscape _
    | exact quiet_int _

/-- Nor in the CPU element. -/
theorem quiet_cpu (m : String) : quiet (XmlTemplate_cpu m).data = true := by
  unfold XmlTemplate_cpu
  apply quiet_string_ite
  all_goals repeat' apply quiet_string_append
  all_goals first
    | decide!
    | exact quiet_htmlEscape _

/-- Nor between the CPU element and the disks. -/
theorem quiet_emulator (x : LibvirtXML) : quiet (XmlTemplate_emulator x).data = true := by
  unfold XmlTemplate_emulator
  repeat' apply quiet_string_append
  all_goals first
    | decide!
    | exact quiet_htmlEscape _

/-- Nor after the floppy entry: the `target` elements of the serial port and of the
console have a `type` attribute first. -/
theorem quiet_tail (x : LibvirtXML) : quiet (XmlTemplate_tail x).data = true := by
  unfold XmlTemplate_tail
  repeat' apply quiet_string_append
  all_goals try apply quiet_string_ite
  all_goals repeat' apply quiet_string_append
  all_goals first
    | decide!
    | exact quiet_htmlEscape _
    | exact quiet_int _

/-- The body of `range .Disks` on one disk yields one target name, the escaped `Dev`. -/
theorem scanTargets_disk (d : Disk) (rest : List Char) :
    scanTargets ((XmlTemplate_disk d).data ++ rest) = htmlEscape d.Dev :: scanTargets rest := by
  unfold XmlTemplate_disk
  simp only [String.data_append, List.append_assoc]
  repeat
    refine (scanTargets_quiet _ _ (by
      first
        | decide!
        | exact quiet_htmlEscape _
        | exact quiet_string_ite _ _ _ (quiet_string_append _ _
            (quiet_string_append _ _ (by decide!) (quiet_htmlEscape _)) (by decide!))
            (by decide!))).trans ?_
  show scanTargets ("\t\t".data ++ (targetMarker ++ ((htmlEscape d.Dev).data ++
    Char.ofNat 39 :: (" bus='".data ++ _)))) = _
  rw [scanTargets_entry _ _ _ (by decide!) (htmlEscape_plain _)]
  congr 1
  repeat
    refine (scanTargets_quiet _ _ (by
      first
        | decide!
        | exact quiet_htmlEscape _)).trans ?_
  rfl

/-- The `target` element of the CD-ROM entry. -/
theorem scanTargets_cdrom (rest : List Char) :
    scanTargets ("\t\t<target dev='sdd'/>\n".data ++ rest) = "sdd" :: scanTargets rest := by
  show scanTargets ("\t\t".data ++ (targetMarker ++ ("sdd".data ++
    Char.ofNat 39 :: ("/>\n".data ++ rest)))) = _
  rw [scanTargets_entry _ _ _ (by decide!) (by decide!), scanTargets_quiet _ _ (by decide!)]

/-- The `target` element of the floppy entry. -/
theorem scanTargets_floppy (rest : List Char) :
    scanTargets ("\t\t<target dev='fda'/>\n".data ++ rest) = "fda" :: scanTargets rest := by
  show scanTargets ("\t\t".data ++ (targetMarker ++ ("fda".data ++
    Char.ofNat 39 :: ("/>\n".data ++ rest)))) = _
  rw [scanTargets_entry _ _ _ (by decide!) (by decide!), scanTargets_quiet _ _ (by decide!)]

/-- The two actions `if not .DiskImage` and `if .FloppyPath` yield "sdd" and "fda" when
their entries are rendered. -/
theorem scanTargets_media (x : LibvirtXML) (rest : List Char) :
    scanTargets ((XmlTemplate_media x).data ++ rest) =
      (if ¬ x.DiskImage = true then ["sdd"] else []) ++
        (if x.FloppyPath ≠ "" then ["fda"] else []) ++ scanTargets rest := by
  unfold XmlTemplate_media
  cases h1 : x.DiskImage <;> by_cases h2 : x.FloppyPath = ""
  all_goals simp only [h2, Bool.false_eq_true, not_true_eq_false, not_false_eq_true, if_true,
    if_false, ne_eq, String.data_append, List.append_assoc]
  all_goals repeat
    first
      | refine (scanTargets_quiet _ _ (by
          first
            | decide!
            | exact quiet_htmlEscape _)).trans ?_
      | refine (scanTargets_cdrom _).trans (congrArg _ ?_)
      | refine (scanTargets_floppy _).trans (congrArg _ ?_)
  all_goals rfl

theorem scanTargets_disks (disks : List Disk) (rest : List Char) :
    scanTargets ((disks.map fun d => (XmlTemplate_disk d).data).flatten ++ rest) =
      disks.map (fun d => htmlEscape d.Dev) ++ scanTargets rest := by
  induction disks with
  | nil => rfl
  | cons d ds ih =>
    simp only [List.map_cons, List.flatten_cons, List.append_assoc, List.cons_append]
    rw [scanTargets_disk, ih]

/-- The target device names in the executed template, in document order: one per
disk, then "sdd" of the CD-ROM entry unless a disk image is booted, then "fda" of the
floppy entry when a floppy path is set. -/
theorem targetDevs_execute (x : LibvirtXML) :
    targetDevs (XmlTemplate_execute x) =
      x.Disks.map (fun d => htmlEscape d.Dev) ++
        ((if ¬ x.DiskImage = true then ["sdd"] else []) ++
          (if x.FloppyPath ≠ "" then ["fda"] else [])) := by
  unfold targetDevs XmlTemplate_execute
  simp only [String.toList, String.data_append, String.data_join, List.append_assoc,
    List.map_map]
  rw [scanTargets_quiet _ _ (quiet_head x), scanTargets_quiet _ _ (quiet_cpu x.CPUMode),
    scanTargets_quiet _ _ (quiet_emulator x)]
  have hd := scanTargets_disks x.Disks ((XmlTemplate_media x).data ++ (XmlTemplate_tail x).data)
  have hm := scanTargets_media x (XmlTemplate_tail x).data
  have ht := scanTargets_quiet (XmlTemplate_tail x).data [] (quiet_tail x)
  rw [List.append_nil] at ht
  rw [ht] at hm
  rw [hm] at hd
  simpa [Function.comp_def, scanTargets] using hd


theorem fmtC_toNat (c : Nat) : (fmtC c).toNat = c ∨ (fmtC c).toNat = 0xFFFD := by
  unfold fmtC
  by_cases hv : c.isValidChar
  · rw [if_pos hv]; exact Or.inl (toNat_ofNat_of_valid c hv)
  · rw [if_neg hv]; exact Or.inr (by decide)

/-- The suffix of a device name is never a character that `html/template` replaces,
and it is the letter d at index 3 only. -/
theorem fmtC_suffix (i : Nat) :
    97 ≤ (fmtC ('a'.toNat + i)).toNat ∧ ((fmtC ('a'.toNat + i)) = 'd' → i = 3) := by
  have ha : 'a'.toNat = 97 := by decide
  rcases fmtC_toNat ('a'.toNat + i) with h | h
  · refine ⟨by omega, fun hd => ?_⟩
    have : (fmtC ('a'.toNat + i)).toNat = 'd'.toNat := by rw [hd]
    have hd2 : 'd'.toNat = 100 := by decide
    omega
  · refine ⟨by omega, fun hd => ?_⟩
    have : (fmtC ('a'.toNat + i)).toNat = 'd'.toNat := by rw [hd]
    have hd2 : 'd'.toNat = 100 := by decide
    omega

theorem diskInterfaceToDev_cases (k : String) :
    (diskInterfaceToDev k = "sd" ∧ (k = "scsi" ∨ k = "virtio-scsi")) ∨
      diskInterfaceToDev k = "hd" ∨ diskInterfaceToDev k = "vd" ∨ diskInterfaceToDev k = "" := by
  unfold diskInterfaceToDev
  split_ifs with h1 h2 h3 h4
  · exact Or.inr (Or.inl rfl)
  · exact Or.inl ⟨rfl, Or.inl h2⟩
  · exact Or.inr (Or.inr (Or.inl rfl))
  · exact Or.inl ⟨rfl, Or.inr h4⟩
  · exact Or.inr (Or.inr (Or.inr rfl))

theorem devName_data (iface : String) (i : Nat) :
    (devName iface i).data = (diskInterfaceToDev iface).data ++ [fmtC ('a'.toNat + i)] := by
  simp only [devName, String.data_append, String.singleton]
  rfl

/-- A device name is inserted in the descriptor unchanged. -/
theorem htmlEscape_devName (iface : String) (i : Nat) :
    htmlEscape (devName iface i) = devName iface i := by
  apply htmlEscape_of_plain
  intro c hc
  rw [String.toList, devName_data, List.mem_append, List.mem_singleton] at hc
  rcases hc with hc | hc
  · rcases diskInterfaceToDev_cases iface with ⟨h, -⟩ | h | h | h <;> rw [h] at hc
    all_goals revert c; decide
  · have h97 := (fmtC_suffix i).1
    rw [← hc] at h97
    refine ⟨?_, ?_, ?_, ?_, ?_, ?_, ?_⟩ <;> intro e <;> rw [e] at h97 <;> revert h97 <;> decide

/-- No device name is the floppy target. -/
theorem devName_ne_fda (iface : String) (i : Nat) : devName iface i ≠ "fda" := by
  intro h
  have hd := congrArg String.data h
  rw [devName_data] at hd
  rcases diskInterfaceToDev_cases iface with ⟨h, -⟩ | h | h | h <;> rw [h] at hd <;>
    simp at hd

/-- A device name is the CD-ROM target only for the prefix "sd" at index 3. -/
theorem devName_eq_sdd (iface : String) (i : Nat) (h : devName iface i = "sdd") :
    (iface = "scsi" ∨ iface = "virtio-scsi") ∧ i = 3 := by
  have hd := congrArg String.data h
  rw [devName_data] at hd
  rcases diskInterfaceToDev_cases iface with ⟨h, hk⟩ | h | h | h <;> rw [h] at hd
  · refine ⟨hk, (fmtC_suffix i).2 ?_⟩
    simpa using hd
  all_goals simp at hd

/-- The first 55200 device names of an interface are pairwise distinct. -/
theorem devNames_nodup (iface : String) (n : Nat) (hn : n ≤ 55200) :
    ((List.range n).map (devName iface)).Nodup := by
  have hpw : ((List.range n).map (devName iface)).Pairwise (fun a b => a < b) := by
    rw [List.pairwise_map]
    have hr := List.pairwise_lt_range n
    have hboth := List.Pairwise.and_mem.mp hr
    refine hboth.imp ?_
    intro a b hab
    have := List.mem_range.mp hab.2.1
    exact devName_lt _ a b hab.2.2 (by omega)
  exact hpw.imp (fun hab => ne_of_lt hab)


/-- A descriptor returned by getXMLDesc is the document built from a disk slice and a
floppy path that the state bag yields. -/
theorem getXMLDesc_ok_inv (s : stepRun) (env : RunEnv) (config : Config) (ctx : Context)
    (state : StateBag) (xml : String)
    (h : s.getXMLDesc env config ctx state = .returned (.ok xml)) :
    ∃ netName vncPort vncPassword isoPath disks floppyPath,
      getXMLDesc_stateDisks config env.fp state = .returned (.ok disks) ∧
      getXMLDesc_floppyPath state = .returned floppyPath ∧
      getXMLDesc_document env config ctx netName config.VNCBindAddress vncPort vncPassword
        isoPath disks floppyPath = .ok xml := by
  unfold stepRun.getXMLDesc at h
  cases h1 : state.GetString "net" with
  | panicked => rw [h1] at h; cases h
  | returned netName =>
    cases h2 : state.GetInt "vnc_port" with
    | panicked => rw [h1, h2] at h; cases h
    | returned vncPort =>
      cases h3 : state.GetString "vnc_password" with
      | panicked => rw [h1, h2, h3] at h; cases h
      | returned vncPassword =>
        cases h4 : state.GetString "iso_path" with
        | panicked => rw [h1, h2, h3, h4] at h; cases h
        | returned isoPath =>
          cases h5 : getXMLDesc_stateDisks config env.fp state with
          | panicked => rw [h1, h2, h3, h4, h5] at h; cases h
          | returned disksOrErr =>
            cases disksOrErr with
            | error err =>
              rw [h1, h2, h3, h4, h5] at h
              simp only [Outcome.bind, Outcome.returned.injEq, reduceCtorEq] at h
            | ok disks =>
              cases h6 : getXMLDesc_floppyPath state with
              | panicked => rw [h1, h2, h3, h4, h5, h6] at h; cases h
              | returned floppyPath =>
                rw [h1, h2, h3, h4, h5, h6] at h
                simp only [Outcome.bind, Outcome.returned.injEq] at h
                exact ⟨netName, vncPort, vncPassword, isoPath, disks, floppyPath, rfl, rfl, h⟩

/-- The device names of the disk slice that getXMLDesc builds from the state bag: the
names of the indices below the number of staged paths, and the name of index 0 alone
when a disk image is booted. -/
theorem getXMLDesc_stateDisks_names (config : Config) (fp : FilePath) (state : StateBag)
    (disks : List Disk) (h : getXMLDesc_stateDisks config fp state = .returned (.ok disks)) :
    (config.DiskImage = true ∧ disks.map Disk.Dev = [devName config.DiskInterface 0]) ∨
    (config.DiskImage = false ∧ ∃ paths, state.Get "qemu_disk_paths" = .strings paths ∧
      disks.map Disk.Dev = (List.range paths.length).map (devName config.DiskInterface)) := by
  unfold getXMLDesc_stateDisks at h
  cases hmode : config.DiskImage with
  | true =>
    left
    refine ⟨rfl, ?_⟩
    simp only [hmode, Bool.not_true, Bool.false_eq_true, if_false, getXMLDesc_disks,
      Outcome.returned.injEq, Except.ok.injEq] at h
    rw [← h]
    rfl
  | false =>
    right
    refine ⟨rfl, ?_⟩
    simp only [hmode, Bool.not_false, if_true] at h
    cases hp : state.Get "qemu_disk_paths" with
    | strings paths =>
      rw [hp] at h
      simp only [Outcome.returned.injEq] at h
      exact ⟨paths, rfl, getXMLDesc_disks_names config fp paths hmode disks h⟩
    | _ => rw [hp] at h; cases h


/-- Without a template file the document is the executed default template. -/
theorem getXMLDesc_document_default (env : RunEnv) (config : Config) (ctx : Context)
    (netName vncIP : String) (vncPort : Int) (vncPassword isoPath : String)
    (disks : List Disk) (floppyPath : String) (hfile : config.XMLFile = "") :
    ∃ x : LibvirtXML, x.DiskImage = config.DiskImage ∧ x.Disks = disks ∧
      x.FloppyPath = floppyPath ∧
      getXMLDesc_document env config ctx netName vncIP vncPort vncPassword isoPath disks
        floppyPath = .ok (XmlTemplate_execute x) := by
  unfold getXMLDesc_document
  rw [if_neg (not_not.mpr hfile)]
  exact ⟨_, rfl, rfl, rfl, rfl⟩

/-- The target device names of a default descriptor returned by getXMLDesc: the device
names of the disk slice, then "sdd" unless a disk image is booted, then "fda" when a
floppy is staged. -/
theorem getXMLDesc_targetDevs (st : stepRun) (env : RunEnv) (config : Config)
    (ctx : Context) (state : StateBag) (xml : String) (hdefault : config.XMLFile = "")
    (hrun : st.getXMLDesc env config ctx state = .returned (.ok xml)) :
    ∃ disks floppyPath,
      getXMLDesc_stateDisks config env.fp state = .returned (.ok disks) ∧
      getXMLDesc_floppyPath state = .returned floppyPath ∧
      targetDevs xml = disks.map Disk.Dev ++
        ((if config.DiskImage = true then [] else ["sdd"]) ++
          (if floppyPath = "" then [] else ["fda"])) := by
  obtain ⟨netName, vncPort, vncPassword, isoPath, disks, floppyPath, hdisks, hfloppy, hdoc⟩ :=
    getXMLDesc_ok_inv st env config ctx state xml hrun
  obtain ⟨x, hx1, hx2, hx3, hx⟩ := getXMLDesc_document_default env config ctx netName
    config.VNCBindAddress vncPort vncPassword isoPath disks floppyPath hdefault
  rw [hx] at hdoc
  injection hdoc with hdoc
  have hnames : ∃ n, disks.map Disk.Dev = (List.range n).map (devName config.DiskInterface) := by
    rcases getXMLDesc_stateDisks_names config env.fp state disks hdisks with
      ⟨-, h1⟩ | ⟨-, paths, -, hn⟩
    · exact ⟨1, by rw [h1]; rfl⟩
    · exact ⟨paths.length, hn⟩
  obtain ⟨n, hn⟩ := hnames
  have hesc : disks.map (fun d => htmlEscape d.Dev) = disks.map Disk.Dev := by
    have : disks.map (fun d => htmlEscape d.Dev) = (disks.map Disk.Dev).map htmlEscape := by
      rw [List.map_map]; rfl
    rw [this, hn, List.map_map]
    apply List.map_congr_left
    intro i _
    exact htmlEscape_devName _ i
  refine ⟨disks, floppyPath, hdisks, hfloppy, ?_⟩
  rw [← hdoc, targetDevs_execute, hx1, hx2, hx3, hesc]
  by_cases h1 : config.DiskImage = true <;> by_cases h2 : floppyPath = "" <;> simp [h1, h2]

/-- Where the target device names of a default descriptor are pairwise distinct: for a
build with at most 55200 staged disks, and at most three when the disk interface is
scsi or virtio-scsi and no disk image is booted, the target device names of the
disk-type entries are those of the disk slice followed by "sdd" of the CD-ROM entry
(unless a disk image is booted) and "fda" of the floppy entry (when a floppy is staged);
the names of the hard disks are pairwise distinct, none of them is "sdd" or "fda", and
all target names of the descriptor are pairwise distinct. -/
theorem getXMLDesc_targets_distinct (st : stepRun) (env : RunEnv) (config : Config)
    (ctx : Context) (state : StateBag) (xml : String)
    (hdefault : config.XMLFile = "")
    (hrun : st.getXMLDesc env config ctx state = .returned (.ok xml))
    (hcount : ∀ paths, config.DiskImage = false →
      state.Get "qemu_disk_paths" = .strings paths →
      paths.length ≤ 55200 ∧
      (config.DiskInterface = "scsi" ∨ config.DiskInterface = "virtio-scsi" →
        paths.length ≤ 3)) :
    ∃ disks floppyPath,
      getXMLDesc_stateDisks config env.fp state = .returned (.ok disks) ∧
      getXMLDesc_floppyPath state = .returned floppyPath ∧
      targetDevs xml = disks.map Disk.Dev ++
        ((if config.DiskImage = true then [] else ["sdd"]) ++
          (if floppyPath = "" then [] else ["fda"])) ∧
      (disks.map Disk.Dev).Nodup ∧
      "sdd" ∉ disks.map Disk.Dev ∧ "fda" ∉ disks.map Disk.Dev ∧
      (targetDevs xml).Nodup := by
  obtain ⟨disks, floppyPath, hdisks, hfloppy, hlist⟩ :=
    getXMLDesc_targetDevs st env config ctx state xml hdefault hrun
  have hnames : ∃ n, disks.map Disk.Dev = (List.range n).map (devName config.DiskInterface) ∧
      n ≤ 55200 ∧ (config.DiskInterface = "scsi" ∨ config.DiskInterface = "virtio-scsi" →
        n ≤ 3) := by
    rcases getXMLDesc_stateDisks_names config env.fp state disks hdisks with
      ⟨-, h1⟩ | ⟨hmode, paths, hp, hn⟩
    · exact ⟨1, by rw [h1]; rfl, by omega, fun _ => by omega⟩
    · exact ⟨paths.length, hn, (hcount paths hmode hp).1, (hcount paths hmode hp).2⟩
  obtain ⟨n, hn, hmany, hsd⟩ := hnames
  have hnodup : (disks.map Disk.Dev).Nodup := by
    rw [hn]; exact devNames_nodup _ n hmany
  have hsdd : "sdd" ∉ disks.map Disk.Dev := by
    rw [hn]
    intro hmem
    obtain ⟨i, hi, he⟩ := List.mem_map.mp hmem
    obtain ⟨hk, h3⟩ := devName_eq_sdd _ i he
    have := List.mem_range.mp hi
    have := hsd hk
    omega
  have hfda : "fda" ∉ disks.map Disk.Dev := by
    rw [hn]
    intro hmem
    obtain ⟨i, -, he⟩ := List.mem_map.mp hmem
    exact devName_ne_fda _ i he
  refine ⟨disks, floppyPath, hdisks, hfloppy, hlist, hnodup, hsdd, hfda, ?_⟩
  rw [hlist, List.nodup_append]
  refine ⟨hnodup, ?_, ?_⟩
  · by_cases h1 : config.DiskImage = true <;> by_cases h2 : floppyPath = "" <;>
      simp [h1, h2]
  · intro a ha hb
    by_cases h1 : config.DiskImage = true <;> by_cases h2 : floppyPath = "" <;>
      simp [h1, h2] at hb
    · exact hfda (hb ▸ ha)
    · exact hsdd (hb ▸ ha)
    · rcases hb with hb | hb
      · exact hsdd (hb ▸ ha)
      · exact hfda (hb ▸ ha)

/-- The ISO build with two disks on the "virtio" interface has the targets "vda", "vdb"
and "sdd". -/
theorem getXMLDesc_targets_distinct_example :
    ∃ xml, stepRun.getXMLDesc {} exampleRunEnv exampleConfig {} exampleRunState =
        .returned (.ok xml) ∧
      targetDevs xml = ["vda", "vdb", "sdd"] ∧ (targetDevs xml).Nodup := by
  have hrun : ∃ xml, stepRun.getXMLDesc {} exampleRunEnv exampleConfig {} exampleRunState =
      .returned (.ok xml) := ⟨_, rfl⟩
  obtain ⟨xml, hrun⟩ := hrun
  obtain ⟨disks, floppyPath, hdisks, hfloppy, hlist, -, -, -, hnodup⟩ :=
    getXMLDesc_targets_distinct {} exampleRunEnv exampleConfig {} exampleRunState xml rfl hrun
      (by
        intro paths _ hp
        have hlen : paths.length = 2 := by
          have : Value.strings ["output/vm", "output/vm-1"] = Value.strings paths := hp
          injection this with h
          rw [← h]; rfl
        exact ⟨by omega, fun _ => by omega⟩)
  refine ⟨xml, hrun, ?_, hnodup⟩
  have hd : getXMLDesc_stateDisks exampleConfig exampleRunEnv.fp exampleRunState =
      .returned (.ok [mkDisk exampleConfig "/build/output/vm" "vda",
        mkDisk exampleConfig "/build/output/vm-1" "vdb"]) := rfl
  have hf : getXMLDesc_floppyPath exampleRunState = .returned "" := rfl
  rw [hd] at hdisks
  rw [hf] at hfloppy
  injection hdisks with hdisks
  injection hdisks with hdisks
  injection hfloppy with hfloppy
  rw [hlist, ← hdisks, ← hfloppy]
  rfl

/-- Claim C21, the code at the failing input: a configuration with interface "scsi" and
three additional disks is prepared without error, and in its default descriptor the
fourth hard disk and the CD-ROM entry both have the target "sdd". -/
theorem C21_fourth_scsi_disk_repeats_sdd :
    Config.Prepare exampleEnv exampleScsiInput =
      .prepared (Prepare_body exampleEnv exampleScsiInput) ∧
    (Prepare_body exampleEnv exampleScsiInput).errs = [] ∧
    (Prepare_body exampleEnv exampleScsiInput).c.XMLFile = "" ∧
    ∃ xml, stepRun.getXMLDesc {} exampleRunEnv (Prepare_body exampleEnv exampleScsiInput).c {}
        exampleScsiState = .returned (.ok xml) ∧
      targetDevs xml = ["sda", "sdb", "sdc", "sdd", "sdd"] ∧
      ¬ (targetDevs xml).Nodup := by
  refine ⟨rfl, by decide, by decide, ?_⟩
  have hrun : ∃ xml, stepRun.getXMLDesc {} exampleRunEnv
      (Prepare_body exampleEnv exampleScsiInput).c {} exampleScsiState =
      .returned (.ok xml) := ⟨_, rfl⟩
  obtain ⟨xml, hrun⟩ := hrun
  obtain ⟨disks, floppyPath, hdisks, hfloppy, hlist⟩ :=
    getXMLDesc_targetDevs _ _ _ _ _ xml (by decide) hrun
  have hd : getXMLDesc_stateDisks (Prepare_body exampleEnv exampleScsiInput).c
      exampleRunEnv.fp exampleScsiState = .returned (.ok
        ((["/build/output-vm/packer-vm", "/build/output-vm/packer-vm-1",
            "/build/output-vm/packer-vm-2", "/build/output-vm/packer-vm-3"].zip
          ["sda", "sdb", "sdc", "sdd"]).map fun p =>
            mkDisk (Prepare_body exampleEnv exampleScsiInput).c p.1 p.2)) := rfl
  have hf : getXMLDesc_floppyPath exampleScsiState = .returned "" := rfl
  rw [hd] at hdisks
  rw [hf] at hfloppy
  injection hdisks with hdisks
  injection hdisks with hdisks
  injection hfloppy with hfloppy
  have hl : targetDevs xml = ["sda", "sdb", "sdc", "sdd", "sdd"] := by
    rw [hlist, ← hdisks, ← hfloppy]
    decide
  refine ⟨xml, hrun, hl, ?_⟩
  rw [hl]
  decide

/-! ## The CPU element of a default descriptor returned by getXMLDesc (step_run.go) -/

/-- Appending text keeps a text free of occurrences of `m` so. -/
theorem quietFor_append (m u v : List Char) (hu : quietFor m u = true)
    (hv : quietFor m v = true) : quietFor m (u ++ v) = true := by
  induction u with
  | nil => exact hv
  | cons c cs ih =>
    simp only [quietFor, Bool.and_eq_true] at hu
    simp only [List.cons_append, quietFor, Bool.and_eq_true]
    exact ⟨clash_append _ (c :: cs) v hu.1, ih hu.2⟩

theorem quietFor_of_forall_ne (a : Char) (m u : List Char) (h : ∀ c ∈ u, c ≠ a) :
    quietFor (a :: m) u = true := by
  induction u with
  | nil => rfl
  | cons c cs ih =>
    simp only [quietFor, Bool.and_eq_true]
    refine ⟨?_, ih (fun x hx => h x (List.mem_cons_of_mem _ hx))⟩
    have hc : ¬ a = c := fun e => h c (List.mem_cons_self _ _) e.symm
    simp only [clash, hc, if_false]

theorem findAfter_quiet (m u v : List Char) (hu : quietFor m u = true) :
    findAfter m (u ++ v) = findAfter m v := by
  induction u with
  | nil => rfl
  | cons c cs ih =>
    simp only [quietFor, Bool.and_eq_true] at hu
    have h := stripMarker_of_clash _ _ (clash_append _ (c :: cs) v hu.1)
    simp only [List.cons_append] at h ⊢
    rw [findAfter, h]
    exact ih hu.2

theorem findAfter_self (a : Char) (m v : List Char) :
    findAfter (a :: m) ((a :: m) ++ v) = some v := by
  have h := stripMarker_append_self (a :: m) v
  simp only [List.cons_append] at h ⊢
  rw [findAfter, h]

theorem takeBefore_quiet (m u v : List Char) (hu : quietFor m u = true) :
    takeBefore m (u ++ v) = u ++ takeBefore m v := by
  induction u with
  | nil => rfl
  | cons c cs ih =>
    simp only [quietFor, Bool.and_eq_true] at hu
    have h := stripMarker_of_clash _ _ (clash_append _ (c :: cs) v hu.1)
    simp only [List.cons_append] at h ⊢
    rw [takeBefore, h]
    simp only [ih hu.2]

theorem takeBefore_self (a : Char) (m v : List Char) :
    takeBefore (a :: m) ((a :: m) ++ v) = [] := by
  have h := stripMarker_append_self (a :: m) v
  simp only [List.cons_append] at h ⊢
  rw [takeBefore, h]

/-- The text between `start` and `stop`, when no `start` begins before the first one
and no `stop` begins inside the text. -/
theorem between_eq (start stop a inner b : String) (c : Char) (cs : List Char) (e : Char)
    (es : List Char) (hstart : start.data = c :: cs) (hstop : stop.data = e :: es)
    (ha : quietFor start.data a.data = true) (hin : quietFor stop.data inner.data = true) :
    between start stop (a ++ start ++ inner ++ stop ++ b) = some inner := by
  unfold between
  simp only [String.data_append, List.append_assoc]
  rw [findAfter_quiet _ _ _ ha]
  rw [hstart, findAfter_self]
  simp only [Option.map_some']
  rw [takeBefore_quiet _ _ _ hin, hstop, takeBefore_self, List.append_nil]

/-- No text between `start` and `stop` in a document in which no `start` begins. -/
theorem between_none (start stop doc : String) (h : quietFor start.data doc.data = true) :
    between start stop doc = none := by
  unfold between
  have := findAfter_quiet start.data doc.data [] h
  rw [List.append_nil] at this
  rw [this]
  rfl

theorem quietFor_htmlEscape (m : List Char) (s : String) :
    quietFor ('<' :: m) (htmlEscape s).data = true :=
  quietFor_of_forall_ne _ _ _ (fun c hc => (htmlEscape_plain s c hc).1)

theorem quietFor_int (m : List Char) (i : Int) :
    quietFor ('<' :: m) (toString i).data = true :=
  quietFor_of_forall_ne _ _ _ (fun c hc => (intToString_plain i c hc).1)

theorem quietFor_string_append (m : List Char) (a b : String)
    (ha : quietFor m a.data = true) (hb : quietFor m b.data = true) :
    quietFor m (a ++ b).data = true := by
  rw [String.data_append]
  exact quietFor_append _ _ _ ha hb

theorem quietFor_string_ite (m : List Char) (c : Prop) [Decidable c] (a b : String)
    (ha : quietFor m a.data = true) (hb : quietFor m b.data = true) :
    quietFor m (if c then a else b).data = true := by
  split <;> assumption

/-- No `cpu` element starts in the text of `XmlTemplate` before the CPU element. -/
theorem quietFor_cpu_head (x : LibvirtXML) :
    quietFor "<cpu ".data (XmlTemplate_head x).data = true := by
  unfold XmlTemplate_head
  repeat' apply quietFor_string_append
  all_goals try apply quietFor_string_ite
  all_goals repeat' apply quietFor_string_append
  all_goals first
    | decide!
    | exact quietFor_htmlEscape _ _
    | exact quietFor_int _ _

/-- The escaped text stands, as XML text, for the original with U+FFFD for NUL. -/
theorem xmlChars_htmlReplacement (c : Char) (rest : List Char) :
    xmlChars 0 ((htmlReplacement c).data ++ rest) =
      (if c = Char.ofNat 0 then Char.ofNat 0xFFFD else c) :: xmlChars 0 rest := by
  unfold htmlReplacement
  split_ifs with h0 h1 h2 h3 h4 h5 h6
  · subst h0; rfl
  · subst h1; rfl
  · subst h2; rfl
  · subst h3; rfl
  · subst h4; rfl
  · subst h5; rfl
  · subst h6; rfl
  · show xmlChars 0 (c :: rest) = c :: xmlChars 0 rest
    rw [xmlChars, if_neg h2]

theorem xmlText_htmlEscape (s : String) : xmlText (htmlEscape s) = withoutNul s := by
  unfold xmlText withoutNul htmlEscape
  congr 1
  show xmlChars 0 (List.flatten (s.toList.map fun c => (htmlReplacement c).toList)) = _
  rw [String.toList]
  induction s.data with
  | nil => rfl
  | cons c cs ih =>
    simp only [List.map_cons, List.flatten_cons]
    rw [String.toList, xmlChars_htmlReplacement, ih]


/-- The CPU element of `XmlTemplate` for the two passthrough-style modes. -/
theorem XmlTemplate_cpu_host (m : String) (h : m = "host-passthrough" ∨ m = "host-model") :
    XmlTemplate_cpu m = "\n\t" ++ "<cpu " ++ ("mode='" ++ m ++ "'>\n\t") ++ "</cpu>" ++ "\n\t" := by
  have hesc : htmlEscape m = m := by
    rcases h with h | h <;> rw [h] <;> decide
  unfold XmlTemplate_cpu
  rw [if_pos h, hesc]
  simp only [String.append_assoc]
  rfl

/-- The CPU element of `XmlTemplate` for every other mode. -/
theorem XmlTemplate_cpu_custom (m : String) (h : ¬ (m = "host-passthrough" ∨ m = "host-model")) :
    XmlTemplate_cpu m = "\n\t" ++ "<cpu " ++
      ("mode='custom' match='exact' check='none'>\n    \t<model fallback='allow'>" ++
        htmlEscape m ++ "</model>\n  \t") ++ "</cpu>" ++ "\n\t" := by
  unfold XmlTemplate_cpu
  rw [if_neg h]
  simp only [String.append_assoc]
  rfl

/-- The `cpu` element of the executed template, given the text of the CPU element. -/
theorem cpuElement_execute (x : LibvirtXML) (inner : String)
    (hcpu : XmlTemplate_cpu x.CPUMode = "\n\t" ++ "<cpu " ++ inner ++ "</cpu>" ++ "\n\t")
    (hin : quietFor "</cpu>".data inner.data = true) :
    cpuElement (XmlTemplate_execute x) = some inner := by
  have hdoc : XmlTemplate_execute x = (XmlTemplate_head x ++ "\n\t") ++ "<cpu " ++ inner ++
      "</cpu>" ++ ("\n\t" ++ (XmlTemplate_emulator x ++
        (String.join (x.Disks.map XmlTemplate_disk) ++
          (XmlTemplate_media x ++ XmlTemplate_tail x)))) := by
    unfold XmlTemplate_execute
    rw [hcpu]
    simp only [String.append_assoc]
  unfold cpuElement
  rw [hdoc]
  refine between_eq "<cpu " "</cpu>" _ inner _ '<' "cpu ".data '<' "/cpu>".data rfl rfl ?_ hin
  exact quietFor_string_append _ _ _ (quietFor_cpu_head x) (by decide!)

/-- A default descriptor returned by getXMLDesc is the executed template on data with
the CPU mode of the configuration. -/
theorem getXMLDesc_default_execute (st : stepRun) (env : RunEnv) (config : Config)
    (ctx : Context) (state : StateBag) (xml : String) (hdefault : config.XMLFile = "")
    (hrun : st.getXMLDesc env config ctx state = .returned (.ok xml)) :
    ∃ x : LibvirtXML, x.CPUMode = config.CPUMode ∧ xml = XmlTemplate_execute x := by
  obtain ⟨netName, vncPort, vncPassword, isoPath, disks, floppyPath, -, -, hdoc⟩ :=
    getXMLDesc_ok_inv st env config ctx state xml hrun
  unfold getXMLDesc_document at hdoc
  rw [if_neg (not_not.mpr hdefault)] at hdoc
  injection hdoc with hdoc
  exact ⟨_, rfl, hdoc.symm⟩

/-- Claim C16, amended: in a default descriptor returned by getXMLDesc the `cpu` element
has one of two forms, decided by the CPU mode of the configuration. For
"host-passthrough" and "host-model" it is a bare `cpu` element with that mode and no
`model` element. For every other CPU mode it is a `cpu` element with mode custom, match
exact and check none that contains a `model` element with fallback allow, whose content
is the CPU mode as the template escaper writes it; read as XML text that content is the
CPU mode with U+FFFD for every NUL character, so the CPU mode itself when it has no
NUL. -/
theorem C16_cpu_element_two_branches (st : stepRun) (env : RunEnv) (config : Config)
    (ctx : Context) (state : StateBag) (xml : String) (hdefault : config.XMLFile = "")
    (hrun : st.getXMLDesc env config ctx state = .returned (.ok xml)) :
    (config.CPUMode = "host-passthrough" ∨ config.CPUMode = "host-model" →
      cpuElement xml = some ("mode='" ++ config.CPUMode ++ "'>\n\t") ∧
      modelElement ("mode='" ++ config.CPUMode ++ "'>\n\t") = none) ∧
    (¬ (config.CPUMode = "host-passthrough" ∨ config.CPUMode = "host-model") →
      cpuElement xml = some
        ("mode='custom' match='exact' check='none'>\n    \t<model fallback='allow'>" ++
          htmlEscape config.CPUMode ++ "</model>\n  \t") ∧
      modelElement
        ("mode='custom' match='exact' check='none'>\n    \t<model fallback='allow'>" ++
          htmlEscape config.CPUMode ++ "</model>\n  \t") =
        some (" fallback='allow'>" ++ htmlEscape config.CPUMode) ∧
      xmlText (htmlEscape config.CPUMode) = withoutNul config.CPUMode) := by
  obtain ⟨x, hx, hxml⟩ := getXMLDesc_default_execute st env config ctx state xml hdefault hrun
  subst hxml
  rw [← hx]
  constructor
  · intro h
    constructor
    · apply cpuElement_execute x _ (XmlTemplate_cpu_host _ h)
      rcases h with h | h <;> rw [h] <;> decide!
    · rcases h with h | h <;> rw [h] <;> decide!
  · intro h
    refine ⟨?_, ?_, xmlText_htmlEscape _⟩
    · apply cpuElement_execute x _ (XmlTemplate_cpu_custom _ h)
      repeat' apply quietFor_string_append
      · decide!
      · exact quietFor_htmlEscape _ _
      · decide!
    · unfold modelElement
      have hsplit : "mode='custom' match='exact' check='none'>\n    \t<model fallback='allow'>" ++
          htmlEscape x.CPUMode ++ "</model>\n  \t" =
          "mode='custom' match='exact' check='none'>\n    \t" ++ "<model" ++
            (" fallback='allow'>" ++ htmlEscape x.CPUMode) ++ "</model>" ++ "\n  \t" := by
        simp only [String.append_assoc]
        rfl
      rw [hsplit]
      refine between_eq "<model" "</model>" _ _ _ '<' "model".data '<' "/model>".data rfl rfl
        (by decide!) ?_
      exact quietFor_string_append _ _ _ (by decide!) (quietFor_htmlEscape _ _)


/-- Claim C16, witness: for the CPU mode "core2duo+vmx" the descriptor has the custom
element whose model content "core2duo&#43;vmx" is, as XML text, the CPU mode. -/
theorem C16_cpu_element_two_branches_witness :
    ∃ xml, stepRun.getXMLDesc {} exampleRunEnv { exampleConfig with CPUMode := "core2duo+vmx" }
        {} exampleRunState = .returned (.ok xml) ∧
      cpuElement xml = some
        ("mode='custom' match='exact' check='none'>\n    \t<model fallback='allow'>" ++
          "core2duo&#43;vmx" ++ "</model>\n  \t") ∧
      xmlText "core2duo&#43;vmx" = "core2duo+vmx" := by
  have hrun : ∃ xml, stepRun.getXMLDesc {} exampleRunEnv
      { exampleConfig with CPUMode := "core2duo+vmx" } {} exampleRunState =
      .returned (.ok xml) := ⟨_, rfl⟩
  obtain ⟨xml, hrun⟩ := hrun
  have h := (C16_cpu_element_two_branches {} exampleRunEnv
    { exampleConfig with CPUMode := "core2duo+vmx" } {} exampleRunState xml rfl hrun).2
    (by decide)
  exact ⟨xml, hrun, h.1, h.2.2⟩

/-- Claim C16, counterexample: for a CPU mode that is one NUL character the text of the
model element is U+FFFD, not the CPU mode. -/
theorem C16_counterexample_nul_model :
    ∃ xml, stepRun.getXMLDesc {} exampleRunEnv
        { exampleConfig with CPUMode := String.mk [Char.ofNat 0] } {} exampleRunState =
        .returned (.ok xml) ∧
      cpuElement xml = some
        ("mode='custom' match='exact' check='none'>\n    \t<model fallback='allow'>" ++
          "\uFFFD" ++ "</model>\n  \t") ∧
      modelElement
        ("mode='custom' match='exact' check='none'>\n    \t<model fallback='allow'>" ++
          "\uFFFD" ++ "</model>\n  \t") = some (" fallback='allow'>" ++ "\uFFFD") ∧
      xmlText "\uFFFD" = "\uFFFD" ∧
      "\uFFFD" ≠ String.mk [Char.ofNat 0] := by
  have hrun : ∃ xml, stepRun.getXMLDesc {} exampleRunEnv
      { exampleConfig with CPUMode := String.mk [Char.ofNat 0] } {} exampleRunState =
      .returned (.ok xml) := ⟨_, rfl⟩
  obtain ⟨xml, hrun⟩ := hrun
  obtain ⟨x, hx, hxml⟩ := getXMLDesc_default_execute _ _ _ _ _ xml rfl hrun
  have hmode : ¬ (x.CPUMode = "host-passthrough" ∨ x.CPUMode = "host-model") := by
    rw [hx]; decide
  have hesc : htmlEscape x.CPUMode = "\uFFFD" := by rw [hx]; decide
  have hcpu := XmlTemplate_cpu_custom x.CPUMode hmode
  rw [hesc] at hcpu
  refine ⟨xml, hrun, ?_, by decide!, by decide, by decide⟩
  rw [hxml]
  exact cpuElement_execute x _ hcpu (by decide!)

end PackerLibvirt
